import Mathlib

/-!
# Incident tracker: the REST handlers of `server/index.js`

A shallow embedding of the four request handlers of `src/server/index.js`
(`GET /api/incidents`, `POST /api/incidents`, `GET /api/incidents/:id`,
`PATCH /api/incidents/:id`) together with the parts of the JavaScript
runtime, of zod and of the Prisma client they rely on.

Conventions of the embedding:

* JavaScript numbers that arise in the handlers are integers, `NaN`, a signed
  zero or an infinity; an integer result of `parseInt`, of a subtraction or of
  a product is rounded to the nearest IEEE double (ties to even), so it is
  exact below `2^53` and may overflow to an infinity.
* A query parameter is absent or a string (`Option String`).
* The table of incidents is a list of rows in insertion order.
-/

set_option autoImplicit false

namespace IncidentTracker

/-! ## JavaScript numbers -/

/-- The JavaScript number values reachable in the handlers. -/
inductive JsNum where
  | int (i : Int)
  | negZero
  | nan
  | posInf
  | negInf
  deriving DecidableEq, Repr

namespace JsNum

/-- Sign bit of a number (`NaN` counts as unsigned here; it is never consulted for `NaN`). -/
def isNeg : JsNum → Bool
  | int i => decide (i < 0)
  | negZero => true
  | negInf => true
  | _ => false

/-- Whether the value is `+0` or `-0`. -/
def isZero : JsNum → Bool
  | int i => decide (i = 0)
  | negZero => true
  | _ => false

/-- The integer denoted by a finite value (`-0` denotes `0`). -/
def toInt? : JsNum → Option Int
  | int i => some i
  | negZero => some 0
  | _ => none

/-- A zero with the given sign. -/
def zero (neg : Bool) : JsNum := if neg then negZero else int 0

/-- An infinity with the given sign. -/
def inf (neg : Bool) : JsNum := if neg then negInf else posInf

/-- An integer result with the given sign for the case it is zero. -/
def ofInt (i : Int) (negIfZero : Bool) : JsNum :=
  if i = 0 then zero negIfZero else int i

/-- The least shift `s`, from `start` on, with `n / 2^s < 2^53`, searched for `fuel` steps. -/
def shiftFrom : Nat → Nat → Nat → Nat
  | 0, start, _ => start
  | fuel + 1, start, n =>
    if n / 2 ^ start < 2 ^ 53 then start else shiftFrom fuel (start + 1) n

/-- Rounding of a quotient `q` with remainder `r` to the nearest integer, a remainder of
exactly `half` going to the even neighbour. -/
def roundHalfEven (q r half : Nat) : Nat :=
  if half < r ∨ (r = half ∧ q % 2 = 1) then q + 1 else q

/-- The 53 leading bits of `n ≥ 2^53` after rounding, for the shift `s` that leaves 53 bits. -/
def significand (n s : Nat) : Nat :=
  roundHalfEven (n / 2 ^ s) (n % 2 ^ s) (2 ^ (s - 1))

/-- The natural number denoted by the IEEE double nearest to `n` (53 significant bits, ties
to even); `none` when `n` rounds to Infinity, that is when no shift up to 971 leaves 53
bits (`n ≥ 2^1024`) or the rounded value reaches `2^1024`. -/
def roundNat (n : Nat) : Option Nat :=
  if n < 2 ^ 53 then some n
  else if 971 < shiftFrom 971 1 n then none
  else if shiftFrom 971 1 n = 971 ∧ significand n 971 = 2 ^ 53 then none
  else some (significand n (shiftFrom 971 1 n) * 2 ^ shiftFrom 971 1 n)

/-- The double an exact integer result is rounded to, with the given sign for the case it is
zero. -/
def round (i : Int) (negIfZero : Bool) : JsNum :=
  if i = 0 then zero negIfZero
  else
    match roundNat i.natAbs with
    | some m => int (if i < 0 then -(m : Int) else (m : Int))
    | none => inf (decide (i < 0))

/-- JavaScript `a - b` where `b` is a non-zero integer literal (here always `1`). -/
def subLit (a : JsNum) (b : Int) : JsNum :=
  match a with
  | int i => round (i - b) false
  | negZero => round (0 - b) false
  | nan => nan
  | posInf => posInf
  | negInf => negInf

/-- JavaScript `a * b`: the exact product of two integers is rounded to a double. -/
def mul (a b : JsNum) : JsNum :=
  match a, b with
  | nan, _ => nan
  | _, nan => nan
  | x, y =>
    let neg := xor x.isNeg y.isNeg
    match x.toInt?, y.toInt? with
    | some i, some j => round (i * j) neg
    | _, _ => if x.isZero || y.isZero then nan else inf neg

/-- JavaScript `Math.ceil(total / d)` for a non-negative integer `total` (a row count). -/
def ceilDiv (total : Nat) (d : JsNum) : JsNum :=
  match d with
  | nan => nan
  | posInf => int 0
  | negInf => negZero
  | negZero => if total = 0 then nan else negInf
  | int t =>
    if t = 0 then (if total = 0 then nan else posInf)
    else ofInt (-(Int.fdiv (-(total : Int)) t)) (decide (t < 0))

end JsNum

/-! ## `parseInt` -/

/-- The code points `parseInt` skips at the start of its argument: the ECMAScript
`WhiteSpace` and `LineTerminator` productions. -/
def isJsWhitespace (c : Char) : Bool :=
  let n := c.toNat
  n = 0x09 || n = 0x0A || n = 0x0B || n = 0x0C || n = 0x0D || n = 0x20 || n = 0xA0 ||
  n = 0x1680 || (0x2000 ≤ n && n ≤ 0x200A) || n = 0x2028 || n = 0x2029 || n = 0x202F ||
  n = 0x205F || n = 0x3000 || n = 0xFEFF

/-- Value of a character as a digit in the given radix (10 or 16), if it is one. -/
def digitValue (radix : Nat) (c : Char) : Option Nat :=
  let n := c.toNat
  if 48 ≤ n ∧ n ≤ 57 then some (n - 48)
  else if radix = 16 ∧ 97 ≤ n ∧ n ≤ 102 then some (n - 87)
  else if radix = 16 ∧ 65 ≤ n ∧ n ≤ 70 then some (n - 55)
  else none

/-- Reads the longest run of radix digits at the head of `cs`; `acc` is the value read so
far and `seen` tells whether any digit has been read. Yields `none` when there is no digit. -/
def readDigits (radix : Nat) : List Char → Nat → Bool → Option Nat
  | [], acc, seen => if seen then some acc else none
  | c :: cs, acc, seen =>
    match digitValue radix c with
    | some d => readDigits radix cs (acc * radix + d) true
    | none => if seen then some acc else none

/-- Drops the leading white space of a string. -/
def trimStart : List Char → List Char
  | [] => []
  | c :: cs => if isJsWhitespace c then trimStart cs else c :: cs

/-- The digits part of `parseInt`, after white space and sign are removed: a `0x`/`0X`
marker switches to radix 16. -/
def parseDigits : List Char → Option Nat
  | '0' :: 'x' :: cs => readDigits 16 cs 0 false
  | '0' :: 'X' :: cs => readDigits 16 cs 0 false
  | cs => readDigits 10 cs 0 false

/-- ECMAScript `parseInt(string)` with no radix argument, on the characters of the string:
the value of the digits is rounded to a double, so it is exact below `2^53` and Infinity for
very long runs of digits. -/
def parseIntChars (cs : List Char) : JsNum :=
  match trimStart cs with
  | '-' :: rest =>
    match parseDigits rest with
    | some n => JsNum.round (-(n : Int)) true
    | none => JsNum.nan
  | '+' :: rest =>
    match parseDigits rest with
    | some n => JsNum.round n false
    | none => JsNum.nan
  | rest =>
    match parseDigits rest with
    | some n => JsNum.round n false
    | none => JsNum.nan

/-- A destructured query value: the string sent by the client, or the numeric default of the
destructuring pattern (`page = 1`, `limit = 10`). -/
inductive JsVal where
  | str (s : String)
  | num (n : Nat)
  deriving DecidableEq, Repr

/-- ECMAScript `ToString` on the values above (numeric defaults are small naturals). -/
def JsVal.toChars : JsVal → List Char
  | .str s => s.data
  | .num n => Nat.toDigits 10 n

/-- ECMAScript `parseInt(v)`: the argument is converted to a string first. -/
def parseInt (v : JsVal) : JsNum := parseIntChars v.toChars

/-! ## Data model -/

/-- Modelled from the spec: the `Incident` model of the Prisma schema (the schema file is not
among the sources), with the fields of section 3 of the specification. Enumerated fields are
stored as text; timestamps are instants counted in clock ticks. -/
structure Incident where
  id : String
  title : String
  service : String
  severity : String
  status : String
  owner : Option String
  summary : Option String
  createdAt : Nat
  updatedAt : Nat
  deriving DecidableEq, Repr

/-- The scalar fields of `Incident`, the admissible keys of `orderBy`. -/
inductive SortField where
  | id | title | service | severity | status | owner | summary | createdAt | updatedAt
  deriving DecidableEq, Repr

/-- Resolves a field name against the model. -/
def SortField.ofName (name : String) : Option SortField :=
  if name = "id" then some .id
  else if name = "title" then some .title
  else if name = "service" then some .service
  else if name = "severity" then some .severity
  else if name = "status" then some .status
  else if name = "owner" then some .owner
  else if name = "summary" then some .summary
  else if name = "createdAt" then some .createdAt
  else if name = "updatedAt" then some .updatedAt
  else none

/-- Sort directions accepted by the store. -/
inductive SortOrder where
  | asc | desc
  deriving DecidableEq, Repr

/-- Resolves a direction name. -/
def SortOrder.ofName (name : String) : Option SortOrder :=
  if name = "asc" then some .asc
  else if name = "desc" then some .desc
  else none

/-! ## Row order and the store engine -/

/-- Code-point order on texts, the order of the store's default (binary) collation. -/
def textLe : List Char → List Char → Bool
  | [], _ => true
  | _ :: _, [] => false
  | c :: cs, d :: ds => c.toNat < d.toNat || (c.toNat == d.toNat && textLe cs ds)

/-- Order on nullable texts: null sorts before every text. -/
def nullableLe : Option String → Option String → Bool
  | none, _ => true
  | some _, none => false
  | some a, some b => textLe a.data b.data

/-- Ascending order of two rows under a sort key. -/
def keyLe (f : SortField) (a b : Incident) : Bool :=
  match f with
  | .id => textLe a.id.data b.id.data
  | .title => textLe a.title.data b.title.data
  | .service => textLe a.service.data b.service.data
  | .severity => textLe a.severity.data b.severity.data
  | .status => textLe a.status.data b.status.data
  | .owner => nullableLe a.owner b.owner
  | .summary => nullableLe a.summary b.summary
  | .createdAt => decide (a.createdAt ≤ b.createdAt)
  | .updatedAt => decide (a.updatedAt ≤ b.updatedAt)

/-- Order of two rows under a sort key and direction. -/
def rowLe (f : SortField) (o : SortOrder) (a b : Incident) : Bool :=
  match o with
  | .asc => keyLe f a b
  | .desc => keyLe f b a

instance textLe_total : IsTotal (List Char) (fun a b => textLe a b = true) :=
  ⟨by
    intro a
    induction a with
    | nil => intro b; exact Or.inl rfl
    | cons c cs ih =>
      intro b
      cases b with
      | nil => exact Or.inr rfl
      | cons d ds =>
        simp only [textLe, Bool.or_eq_true, Bool.and_eq_true, decide_eq_true_eq, beq_iff_eq]
        rcases ih ds with h | h
        · rcases Nat.lt_trichotomy c.toNat d.toNat with h1 | h1 | h1
          · exact Or.inl (Or.inl h1)
          · exact Or.inl (Or.inr ⟨h1, h⟩)
          · exact Or.inr (Or.inl h1)
        · rcases Nat.lt_trichotomy c.toNat d.toNat with h1 | h1 | h1
          · exact Or.inl (Or.inl h1)
          · exact Or.inr (Or.inr ⟨h1.symm, h⟩)
          · exact Or.inr (Or.inl h1)⟩

instance textLe_trans : IsTrans (List Char) (fun a b => textLe a b = true) :=
  ⟨by
    intro a
    induction a with
    | nil => intro b c _ _; rfl
    | cons x xs ih =>
      intro b c hab hbc
      cases b with
      | nil => simp [textLe] at hab
      | cons y ys =>
        cases c with
        | nil => simp [textLe] at hbc
        | cons z zs =>
          simp only [textLe, Bool.or_eq_true, Bool.and_eq_true, decide_eq_true_eq,
            beq_iff_eq] at hab hbc ⊢
          rcases hab with h1 | ⟨h1, h2⟩
          · rcases hbc with h3 | ⟨h3, _⟩
            · exact Or.inl (by omega)
            · exact Or.inl (by omega)
          · rcases hbc with h3 | ⟨h3, h4⟩
            · exact Or.inl (by omega)
            · exact Or.inr ⟨by omega, ih ys zs h2 h4⟩⟩

instance nullableLe_total : IsTotal (Option String) (fun a b => nullableLe a b = true) :=
  ⟨by
    intro a b
    cases a with
    | none => exact Or.inl rfl
    | some x =>
      cases b with
      | none => exact Or.inr rfl
      | some y => exact textLe_total.total x.data y.data⟩

instance nullableLe_trans : IsTrans (Option String) (fun a b => nullableLe a b = true) :=
  ⟨by
    intro a b c hab hbc
    cases a with
    | none => rfl
    | some x =>
      cases b with
      | none => simp [nullableLe] at hab
      | some y =>
        cases c with
        | none => simp [nullableLe] at hbc
        | some z => exact textLe_trans.trans x.data y.data z.data hab hbc⟩

instance keyLe_total (f : SortField) : IsTotal Incident (fun a b => keyLe f a b = true) :=
  ⟨by
    intro a b
    cases f
    · exact textLe_total.total a.id.data b.id.data
    · exact textLe_total.total a.title.data b.title.data
    · exact textLe_total.total a.service.data b.service.data
    · exact textLe_total.total a.severity.data b.severity.data
    · exact textLe_total.total a.status.data b.status.data
    · exact nullableLe_total.total a.owner b.owner
    · exact nullableLe_total.total a.summary b.summary
    · simp only [keyLe, decide_eq_true_eq]
      exact Nat.le_total _ _
    · simp only [keyLe, decide_eq_true_eq]
      exact Nat.le_total _ _⟩

instance keyLe_trans (f : SortField) : IsTrans Incident (fun a b => keyLe f a b = true) :=
  ⟨by
    intro a b c hab hbc
    cases f
    · exact textLe_trans.trans a.id.data b.id.data c.id.data hab hbc
    · exact textLe_trans.trans a.title.data b.title.data c.title.data hab hbc
    · exact textLe_trans.trans a.service.data b.service.data c.service.data hab hbc
    · exact textLe_trans.trans a.severity.data b.severity.data c.severity.data hab hbc
    · exact textLe_trans.trans a.status.data b.status.data c.status.data hab hbc
    · exact nullableLe_trans.trans a.owner b.owner c.owner hab hbc
    · exact nullableLe_trans.trans a.summary b.summary c.summary hab hbc
    · simp only [keyLe, decide_eq_true_eq] at hab hbc ⊢
      exact Nat.le_trans hab hbc
    · simp only [keyLe, decide_eq_true_eq] at hab hbc ⊢
      exact Nat.le_trans hab hbc⟩

instance rowLe_total (f : SortField) (o : SortOrder) :
    IsTotal Incident (fun a b => rowLe f o a b = true) :=
  ⟨by
    intro a b
    cases o
    · exact (keyLe_total f).total a b
    · exact (keyLe_total f).total b a⟩

instance rowLe_trans (f : SortField) (o : SortOrder) :
    IsTrans Incident (fun a b => rowLe f o a b = true) :=
  ⟨by
    intro a b c hab hbc
    cases o
    · exact (keyLe_trans f).trans a b c hab hbc
    · exact (keyLe_trans f).trans c b a hbc hab⟩

/-- What the database engine decides and the handlers do not: the substring test behind
`contains` (its case sensitivity depends on the engine) and the order it gives to rows with
equal sort keys. Ordering rearranges the rows, neither dropping nor adding any, and puts them
in the order of the sort key and direction. -/
structure Engine where
  contains : String → String → Bool
  orderBy : SortField → SortOrder → List Incident → List Incident
  orderBy_perm : ∀ f o rows, (orderBy f o rows).Perm rows
  orderBy_sorted : ∀ f o rows, (orderBy f o rows).Pairwise (fun a b => rowLe f o a b = true)

/-! ## The `where` argument -/

/-- One alternative of the `OR` list built by the list handler. -/
inductive Contains where
  | title (needle : String)
  | summary (needle : String)
  deriving DecidableEq, Repr

/-- The `where` object built by the list handler: each key is set or left out. -/
structure Where where
  status : Option String := none
  severity : Option String := none
  service : Option String := none
  OR : Option (List Contains) := none
  deriving DecidableEq, Repr

/-- A `contains` condition on a row; a null summary contains nothing. -/
def Contains.holds (E : Engine) (r : Incident) : Contains → Bool
  | .title needle => E.contains r.title needle
  | .summary needle =>
    match r.summary with
    | some s => E.contains s needle
    | none => false

/-- Equality condition of a `where` key that may be left out. -/
def eqFilter (key : Option String) (value : String) : Bool :=
  match key with
  | some v => decide (value = v)
  | none => true

/-- Whether a row satisfies a `where` object: the keys are conjoined, `OR` is a disjunction. -/
def Where.holds (E : Engine) (w : Where) (r : Incident) : Bool :=
  eqFilter w.status r.status && eqFilter w.severity r.severity &&
  eqFilter w.service r.service &&
  (match w.OR with
   | some alts => alts.any (Contains.holds E r)
   | none => true)

/-! ## The store client -/

/-- Errors thrown by the store client: a rejected argument (no `code` property) or a known
request error carrying a `code`. -/
inductive StoreError where
  | validation
  | known (code : String)
  deriving DecidableEq, Repr

/-- The rows selected by a `where` object, in table order. -/
def matching (E : Engine) (db : List Incident) (w : Where) : List Incident :=
  db.filter (Where.holds E w)

/-- The `skip`/`take` window on an ordered result: a negative `take` counts from the end. -/
def window (sorted : List Incident) (skip : Nat) (take : Int) : List Incident :=
  if 0 ≤ take then (sorted.drop skip).take take.toNat
  else ((sorted.reverse.drop skip).take take.natAbs).reverse

/-- Whether an integer fits a signed 64-bit integer. -/
def fitsInt64 (i : Int) : Bool :=
  decide (-9223372036854775808 ≤ i) && decide (i ≤ 9223372036854775807)

/-- The store's `findMany` with `skip`, `take`, `where` and a one-key `orderBy`. The client
rejects a `skip` or `take` that is not an integer or does not fit a signed 64-bit integer, a
negative `skip`, a sort key that is not a field of the model and a direction other than
`asc`/`desc`. -/
def findMany (E : Engine) (db : List Incident) (skip take : JsNum) (w : Where)
    (sort order : String) : Except StoreError (List Incident) :=
  match skip.toInt?, take.toInt?, SortField.ofName sort, SortOrder.ofName order with
  | some sk, some tk, some f, some o =>
    if sk < 0 ∨ fitsInt64 sk = false ∨ fitsInt64 tk = false then .error .validation
    else .ok (window (E.orderBy f o (matching E db w)) sk.toNat tk)
  | _, _, _, _ => .error .validation

/-- The store's `count` with a `where` argument. -/
def count (E : Engine) (db : List Incident) (w : Where) : Except StoreError Nat :=
  .ok (matching E db w).length

/-! ## Responses -/

/-- The `pagination` object of a list response. -/
structure Pagination where
  total : Nat
  page : JsNum
  limit : JsNum
  totalPages : JsNum
  deriving DecidableEq, Repr

/-- Query parameters of the list request; each is absent or a string. -/
structure Query where
  page : Option String := none
  limit : Option String := none
  sort : Option String := none
  order : Option String := none
  status : Option String := none
  severity : Option String := none
  service : Option String := none
  search : Option String := none
  deriving DecidableEq, Repr

/-- JavaScript truthiness of an optional string: present and not empty. -/
def truthy : Option String → Bool
  | some s => s != ""
  | none => false

/-- Destructuring with a numeric default. -/
def withNumDefault (v : Option String) (dflt : Nat) : JsVal :=
  match v with
  | some s => .str s
  | none => .num dflt

/-- Destructuring with a string default. -/
def withStrDefault (v : Option String) (dflt : String) : String :=
  match v with
  | some s => s
  | none => dflt

/-- The `page` variable of the list handler. -/
def pageArg (q : Query) : JsVal := withNumDefault q.page 1

/-- The `limit` variable of the list handler. -/
def limitArg (q : Query) : JsVal := withNumDefault q.limit 10

/-- The `sort` variable of the list handler. -/
def sortArg (q : Query) : String := withStrDefault q.sort "createdAt"

/-- The `order` variable of the list handler. -/
def orderArg (q : Query) : String := withStrDefault q.order "desc"

/-- The handler's `skip`: `(parseInt(page) - 1) * parseInt(limit)`. -/
def skipOf (q : Query) : JsNum := ((parseInt (pageArg q)).subLit 1).mul (parseInt (limitArg q))

/-- The handler's `take`: `parseInt(limit)`. -/
def takeOf (q : Query) : JsNum := parseInt (limitArg q)

/-- The handler's `where`: a key is set when its parameter is truthy. -/
def buildWhere (q : Query) : Where :=
  { status := if truthy q.status then q.status else none
    severity := if truthy q.severity then q.severity else none
    service := if truthy q.service then q.service else none
    OR := match q.search with
      | some s => if s != "" then some [.title s, .summary s] else none
      | none => none }

/-! ## Request bodies and the validation schemas -/

/-- A parsed JSON request body. -/
inductive Json where
  | null
  | bool (b : Bool)
  | num (n : Int)
  | str (s : String)
  | arr (items : List Json)
  | obj (members : List (String × Json))

/-- Property access on the members of a parsed object: a repeated key keeps its last value. -/
def lookup : List (String × Json) → String → Option Json
  | [], _ => none
  | (k, v) :: rest, key =>
    match lookup rest key with
    | some w => some w
    | none => if k = key then some v else none

/-- The issue codes the two schemas can raise. -/
inductive IssueCode where
  | invalid_type
  | too_small
  | invalid_enum_value
  deriving DecidableEq, Repr

/-- The text of an issue: the message written in the schema, or the library's default text
for the code. -/
inductive Message where
  | custom (text : String)
  | default (code : IssueCode)
  deriving DecidableEq, Repr

/-- A validation issue: where it arose and what it says. -/
structure Issue where
  path : List String
  code : IssueCode
  message : Message
  deriving DecidableEq, Repr

/-- The object validated data is handed to the store in: each recognised key is present or
not; `owner` and `summary` may be present with the value null. -/
structure Data where
  title : Option String := none
  service : Option String := none
  severity : Option String := none
  status : Option String := none
  owner : Option (Option String) := none
  summary : Option (Option String) := none
  deriving DecidableEq, Repr

/-- An issue with the library's default text. -/
def defaultIssue (key : String) (code : IssueCode) : Issue :=
  { path := [key], code := code, message := .default code }

/-- The rule `z.string().min(1, msg)` applied to the value found under `key`. -/
def stringMin1 (key msg : String) : Option Json → Except Issue String
  | some (.str s) =>
    if 1 ≤ s.length then .ok s
    else .error { path := [key], code := .too_small, message := .custom msg }
  | _ => .error (defaultIssue key .invalid_type)

/-- The rule `z.enum(values)` applied to the value found under `key`. -/
def enumOf (key : String) (values : List String) : Option Json → Except Issue String
  | some (.str s) =>
    if s ∈ values then .ok s else .error (defaultIssue key .invalid_enum_value)
  | _ => .error (defaultIssue key .invalid_type)

/-- The rule `z.string().optional().nullable()` applied to the value found under `key`. -/
def optionalNullableString (key : String) : Option Json → Except Issue (Option (Option String))
  | none => .ok none
  | some .null => .ok (some none)
  | some (.str s) => .ok (some (some s))
  | some _ => .error (defaultIssue key .invalid_type)

/-- A rule made optional, as `.partial()` does to every key: an absent key passes. -/
def optionalRule {α : Type} (rule : Option Json → Except Issue α) :
    Option Json → Except Issue (Option α)
  | none => .ok none
  | some v =>
    match rule (some v) with
    | .ok a => .ok (some a)
    | .error e => .error e

/-- The values of `severity`. -/
def severities : List String := ["SEV1", "SEV2", "SEV3", "SEV4"]

/-- The values of `status`. -/
def statuses : List String := ["OPEN", "MITIGATED", "RESOLVED"]

/-- Rule of the key `title`. -/
def titleRule : Option Json → Except Issue String := stringMin1 "title" "Title is required"

/-- Rule of the key `service`. -/
def serviceRule : Option Json → Except Issue String :=
  stringMin1 "service" "Service is required"

/-- Rule of the key `severity`. -/
def severityRule : Option Json → Except Issue String := enumOf "severity" severities

/-- Rule of the key `status`. -/
def statusRule : Option Json → Except Issue String := enumOf "status" statuses

/-- Rule of the key `owner`. -/
def ownerRule : Option Json → Except Issue (Option (Option String)) :=
  optionalNullableString "owner"

/-- Rule of the key `summary`. -/
def summaryRule : Option Json → Except Issue (Option (Option String)) :=
  optionalNullableString "summary"

/-- The issue of a failed rule, as a list. -/
def issuesOf {α : Type} : Except Issue α → List Issue
  | .ok _ => []
  | .error e => [e]

/-- The issue raised when the body is not an object. -/
def notAnObject : Issue := { path := [], code := .invalid_type, message := .default .invalid_type }

/-- The object schema of `incidentSchema` on the members of an object: the stripped data, or
the issues in key order. -/
def incidentShape (m : List (String × Json)) : Except (List Issue) Data :=
  match titleRule (lookup m "title"), serviceRule (lookup m "service"),
    severityRule (lookup m "severity"), statusRule (lookup m "status"),
    ownerRule (lookup m "owner"), summaryRule (lookup m "summary") with
  | .ok t, .ok sv, .ok se, .ok st, .ok o, .ok su =>
    .ok { title := some t, service := some sv, severity := some se, status := some st,
          owner := o, summary := su }
  | rt, rsv, rse, rst, ro, rsu =>
    .error (issuesOf rt ++ issuesOf rsv ++ issuesOf rse ++ issuesOf rst ++ issuesOf ro ++
      issuesOf rsu)

/-- The result of `incidentSchema.safeParse(body)`. -/
def incidentSchema (body : Json) : Except (List Issue) Data :=
  match body with
  | .obj m => incidentShape m
  | _ => .error [notAnObject]

/-- A nullable rule made optional: an absent key passes and stays absent. -/
def optionalNullable (rule : Option Json → Except Issue (Option (Option String))) :
    Option Json → Except Issue (Option (Option String))
  | none => .ok none
  | some v => rule (some v)

/-- The object schema of `updateSchema`, which is `incidentSchema` with every key made
optional, on the members of an object. -/
def updateShape (m : List (String × Json)) : Except (List Issue) Data :=
  match optionalRule titleRule (lookup m "title"),
    optionalRule serviceRule (lookup m "service"),
    optionalRule severityRule (lookup m "severity"),
    optionalRule statusRule (lookup m "status"),
    optionalNullable ownerRule (lookup m "owner"),
    optionalNullable summaryRule (lookup m "summary") with
  | .ok t, .ok sv, .ok se, .ok st, .ok o, .ok su =>
    .ok { title := t, service := sv, severity := se, status := st, owner := o, summary := su }
  | rt, rsv, rse, rst, ro, rsu =>
    .error (issuesOf rt ++ issuesOf rsv ++ issuesOf rse ++ issuesOf rst ++ issuesOf ro ++
      issuesOf rsu)

/-- The result of `updateSchema.safeParse(body)`. -/
def updateSchema (body : Json) : Except (List Issue) Data :=
  match body with
  | .obj m => updateShape m
  | _ => .error [notAnObject]

/-- The object produced by `error.format()`: the messages of the issues without a path
under `_errors`, and for each key with issues the messages filed under that key. -/
structure ErrorReport where
  _errors : List Message := []
  fields : List (String × List Message) := []
  deriving DecidableEq, Repr

/-- Files a message under a key, creating the key at the end when it is new. -/
def fileUnder (key : String) (msg : Message) :
    List (String × List Message) → List (String × List Message)
  | [] => [(key, [msg])]
  | (k, msgs) :: rest =>
    if k = key then (k, msgs ++ [msg]) :: rest else (k, msgs) :: fileUnder key msg rest

/-- Adds one issue to a report. -/
def ErrorReport.add (r : ErrorReport) (i : Issue) : ErrorReport :=
  match i.path with
  | [] => { r with _errors := r._errors ++ [i.message] }
  | key :: _ => { r with fields := fileUnder key i.message r.fields }

/-- The report `error.format()` builds from the issues of a failed parse. -/
def format (issues : List Issue) : ErrorReport :=
  issues.foldl ErrorReport.add {}

/-- The keys of the two schemas. -/
def schemaKeys : List String := ["title", "service", "severity", "status", "owner", "summary"]

/-- An issue is on file in a report: its message stands under `_errors` when the issue has no
path, and under the key of its path when that is one of the schema keys. -/
def onFile (report : ErrorReport) (i : Issue) : Prop :=
  (i.path = [] ∧ i.message ∈ report._errors) ∨
  ∃ k msgs, i.path = [k] ∧ k ∈ schemaKeys ∧ (k, msgs) ∈ report.fields ∧ i.message ∈ msgs

/-! ## Store writes and lookups -/

/-- The value an optional text column takes from the data: unchanged when the key is absent. -/
def setNullable (old : Option String) : Option (Option String) → Option String
  | none => old
  | some v => v

/-- Modelled from the spec: the column attributes of the Prisma schema, which is not among the
sources (`updatedAt` is refreshed on every successful update; `id` and `createdAt` are set at
creation only). The row after an update with the given data at the instant `now`: the keys
present in the data are written and `updatedAt` is refreshed. -/
def applyData (r : Incident) (d : Data) (now : Nat) : Incident :=
  { r with
    title := d.title.getD r.title
    service := d.service.getD r.service
    severity := d.severity.getD r.severity
    status := d.status.getD r.status
    owner := setNullable r.owner d.owner
    summary := setNullable r.summary d.summary
    updatedAt := now }

/-- Modelled from the spec: the column attributes of the Prisma schema, which is not among the
sources (the identifier is generated and unique, both timestamps are set at creation, `owner`
and `summary` are optional). The store's `create`: the client rejects data lacking a required
column; the new row gets the generated identifier `newId` and both timestamps set to `now`;
an identifier already in the table violates its uniqueness (`P2002`). -/
def create (db : List Incident) (d : Data) (newId : String) (now : Nat) :
    Except StoreError (Incident × List Incident) :=
  match d.title, d.service, d.severity, d.status with
  | some t, some sv, some se, some st =>
    if db.any (fun r => r.id = newId) then .error (.known "P2002")
    else
      let r : Incident :=
        { id := newId, title := t, service := sv, severity := se, status := st,
          owner := setNullable none d.owner, summary := setNullable none d.summary,
          createdAt := now, updatedAt := now }
      .ok (r, db ++ [r])
  | _, _, _, _ => .error .validation

/-- The store's `findUnique` by identifier. -/
def findUnique (db : List Incident) (id : String) : Option Incident :=
  db.find? (fun r => r.id = id)

/-- The store's `update` by identifier: `P2025` when no row has the identifier. -/
def update (db : List Incident) (id : String) (d : Data) (now : Nat) :
    Except StoreError (Incident × List Incident) :=
  match findUnique db id with
  | none => .error (.known "P2025")
  | some r =>
    .ok (applyData r d now, db.map (fun x => if x.id = id then applyData x d now else x))

/-- The `code` property of a thrown store error. -/
def StoreError.code : StoreError → Option String
  | .validation => none
  | .known c => some c

/-! ## The handlers -/

/-- A response body: one of the JSON bodies the handlers write, or the HTML page the
framework writes when it refuses a request before any handler runs. -/
inductive Body where
  | list (data : List Incident) (pagination : Pagination)
  | incident (i : Incident)
  | errors (report : ErrorReport)
  | error (text : String)
  | html
  deriving DecidableEq, Repr

/-- A response: status code and JSON body. -/
structure Response where
  status : Nat
  body : Body
  deriving DecidableEq, Repr

/-- The response of the `catch` blocks. -/
def internalError : Response := { status := 500, body := .error "Internal Server Error" }

/-- The 404 response. -/
def notFound : Response := { status := 404, body := .error "Incident not found" }

/-- Handler of `GET /api/incidents`: `findMany` and `count` run in one transaction over the
same table content; an error of either is caught and answered with 500. -/
def listIncidents (E : Engine) (db : List Incident) (q : Query) : Response :=
  let skip := skipOf q
  let take := takeOf q
  let w := buildWhere q
  match findMany E db skip take w (sortArg q) (orderArg q), count E db w with
  | .ok incidents, .ok total =>
    { status := 200
      body := .list incidents
        { total := total
          page := parseInt (pageArg q)
          limit := parseInt (limitArg q)
          totalPages := JsNum.ceilDiv total take } }
  | _, _ => internalError

/-- Handler of `POST /api/incidents` applied to `req.body`, the value the `express.json()`
middleware hands over (see `expressJson` and `postIncidents` for the route as a whole), with
the identifier and instant the store will assign; yields the response and the table
afterwards. -/
def createIncident (db : List Incident) (newId : String) (now : Nat) (body : Json) :
    Response × List Incident :=
  match incidentSchema body with
  | .error issues => ({ status := 400, body := .errors (format issues) }, db)
  | .ok d =>
    match create db d newId now with
    | .ok (incident, db2) => ({ status := 201, body := .incident incident }, db2)
    | .error _ => (internalError, db)

/-- Handler of `GET /api/incidents/:id`. -/
def getIncident (db : List Incident) (id : String) : Response :=
  match findUnique db id with
  | none => notFound
  | some incident => { status := 200, body := .incident incident }

/-- Handler of `PATCH /api/incidents/:id` applied to `req.body`, the value the
`express.json()` middleware hands over (see `expressJson` and `patchIncident` for the route
as a whole), at the instant `now`; yields the response and the table afterwards. -/
def updateIncident (db : List Incident) (now : Nat) (id : String) (body : Json) :
    Response × List Incident :=
  match updateSchema body with
  | .error issues => ({ status := 400, body := .errors (format issues) }, db)
  | .ok d =>
    match update db id d now with
    | .ok (incident, db2) => ({ status := 200, body := .incident incident }, db2)
    | .error e => if e.code = some "P2025" then (notFound, db) else (internalError, db)

/-- What `app.use(express.json())` makes of the JSON text of a request: in its default strict
mode an object or an array becomes `req.body`; any other JSON value is refused before a
handler runs. -/
def expressJson : Json → Option Json
  | .obj members => some (.obj members)
  | .arr items => some (.arr items)
  | _ => none

/-- The answer of the framework to a payload the JSON middleware refuses: status 400 with an
HTML error page (its text is not modelled), not a JSON body. -/
def parseRefused : Response := { status := 400, body := .html }

/-- The route `POST /api/incidents` as a whole: the JSON middleware, then the handler. -/
def postIncidents (db : List Incident) (newId : String) (now : Nat) (payload : Json) :
    Response × List Incident :=
  match expressJson payload with
  | none => (parseRefused, db)
  | some body => createIncident db newId now body

/-- The route `PATCH /api/incidents/:id` as a whole: the JSON middleware, then the handler. -/
def patchIncident (db : List Incident) (now : Nat) (id : String) (payload : Json) :
    Response × List Incident :=
  match expressJson payload with
  | none => (parseRefused, db)
  | some body => updateIncident db now id body

/-- The filter set of a list request, in the words of the specification: a row matches when
it equals each of `status`, `severity` and `service` that is given and not empty, and, when a
search text is given and not empty, when its title or its summary contains that text. -/
def matchesFilters (E : Engine) (q : Query) (r : Incident) : Bool :=
  (match q.status with
   | some s => s = "" || r.status = s
   | none => true) &&
  (match q.severity with
   | some s => s = "" || r.severity = s
   | none => true) &&
  (match q.service with
   | some s => s = "" || r.service = s
   | none => true) &&
  (match q.search with
   | some s =>
     s = "" || E.contains r.title s ||
       (match r.summary with
        | some t => E.contains t s
        | none => false)
   | none => true)

/-- The list handler as a step on the table: it reads through `findMany` and `count` and
writes nothing, so the table afterwards is the table before. -/
def listIncidentsStep (E : Engine) (db : List Incident) (q : Query) :
    Response × List Incident :=
  (listIncidents E db q, db)

/-- The get handler as a step on the table: it reads through `findUnique` and writes
nothing. -/
def getIncidentStep (db : List Incident) (id : String) : Response × List Incident :=
  (getIncident db id, db)

/-- JavaScript `Number.isFinite`. -/
def JsNum.isFinite : JsNum → Bool
  | .int _ => true
  | .negZero => true
  | _ => false

/-- Validity of a stored row: non-empty `title` and `service`, `severity` and `status` within
their enumerations (the four columns are text, hence not null). -/
def validRow (r : Incident) : Prop :=
  r.title ≠ "" ∧ r.service ≠ "" ∧ r.severity ∈ severities ∧ r.status ∈ statuses

instance (r : Incident) : Decidable (validRow r) := by
  unfold validRow
  infer_instance

/-! ## The client: form schemas and the dashboard footer -/

/-- Number of UTF-16 code units of a character. -/
def utf16Units (c : Char) : Nat := if c.toNat < 0x10000 then 1 else 2

/-- JavaScript `length` of a string: its number of UTF-16 code units. -/
def jsLength (s : String) : Nat := (s.data.map utf16Units).sum

/-- The rule `z.string().min(5, msg)` of the client forms applied to the value found under
`key`. -/
def stringMin5 (key msg : String) : Option Json → Except Issue String
  | some (.str s) =>
    if 5 ≤ jsLength s then .ok s
    else .error { path := [key], code := .too_small, message := .custom msg }
  | _ => .error (defaultIssue key .invalid_type)

/-- The rule `z.string().optional()` of the create form applied to the value found under
`key`: null is not admitted. -/
def optionalString (key : String) : Option Json → Except Issue (Option (Option String))
  | none => .ok none
  | some (.str s) => .ok (some (some s))
  | some _ => .error (defaultIssue key .invalid_type)

/-- Rule of the key `title` in both client forms. -/
def clientTitleRule : Option Json → Except Issue String :=
  stringMin5 "title" "Title must be at least 5 characters"

/-- The object schema `incidentSchema` of `CreateIncident.jsx` on the members of an object. -/
def createFormShape (m : List (String × Json)) : Except (List Issue) Data :=
  match clientTitleRule (lookup m "title"), serviceRule (lookup m "service"),
    severityRule (lookup m "severity"), statusRule (lookup m "status"),
    optionalString "owner" (lookup m "owner"), optionalString "summary" (lookup m "summary") with
  | .ok t, .ok sv, .ok se, .ok st, .ok o, .ok su =>
    .ok { title := some t, service := some sv, severity := some se, status := some st,
          owner := o, summary := su }
  | rt, rsv, rse, rst, ro, rsu =>
    .error (issuesOf rt ++ issuesOf rsv ++ issuesOf rse ++ issuesOf rst ++ issuesOf ro ++
      issuesOf rsu)

/-- The result of parsing form values with `incidentSchema` of `CreateIncident.jsx`. -/
def createFormSchema (values : Json) : Except (List Issue) Data :=
  match values with
  | .obj m => createFormShape m
  | _ => .error [notAnObject]

/-- The object schema `incidentSchema` of `IncidentDetail.jsx` on the members of an object. -/
def editFormShape (m : List (String × Json)) : Except (List Issue) Data :=
  match clientTitleRule (lookup m "title"), serviceRule (lookup m "service"),
    severityRule (lookup m "severity"), statusRule (lookup m "status"),
    ownerRule (lookup m "owner"), summaryRule (lookup m "summary") with
  | .ok t, .ok sv, .ok se, .ok st, .ok o, .ok su =>
    .ok { title := some t, service := some sv, severity := some se, status := some st,
          owner := o, summary := su }
  | rt, rsv, rse, rst, ro, rsu =>
    .error (issuesOf rt ++ issuesOf rsv ++ issuesOf rse ++ issuesOf rst ++ issuesOf ro ++
      issuesOf rsu)

/-- The result of parsing form values with `incidentSchema` of `IncidentDetail.jsx`. -/
def editFormSchema (values : Json) : Except (List Issue) Data :=
  match values with
  | .obj m => editFormShape m
  | _ => .error [notAnObject]

/-- The member a text key contributes to the serialised data: none when the key is absent. -/
def textMember (key : String) : Option String → List (String × Json)
  | none => []
  | some s => [(key, .str s)]

/-- The member a nullable text key contributes to the serialised data. -/
def nullableMember (key : String) : Option (Option String) → List (String × Json)
  | none => []
  | some none => [(key, .null)]
  | some (some s) => [(key, .str s)]

/-- The request body the server parses when a client posts validated data: the keys present
in the data, in schema order. -/
def Data.toJson (d : Data) : Json :=
  .obj (textMember "title" d.title ++ textMember "service" d.service ++
    textMember "severity" d.severity ++ textMember "status" d.status ++
    nullableMember "owner" d.owner ++ nullableMember "summary" d.summary)

/-- The number the dashboard computes with for a field of the received `pagination`: a finite
value arrives as itself (`-0` as `0`); `NaN` and the infinities are serialised as null, which
arithmetic reads as 0. -/
def wireNumber : JsNum → Int
  | .int i => i
  | _ => 0

/-- First number of the footer: `(pagination.page - 1) * pagination.limit + 1`. -/
def footerStart (pg : Pagination) : Int :=
  (wireNumber pg.page - 1) * wireNumber pg.limit + 1

/-- Second number of the footer: `Math.min(pagination.page * pagination.limit,
pagination.total)`. -/
def footerEnd (pg : Pagination) : Int :=
  min (wireNumber pg.page * wireNumber pg.limit) (pg.total : Int)

/-! ## A reference engine -/

/-- Whether `needle` starts the text. -/
def startsWith : List Char → List Char → Bool
  | _, [] => true
  | [], _ :: _ => false
  | c :: cs, d :: ds => c == d && startsWith cs ds

/-- Case-sensitive substring test. -/
def hasInfix : List Char → List Char → Bool
  | [], needle => needle.isEmpty
  | c :: cs, needle => startsWith (c :: cs) needle || hasInfix cs needle

/-- A reference engine: case-sensitive search and an insertion sort that keeps rows with
equal keys in table order. -/
def refEngine : Engine where
  contains hay needle := hasInfix hay.data needle.data
  orderBy f o rows := rows.insertionSort (fun a b => rowLe f o a b = true)
  orderBy_perm _ _ rows := List.perm_insertionSort _ rows
  orderBy_sorted f o rows := List.sorted_insertionSort (fun a b => rowLe f o a b = true) rows

/-- A second engine, which differs from the reference engine only on rows with equal keys: it
returns them in the reverse of table order. -/
def lastFirstEngine : Engine where
  contains hay needle := hasInfix hay.data needle.data
  orderBy f o rows := rows.reverse.insertionSort (fun a b => rowLe f o a b = true)
  orderBy_perm _ _ rows := (List.perm_insertionSort _ rows.reverse).trans (List.reverse_perm rows)
  orderBy_sorted f o rows :=
    List.sorted_insertionSort (fun a b => rowLe f o a b = true) rows.reverse

/-! ## Sample data -/

/-- A sample row. -/
def rowA : Incident :=
  { id := "a", title := "Login fails", service := "Auth", severity := "SEV1", status := "OPEN",
    owner := none, summary := some "token expiry", createdAt := 1, updatedAt := 1 }

/-- A second sample row. -/
def rowB : Incident :=
  { id := "b", title := "Slow signup", service := "Auth", severity := "SEV2", status := "OPEN",
    owner := some "amy@team.com", summary := none, createdAt := 2, updatedAt := 2 }

/-- A third sample row. -/
def rowC : Incident :=
  { id := "c", title := "Card declined", service := "Payments", severity := "SEV3",
    status := "RESOLVED", owner := none, summary := some "gateway", createdAt := 3,
    updatedAt := 4 }

/-- A sample table. -/
def sampleDb : List Incident := [rowA, rowB, rowC]

/-- A fourth sample row. -/
def rowD : Incident :=
  { id := "d", title := "Index lag", service := "Search", severity := "SEV4", status := "OPEN",
    owner := some "ops@team.com", summary := none, createdAt := 5, updatedAt := 5 }

/-- A fifth sample row. -/
def rowE : Incident :=
  { id := "e", title := "Replica down", service := "Database", severity := "SEV1",
    status := "MITIGATED", owner := none, summary := some "failover", createdAt := 6,
    updatedAt := 7 }

/-- A table of five rows. -/
def fiveDb : List Incident := [rowA, rowB, rowC, rowD, rowE]

/-- A sample request far beyond the last page. -/
def farPageQuery : Query := { page := some "100", limit := some "10" }

/-- A sample request: first page of two rows, oldest first. -/
def oldestFirstQuery : Query := { limit := some "2", order := some "asc" }

/-- A sample request for page zero. -/
def pageZeroQuery : Query := { page := some "0" }

/-- A sample request with a page that is not a number. -/
def pageWordQuery : Query := { page := some "abc" }

/-- A sample request for page one. -/
def pageOneQuery : Query := { page := some "1" }

/-- A request carrying only filters: no `page`, `limit`, `sort` or `order`. -/
def filtersOnly (status severity service search : Option String) : Query :=
  { status := status, severity := severity, service := service, search := search }

/-- The same filters with the four defaults spelled out in the request. -/
def spelledOut (status severity service search : Option String) : Query :=
  { page := some "1", limit := some "10", sort := some "createdAt", order := some "desc",
    status := status, severity := severity, service := service, search := search }

/-- The members of the sample update body. -/
def resolveMembers : List (String × Json) := [("status", .str "RESOLVED")]

/-- The second sample row after it is resolved at instant 9. -/
def rowBResolved : Incident := { rowB with status := "RESOLVED", updatedAt := 9 }

/-- A sample body with an empty title and nothing else. -/
def emptyTitleBody : Json := .obj [("title", .str "")]

/-- The issues the create schema raises on the sample body with an empty title. -/
def emptyTitleIssues : List Issue :=
  [{ path := ["title"], code := .too_small, message := .custom "Title is required" },
   defaultIssue "service" .invalid_type, defaultIssue "severity" .invalid_type,
   defaultIssue "status" .invalid_type]

/-- A sample update body with a status outside the enumeration. -/
def badStatusBody : Json := .obj [("status", .str "DONE")]

/-- A sample request filtering on severity. -/
def sev1Query : Query := { severity := some "SEV1" }

/-- A sample request filtering on service. -/
def authQuery : Query := { service := some "Auth" }

/-- A sample request searching a text found in the summary of the first sample row only. -/
def tokenQuery : Query := { search := some "token" }

/-- A sample request: the second page of two rows. -/
def pageTwoQuery : Query := { page := some "2", limit := some "2" }

/-- A sample create body: a three-letter title and a service outside the seeded set. -/
def shortTitleMembers : List (String × Json) :=
  [("title", .str "Bug"), ("service", .str "Billing"), ("severity", .str "SEV2"),
   ("status", .str "OPEN")]

/-- The data the create schema yields on the sample create body. -/
def shortTitleData : Data :=
  { title := some "Bug", service := some "Billing", severity := some "SEV2",
    status := some "OPEN" }

/-- A sample update body with a null title. -/
def nullTitleBody : Json := .obj [("title", .null)]

/-- The row the store creates from validated data, an identifier and an instant. -/
def newRow (d : Data) (t sv se st : String) (newId : String) (now : Nat) : Incident :=
  { id := newId, title := t, service := sv, severity := se, status := st,
    owner := setNullable none d.owner, summary := setNullable none d.summary,
    createdAt := now, updatedAt := now }

/-- A sample create body that also carries `id`, `createdAt` and `updatedAt`. -/
def forgedMembers : List (String × Json) :=
  [("id", .str "a"), ("createdAt", .num 0), ("updatedAt", .num 0), ("title", .str "Bug"),
   ("service", .str "Billing"), ("severity", .str "SEV2"), ("status", .str "OPEN")]

/-- The row created from the sample create bodies with identifier `n1` at instant 9. -/
def createdRow : Incident :=
  { id := "n1", title := "Bug", service := "Billing", severity := "SEV2", status := "OPEN",
    owner := none, summary := none, createdAt := 9, updatedAt := 9 }

/-- An identifier absent from the sample table. -/
def absentId : String := "zzz"

/-- A sample request with `limit=0` on the third page. -/
def limitZeroQuery : Query := { page := some "3", limit := some "0" }

/-- Sample form values: a title of five letters, no owner, no summary. -/
def formMembers : List (String × Json) :=
  [("title", .str "Outage"), ("service", .str "Auth"), ("severity", .str "SEV4"),
   ("status", .str "OPEN"), ("owner", .str "")]

/-- The data both forms yield on the sample form values. -/
def formData : Data :=
  { title := some "Outage", service := some "Auth", severity := some "SEV4",
    status := some "OPEN", owner := some (some "") }

/-- The row created from the sample form values with identifier `n1` at instant 9. -/
def formRow : Incident :=
  { id := "n1", title := "Outage", service := "Auth", severity := "SEV4", status := "OPEN",
    owner := some "", summary := none, createdAt := 9, updatedAt := 9 }

/-- The `pagination` of the second page of two rows of the sample table. -/
def pageTwoPagination : Pagination :=
  { total := 3, page := .int 2, limit := .int 2, totalPages := .int 2 }

/-- The `pagination` of the default request on an empty table. -/
def emptyPagination : Pagination :=
  { total := 0, page := .int 1, limit := .int 10, totalPages := .int 0 }

/-- A sample request for the first page with a limit of `2^63`. -/
def hugeLimitQuery : Query := { page := some "1", limit := some "9223372036854775808" }

/-- A sample request for a page whose number is `2^63`, ten rows a page. -/
def hugePageQuery : Query := { page := some "9223372036854775808", limit := some "10" }

/-- A sample request with a page that is not a number and `limit=0`. -/
def wordPageZeroLimitQuery : Query := { page := some "abc", limit := some "0" }

/-- The sample request on service with one row a page, second page, by title ascending. -/
def authPageTwoQuery : Query :=
  { service := some "Auth", page := some "2", limit := some "1", sort := some "title",
    order := some "asc" }

/-- The default request but for a sort key that is no field of the model. -/
def bogusSortQuery : Query := { sort := some "bogus" }

/-- A request far beyond the last page with a sort key that is no field of the model. -/
def farPageBogusSortQuery : Query :=
  { page := some "100", limit := some "10", sort := some "bogus" }

/-- A request whose filter matches no row of the sample tables, at `page=0`. -/
def noMatchPageZeroQuery : Query := { service := some "Nope", page := some "0" }

/-- A request with `limit=0` and a direction that is neither `asc` nor `desc`. -/
def limitZeroBadOrderQuery : Query := { limit := some "0", order := some "up" }

/-- A request for page 4 of `2^53 - 1` rows a page. -/
def roundedSkipQuery : Query := { page := some "4", limit := some "9007199254740991" }

/-- A row created at the same instant as `rowA`. -/
def rowTwin : Incident :=
  { id := "t", title := "Login loops", service := "Auth", severity := "SEV2", status := "OPEN",
    owner := none, summary := none, createdAt := 1, updatedAt := 1 }

/-- A table of two rows with the same `createdAt`. -/
def tiedDb : List Incident := [rowA, rowTwin]

/-- The sample request for the first row alone, in the default order. -/
def firstRowQuery : Query := { limit := some "1" }

/-! ## Lemmas on numbers and on the list handler -/

theorem JsNum.ofInt_false (i : Int) : JsNum.ofInt i false = .int i := by
  unfold JsNum.ofInt JsNum.zero
  by_cases h : i = 0 <;> simp [h]

theorem JsNum.zero_false : JsNum.zero false = .int 0 := rfl

theorem roundNat_small (n : Nat) (h : n < 2 ^ 53) : JsNum.roundNat n = some n := by
  unfold JsNum.roundNat
  rw [if_pos h]

theorem JsNum.round_small (i : Int) (b : Bool) (h : i.natAbs < 2 ^ 53) :
    JsNum.round i b = JsNum.ofInt i b := by
  unfold JsNum.round JsNum.ofInt
  by_cases h0 : i = 0
  · simp [h0]
  · simp only [h0, if_false, roundNat_small _ h]
    by_cases hneg : i < 0
    · simp only [hneg, if_true]
      congr 1
      omega
    · simp only [hneg, if_false]
      congr 1
      omega

theorem JsNum.mul_int_of_nonneg (i j : Int) (hi : 0 ≤ i) (hj : 0 ≤ j)
    (hb : (i * j).natAbs < 2 ^ 53) :
    JsNum.mul (.int i) (.int j) = .int (i * j) := by
  have h1 : ¬ i < 0 := not_lt.mpr hi
  have h2 : ¬ j < 0 := not_lt.mpr hj
  simp [JsNum.mul, JsNum.toInt?, JsNum.isNeg, h1, h2, JsNum.round_small _ _ hb,
    JsNum.ofInt_false]

theorem skipOf_of_pos (q : Query) (p l : Nat) (hp : parseInt (pageArg q) = .int p)
    (hp0 : 0 < p) (hl : parseInt (limitArg q) = .int l) (hp53 : p < 2 ^ 53)
    (hs53 : (p - 1) * l < 2 ^ 53) :
    skipOf q = .int (((p - 1) * l : Nat) : Int) := by
  unfold skipOf
  rw [hp, hl]
  have h1 : ((p : Int) - 1) = ((p - 1 : Nat) : Int) := by omega
  have h2 : ((p : Int) - 1).natAbs < 2 ^ 53 := by
    rw [h1, Int.natAbs_ofNat]
    omega
  simp only [JsNum.subLit, JsNum.round_small _ _ h2, JsNum.ofInt_false]
  rw [h1, JsNum.mul_int_of_nonneg _ _ (by positivity) (by positivity)]
  · push_cast
    rfl
  · have : (((p - 1 : Nat) : Int) * (l : Int)) = (((p - 1) * l : Nat) : Int) := by push_cast; rfl
    rw [this, Int.natAbs_ofNat]
    exact hs53

theorem shiftFrom_le (fuel s n : Nat) (h : 2 ^ s ≤ n) :
    2 ^ JsNum.shiftFrom fuel s n ≤ n := by
  induction fuel generalizing s with
  | zero => exact h
  | succ k ih =>
    unfold JsNum.shiftFrom
    split
    · exact h
    · rename_i hbig
      apply ih
      have h1 : 2 ^ 53 ≤ n / 2 ^ s := Nat.le_of_not_lt hbig
      have h2 : 2 ≤ n / 2 ^ s := le_trans (by norm_num) h1
      have h3 := Nat.div_mul_le_self n (2 ^ s)
      calc 2 ^ (s + 1) = 2 * 2 ^ s := by rw [pow_succ]; ring
        _ ≤ n / 2 ^ s * 2 ^ s := Nat.mul_le_mul_right _ h2
        _ ≤ n := h3

theorem roundHalfEven_ge (q r half : Nat) : q ≤ JsNum.roundHalfEven q r half := by
  unfold JsNum.roundHalfEven
  split <;> omega

theorem roundNat_pos (n m : Nat) (hn : 0 < n) (h : JsNum.roundNat n = some m) : 0 < m := by
  unfold JsNum.roundNat at h
  by_cases h1 : n < 2 ^ 53
  · rw [if_pos h1] at h
    injection h with h
    omega
  · rw [if_neg h1] at h
    by_cases h2 : 971 < JsNum.shiftFrom 971 1 n
    · rw [if_pos h2] at h
      exact Option.noConfusion h
    · rw [if_neg h2] at h
      by_cases h3 : JsNum.shiftFrom 971 1 n = 971 ∧ JsNum.significand n 971 = 2 ^ 53
      · rw [if_pos h3] at h
        exact Option.noConfusion h
      · rw [if_neg h3] at h
        injection h with h
        have hle : 2 ^ JsNum.shiftFrom 971 1 n ≤ n :=
          shiftFrom_le 971 1 n (le_trans (by norm_num) (Nat.le_of_not_lt h1))
        have hq : 0 < n / 2 ^ JsNum.shiftFrom 971 1 n :=
          Nat.div_pos hle (by positivity)
        rw [← h]
        exact Nat.mul_pos (lt_of_lt_of_le hq (roundHalfEven_ge _ _ _)) (by positivity)

/-- Rounding keeps the sign of a negative integer: the result is a negative integer or
minus Infinity. -/
theorem JsNum.round_neg (i : Int) (b : Bool) (h : i < 0) :
    (∃ k, JsNum.round i b = .int k ∧ k < 0) ∨ JsNum.round i b = .negInf := by
  unfold JsNum.round
  have h0 : i ≠ 0 := by omega
  simp only [h0, if_false, h, if_true]
  cases hr : JsNum.roundNat i.natAbs with
  | none => right; simp [JsNum.inf]
  | some m =>
    left
    have hm := roundNat_pos i.natAbs m (by omega) hr
    exact ⟨-(m : Int), rfl, by omega⟩

/-- The product of a negative integer or minus Infinity with a positive integer is no skip
the store accepts: it is not an integer, or it is negative. -/
theorem JsNum.mul_neg_pos (x : JsNum) (l : Int) (hl : 0 < l)
    (hx : (∃ k, x = .int k ∧ k < 0) ∨ x = .negInf) :
    (JsNum.mul x (.int l)).toInt? = none ∨
      ∃ k, (JsNum.mul x (.int l)).toInt? = some k ∧ k < 0 := by
  rcases hx with ⟨k, rfl, hk⟩ | rfl
  · have hprod : k * l < 0 := Int.mul_neg_of_neg_of_pos hk hl
    have hmul : JsNum.mul (.int k) (.int l) =
        JsNum.round (k * l) (xor (JsNum.int k).isNeg (JsNum.int l).isNeg) := by
      simp [JsNum.mul, JsNum.toInt?]
    rw [hmul]
    rcases JsNum.round_neg (k * l) _ hprod with ⟨k2, h2, hk2⟩ | h2
    · right
      exact ⟨k2, by rw [h2]; rfl, hk2⟩
    · left
      rw [h2]
      rfl
  · left
    have hne : l ≠ 0 := by omega
    have hmul : JsNum.mul .negInf (.int l) =
        JsNum.inf (xor JsNum.negInf.isNeg (JsNum.int l).isNeg) := by
      simp [JsNum.mul, JsNum.toInt?, JsNum.isZero, hne]
    rw [hmul]
    cases (xor JsNum.negInf.isNeg (JsNum.int l).isNeg) <;> rfl

theorem window_of_nonneg (sorted : List Incident) (skip l : Nat) :
    window sorted skip (l : Int) = (sorted.drop skip).take l := by
  simp [window]

theorem fitsInt64_of_nat (n : Nat) (h : n < 2 ^ 63) : fitsInt64 (n : Int) = true := by
  have h2 : (2 : Nat) ^ 63 = 9223372036854775808 := by norm_num
  simp only [fitsInt64, Bool.and_eq_true, decide_eq_true_eq]
  omega

/-- What the list handler answers once `skip` and `take` are known natural numbers that fit
64 bits. -/
theorem listIncidents_of_nat (E : Engine) (db : List Incident) (q : Query) (sk l : Nat)
    (hs : skipOf q = .int sk) (ht : takeOf q = .int l) (hsk : sk < 2 ^ 63) (hl : l < 2 ^ 63) :
    listIncidents E db q =
      match SortField.ofName (sortArg q), SortOrder.ofName (orderArg q) with
      | some f, some o =>
        { status := 200
          body := .list (((E.orderBy f o (matching E db (buildWhere q))).drop sk).take l)
            { total := (matching E db (buildWhere q)).length
              page := parseInt (pageArg q)
              limit := parseInt (limitArg q)
              totalPages := JsNum.ceilDiv (matching E db (buildWhere q)).length (.int l) } }
      | _, _ => internalError := by
  have hts : (skipOf q).toInt? = some (sk : Int) := by rw [hs]; rfl
  have htt : (takeOf q).toInt? = some (l : Int) := by rw [ht]; rfl
  have hneg : ¬ ((sk : Int) < 0) := by omega
  have hcond : ¬ ((sk : Int) < 0 ∨ fitsInt64 (sk : Int) = false ∨ fitsInt64 (l : Int) = false) := by
    rw [fitsInt64_of_nat sk hsk, fitsInt64_of_nat l hl]
    simp [hneg]
  unfold listIncidents findMany count
  simp only [hts, htt]
  cases hf : SortField.ofName (sortArg q) <;> cases ho : SortOrder.ofName (orderArg q)
  · rfl
  · rfl
  · rfl
  · simp only [if_neg hcond, Int.toNat_ofNat, window_of_nonneg, ht]

/-- Shape of every 200 answer of the list handler. -/
theorem listIncidents_ok (E : Engine) (db : List Incident) (q : Query) (data : List Incident)
    (pg : Pagination) (h : listIncidents E db q = { status := 200, body := .list data pg }) :
    ∃ sk tk f o, (skipOf q).toInt? = some sk ∧ 0 ≤ sk ∧ (takeOf q).toInt? = some tk ∧
      SortField.ofName (sortArg q) = some f ∧ SortOrder.ofName (orderArg q) = some o ∧
      data = window (E.orderBy f o (matching E db (buildWhere q))) sk.toNat tk ∧
      pg = { total := (matching E db (buildWhere q)).length
             page := parseInt (pageArg q)
             limit := parseInt (limitArg q)
             totalPages := JsNum.ceilDiv (matching E db (buildWhere q)).length (takeOf q) } := by
  unfold listIncidents findMany count at h
  cases hs : (skipOf q).toInt? with
  | none => simp [hs, internalError] at h
  | some sk =>
    cases ht : (takeOf q).toInt? with
    | none => simp [hs, ht, internalError] at h
    | some tk =>
      cases hf : SortField.ofName (sortArg q) with
      | none => simp [hs, ht, hf, internalError] at h
      | some f =>
        cases ho : SortOrder.ofName (orderArg q) with
        | none => simp [hs, ht, hf, ho, internalError] at h
        | some o =>
          simp only [hs, ht, hf, ho] at h
          by_cases hcond : sk < 0 ∨ fitsInt64 sk = false ∨ fitsInt64 tk = false
          · simp only [if_pos hcond] at h
            simp [internalError] at h
          · simp only [if_neg hcond, Response.mk.injEq, Body.list.injEq, true_and] at h
            have hneg : ¬ sk < 0 := fun hn => hcond (Or.inl hn)
            exact ⟨sk, tk, f, o, rfl, not_lt.mp hneg, rfl, rfl, rfl, h.1.symm, h.2.symm⟩

theorem mem_window (sorted : List Incident) (skip : Nat) (take : Int) (x : Incident)
    (h : x ∈ window sorted skip take) : x ∈ sorted := by
  unfold window at h
  split at h
  · exact List.mem_of_mem_drop (List.mem_of_mem_take h)
  · exact List.mem_reverse.mp (List.mem_of_mem_drop (List.mem_of_mem_take (List.mem_reverse.mp h)))

theorem ceil_spec (T l : Nat) (hl : 0 < l) :
    T ≤ (T + l - 1) / l * l ∧ (T + l - 1) / l * l < T + l := by
  have h1 := Nat.div_add_mod (T + l - 1) l
  have h2 := Nat.mod_lt (T + l - 1) hl
  have h3 : l * ((T + l - 1) / l) = (T + l - 1) / l * l := Nat.mul_comm _ _
  omega

theorem JsNum.ceilDiv_pos (T l : Nat) (hl : 0 < l) :
    JsNum.ceilDiv T (.int l) = .int (((T + l - 1) / l : Nat) : Int) := by
  have hl0 : (l : Int) ≠ 0 := by omega
  have hneg : ¬ ((l : Int) < 0) := by omega
  obtain ⟨h1, h2⟩ := ceil_spec T l hl
  have hdiv : (-(T : Int)) / (l : Int) = -(((T + l - 1) / l : Nat) : Int) := by
    have hc : (((T + l - 1) / l * l : Nat) : Int) = (((T + l - 1) / l : Nat) : Int) * (l : Int) := by
      push_cast
      rfl
    have key := (Int.ediv_emod_unique (a := -(T : Int)) (b := (l : Int))
      (r := (((T + l - 1) / l * l : Nat) : Int) - T)
      (q := -(((T + l - 1) / l : Nat) : Int)) (by omega)).mpr
      ⟨by rw [hc]; ring, by omega, by omega⟩
    exact key.1
  simp only [JsNum.ceilDiv, hl0, if_false, hneg, decide_False, JsNum.ofInt_false]
  rw [Int.fdiv_eq_ediv _ (by omega), hdiv, neg_neg]

theorem window_nil (skip : Nat) (take : Int) : window [] skip take = [] := by
  simp [window]

/-- A `skip` that is not an integer, or is negative, makes the list handler answer 500. -/
theorem listIncidents_of_bad_skip (E : Engine) (db : List Incident) (q : Query)
    (h : (skipOf q).toInt? = none ∨ ∃ k, (skipOf q).toInt? = some k ∧ k < 0) :
    listIncidents E db q = internalError := by
  unfold listIncidents findMany
  rcases h with h | ⟨k, h, hk⟩
  · simp [h]
  · cases ht : (takeOf q).toInt? <;> cases hf : SortField.ofName (sortArg q) <;>
      cases ho : SortOrder.ofName (orderArg q) <;> simp [h, hk, ht, hf, ho]

theorem JsNum.ofInt_of_ne_zero (i : Int) (b : Bool) (h : i ≠ 0) : JsNum.ofInt i b = .int i := by
  simp [JsNum.ofInt, h]

theorem eqFilter_spec (key : Option String) (value : String) :
    eqFilter (if truthy key then key else none) value =
      (match key with
       | some s => decide (s = "") || decide (value = s)
       | none => true) := by
  cases key with
  | none => rfl
  | some s =>
    by_cases hs : s = ""
    · simp [truthy, eqFilter, hs]
    · simp [truthy, eqFilter, hs]

/-- The `where` object the handler builds selects exactly the rows of the filter set of the
request. -/
theorem holds_buildWhere (E : Engine) (q : Query) (r : Incident) :
    Where.holds E (buildWhere q) r = matchesFilters E q r := by
  have h1 := eqFilter_spec q.status r.status
  have h2 := eqFilter_spec q.severity r.severity
  have h3 := eqFilter_spec q.service r.service
  have h4 : (match (buildWhere q).OR with
      | some alts => alts.any (Contains.holds E r)
      | none => true) =
      (match q.search with
       | some s =>
         decide (s = "") || E.contains r.title s ||
           (match r.summary with
            | some t => E.contains t s
            | none => false)
       | none => true) := by
    unfold buildWhere
    cases hq : q.search with
    | none => rfl
    | some s =>
      by_cases hs : s = ""
      · simp [hs]
      · cases hsum : r.summary <;> simp [hs, Contains.holds, hsum]
  unfold Where.holds matchesFilters
  rw [h4]
  simp only [buildWhere] at h1 h2 h3 ⊢
  rw [h1, h2, h3]

theorem matching_buildWhere (E : Engine) (db : List Incident) (q : Query) :
    matching E db (buildWhere q) = db.filter (matchesFilters E q) := by
  unfold matching
  congr 1
  funext r
  exact holds_buildWhere E q r

theorem sortArg_eq (q : Query) : sortArg q = q.sort.getD "createdAt" := by
  unfold sortArg withStrDefault
  cases q.sort <;> rfl

theorem orderArg_eq (q : Query) : orderArg q = q.order.getD "desc" := by
  unfold orderArg withStrDefault
  cases q.order <;> rfl

/-! ## The list handler: pagination -/

/-- C1, as stated, fails: a limit of `2^63`, a positive integer, on the first page of the
sample table is answered 500, not with a slice of the rows; so is the first page of ten rows
when `sort` names no field of the model; and at page 4 of `2^53 - 1` rows a page the `skip`
requested is the double nearest to the product `3 * (2^53 - 1)`, one less than the product. -/
theorem huge_limit_is_refused :
    parseInt (pageArg hugeLimitQuery) = .int 1 ∧
    parseInt (limitArg hugeLimitQuery) = .int 9223372036854775808 ∧
    listIncidents refEngine sampleDb hugeLimitQuery = internalError ∧
    parseInt (pageArg bogusSortQuery) = .int 1 ∧
    parseInt (limitArg bogusSortQuery) = .int 10 ∧
    listIncidents refEngine sampleDb bogusSortQuery = internalError ∧
    parseInt (pageArg roundedSkipQuery) = .int 4 ∧
    parseInt (limitArg roundedSkipQuery) = .int 9007199254740991 ∧
    skipOf roundedSkipQuery = .int 27021597764222972 ∧
    ((4 : Int) - 1) * 9007199254740991 = 27021597764222973 := by
  decide

/-- C1, amended: when `page` and `limit` parse to integers `p ≥ 1` and `l` with `p`, `l` and
`(p-1)*l` below `2^53`, and the request's `sort` (default `createdAt`) names a field of the
model and its `order` (default `desc`) is `asc` or `desc`, the handler requests
`skip = (p-1)*l` and `take = l` and answers 200; `data` is the run of at most `l` rows from
offset `(p-1)*l` of the full sequence, which holds exactly the rows of the table matching the
request's filters, in the order of that field and direction. -/
theorem list_data_is_page_slice (E : Engine) (db : List Incident) (q : Query) (p l : Nat)
    (f : SortField) (o : SortOrder)
    (hp : parseInt (pageArg q) = .int p) (hp0 : 0 < p) (hp53 : p < 2 ^ 53)
    (hl : parseInt (limitArg q) = .int l) (hl53 : l < 2 ^ 53)
    (hs53 : (p - 1) * l < 2 ^ 53)
    (hf : SortField.ofName (q.sort.getD "createdAt") = some f)
    (ho : SortOrder.ofName (q.order.getD "desc") = some o) :
    skipOf q = .int (((p - 1) * l : Nat) : Int) ∧ takeOf q = .int l ∧
    (E.orderBy f o (db.filter (matchesFilters E q))).Perm (db.filter (matchesFilters E q)) ∧
    (E.orderBy f o (db.filter (matchesFilters E q))).Pairwise
      (fun a b => rowLe f o a b = true) ∧
    (∃ pg, listIncidents E db q =
      { status := 200
        body := .list
          (((E.orderBy f o (db.filter (matchesFilters E q))).drop ((p - 1) * l)).take l)
          pg }) ∧
    (((E.orderBy f o (db.filter (matchesFilters E q))).drop ((p - 1) * l)).take l).length
      ≤ l := by
  have hs := skipOf_of_pos q p l hp hp0 hl hp53 hs53
  have ht : takeOf q = .int l := hl
  have h63 : (2 : Nat) ^ 53 < 2 ^ 63 := by norm_num
  have key := listIncidents_of_nat E db q _ l hs ht (by omega) (by omega)
  rw [sortArg_eq, orderArg_eq, hf, ho, matching_buildWhere] at key
  exact ⟨hs, ht, E.orderBy_perm f o _, E.orderBy_sorted f o _, ⟨_, key⟩,
    List.length_take_le _ _⟩

/-- C1 amended, at the second page of one row of the rows of service Auth of the sample
table, by title ascending: the second of the two rows. -/
theorem list_data_is_page_slice_witness :
    parseInt (pageArg authPageTwoQuery) = .int (2 : Nat) ∧
    parseInt (limitArg authPageTwoQuery) = .int (1 : Nat) ∧
    SortField.ofName (authPageTwoQuery.sort.getD "createdAt") = some .title ∧
    SortOrder.ofName (authPageTwoQuery.order.getD "desc") = some .asc ∧
    listIncidents refEngine sampleDb authPageTwoQuery =
      { status := 200
        body := .list [rowB]
          { total := 2, page := .int 2, limit := .int 1, totalPages := .int 2 } } ∧
    skipOf authPageTwoQuery = .int (((2 - 1) * 1 : Nat) : Int) ∧
    takeOf authPageTwoQuery = .int (1 : Nat) :=
  ⟨by decide, by decide, by decide, by decide, by decide,
    (list_data_is_page_slice refEngine sampleDb authPageTwoQuery 2 1 .title .asc (by decide)
      (by decide) (by norm_num) (by decide) (by norm_num) (by norm_num) (by decide)
      (by decide)).1,
    (list_data_is_page_slice refEngine sampleDb authPageTwoQuery 2 1 .title .asc (by decide)
      (by decide) (by norm_num) (by decide) (by norm_num) (by norm_num) (by decide)
      (by decide)).2.1⟩

/-- A sample request with the default parameters. -/
theorem sample_default_response : listIncidents refEngine sampleDb {} =
    { status := 200
      body := .list [rowC, rowB, rowA]
        { total := 3, page := .int 1, limit := .int 10, totalPages := .int 1 } } := by
  decide

/-- C3: when `limit` parses to a positive integer `l`, the `totalPages` of a list response
is the least natural number `n` with `n * l ≥ total`, where `total` is the number of matching
rows; when `total` is 0, `data` is empty and `totalPages` is 0. -/
theorem list_totalPages_ceil (E : Engine) (db : List Incident) (q : Query) (l : Nat)
    (hl : parseInt (limitArg q) = .int l) (hl0 : 0 < l) (data : List Incident)
    (pg : Pagination) (h : listIncidents E db q = { status := 200, body := .list data pg }) :
    pg.total = (matching E db (buildWhere q)).length ∧
    (∃ n : Nat, pg.totalPages = .int n ∧ pg.total ≤ n * l ∧ ∀ m : Nat, pg.total ≤ m * l → n ≤ m) ∧
    (pg.total = 0 → data = [] ∧ pg.totalPages = .int 0) := by
  obtain ⟨sk, tk, f, o, -, -, -, -, -, hd, hpg⟩ := listIncidents_ok E db q data pg h
  have ht : takeOf q = .int l := hl
  have htp : pg.totalPages = .int (((pg.total + l - 1) / l : Nat) : Int) := by
    rw [hpg, ht]
    exact JsNum.ceilDiv_pos _ l hl0
  have htot : pg.total = (matching E db (buildWhere q)).length := by rw [hpg]
  refine ⟨htot, ⟨(pg.total + l - 1) / l, htp, (ceil_spec pg.total l hl0).1, ?_⟩, ?_⟩
  · intro m hm
    have h2 := (ceil_spec pg.total l hl0).2
    by_contra hlt
    have h3 : (m + 1) * l ≤ (pg.total + l - 1) / l * l := Nat.mul_le_mul_right l (by omega)
    have h4 : (m + 1) * l = m * l + l := Nat.succ_mul m l
    omega
  · intro h0
    have hnil : matching E db (buildWhere q) = [] := List.length_eq_zero.mp (htot ▸ h0)
    have hsorted : E.orderBy f o (matching E db (buildWhere q)) = [] := by
      have := E.orderBy_perm f o (matching E db (buildWhere q))
      rw [hnil] at this ⊢
      exact List.Perm.eq_nil this
    refine ⟨by rw [hd, hsorted, window_nil], ?_⟩
    rw [htp, h0]
    have : (0 + l - 1) / l = 0 := Nat.div_eq_of_lt (by omega)
    rw [this]
    rfl

/-- C3 on the sample table with the default limit of 10: three rows make one page. -/
theorem list_totalPages_ceil_witness :
    parseInt (limitArg {}) = .int (10 : Nat) ∧ 0 < 10 ∧
    listIncidents refEngine sampleDb {} =
      { status := 200
        body := .list [rowC, rowB, rowA]
          { total := 3, page := .int 1, limit := .int 10, totalPages := .int 1 } } ∧
    (∃ n : Nat, JsNum.int 1 = .int n ∧ 3 ≤ n * 10 ∧ ∀ m : Nat, 3 ≤ m * 10 → n ≤ m) :=
  ⟨by decide, by decide, by decide,
    (list_totalPages_ceil refEngine sampleDb {} 10 (by decide) (by decide) _ _
      sample_default_response).2.1⟩

/-- A sample request for two rows, oldest first. -/
theorem sample_oldest_first_response : listIncidents refEngine sampleDb oldestFirstQuery =
    { status := 200
      body := .list [rowA, rowB]
        { total := 3, page := .int 1, limit := .int 2, totalPages := .int 2 } } := by
  decide

/-- The rows of service Auth of the sample table, first page. -/
theorem sample_auth_response : listIncidents refEngine sampleDb authQuery =
    { status := 200
      body := .list [rowB, rowA]
        { total := 2, page := .int 1, limit := .int 10, totalPages := .int 1 } } := by
  decide

/-- The rows of service Auth of the sample table, one a page, second page, by title. -/
theorem sample_auth_page_two_response : listIncidents refEngine sampleDb authPageTwoQuery =
    { status := 200
      body := .list [rowB]
        { total := 2, page := .int 2, limit := .int 1, totalPages := .int 2 } } := by
  decide

/-- C4: the `total` of a list response is the number of rows of the table that match the
filter set of the request (each exact filter given and not empty, and the search text in
title or summary), the rows `data` is drawn from; two requests on the same table with the
same `status`, `severity`, `service` and `search` report the same `total`, whatever their
`page`, `limit`, `sort` and `order`. -/
theorem list_total_is_match_count (E : Engine) (db : List Incident) (q q2 : Query)
    (data data2 : List Incident) (pg pg2 : Pagination)
    (h : listIncidents E db q = { status := 200, body := .list data pg })
    (hsame : q2.status = q.status ∧ q2.severity = q.severity ∧ q2.service = q.service ∧
      q2.search = q.search)
    (h2 : listIncidents E db q2 = { status := 200, body := .list data2 pg2 }) :
    pg.total = (db.filter (matchesFilters E q)).length ∧
    (∀ x ∈ data, x ∈ db ∧ matchesFilters E q x = true) ∧
    pg2.total = pg.total := by
  obtain ⟨sk, tk, f, o, -, -, -, -, -, hd, hpg⟩ := listIncidents_ok E db q data pg h
  obtain ⟨sk2, tk2, f2, o2, -, -, -, -, -, -, hpg2⟩ := listIncidents_ok E db q2 data2 pg2 h2
  have hw : matchesFilters E q2 = matchesFilters E q := by
    obtain ⟨e1, e2, e3, e4⟩ := hsame
    funext r
    simp [matchesFilters, e1, e2, e3, e4]
  rw [matching_buildWhere] at hd hpg
  rw [matching_buildWhere, hw] at hpg2
  refine ⟨by rw [hpg], ?_, by rw [hpg, hpg2]⟩
  intro x hx
  rw [hd] at hx
  exact List.mem_filter.mp ((E.orderBy_perm f o _).mem_iff.mp (mem_window _ _ _ _ hx))

/-- C4 on the sample table: the request for service Auth and the same request paged by one
row and sorted by title both report the two rows of that service. -/
theorem list_total_is_match_count_witness :
    listIncidents refEngine sampleDb authQuery =
      { status := 200
        body := .list [rowB, rowA]
          { total := 2, page := .int 1, limit := .int 10, totalPages := .int 1 } } ∧
    listIncidents refEngine sampleDb authPageTwoQuery =
      { status := 200
        body := .list [rowB]
          { total := 2, page := .int 2, limit := .int 1, totalPages := .int 2 } } ∧
    (sampleDb.filter (fun r => r.service = "Auth")).length = 2 ∧
    (2 : Nat) = (sampleDb.filter (matchesFilters refEngine authQuery)).length :=
  ⟨by decide, by decide, by decide,
    (list_total_is_match_count refEngine sampleDb authQuery authPageTwoQuery _ _ _ _
      sample_auth_response ⟨rfl, rfl, rfl, rfl⟩ sample_auth_page_two_response).1⟩

/-- C5, as stated, fails: a page whose number is `2^63`, far beyond the one page of the five
rows of the table, is answered 500, not with an empty `data`; so is page 100 when `sort` names
no field of the model; and so is a request whose filters match no row when its page is 0. -/
theorem huge_page_is_refused :
    parseInt (pageArg hugePageQuery) = .int 9223372036854775808 ∧
    parseInt (limitArg hugePageQuery) = .int 10 ∧
    (fiveDb.filter (matchesFilters refEngine hugePageQuery)).length = 5 ∧
    listIncidents refEngine fiveDb hugePageQuery = internalError ∧
    parseInt (pageArg farPageBogusSortQuery) = .int 100 ∧
    parseInt (limitArg farPageBogusSortQuery) = .int 10 ∧
    listIncidents refEngine fiveDb farPageBogusSortQuery = internalError ∧
    fiveDb.filter (matchesFilters refEngine noMatchPageZeroQuery) = [] ∧
    parseInt (limitArg noMatchPageZeroQuery) = .int 10 ∧
    listIncidents refEngine fiveDb noMatchPageZeroQuery = internalError := by
  decide

/-- C5, amended: when `page` and `limit` parse to integers `p ≥ 1` and `l ≥ 1` with `p`, `l`
and `(p-1)*l` below `2^53`, and the request's `sort` names a field of the model and its
`order` is `asc` or `desc`, a list request whose page exceeds `totalPages`, or whose filters
match no row, is answered 200 with empty `data` and the count of matching rows as `total`. -/
theorem list_beyond_last_page_empty (E : Engine) (db : List Incident) (q : Query)
    (p l : Nat) (f : SortField) (o : SortOrder)
    (hp : parseInt (pageArg q) = .int p) (hp0 : 0 < p) (hp53 : p < 2 ^ 53)
    (hl : parseInt (limitArg q) = .int l) (hl0 : 0 < l) (hl53 : l < 2 ^ 53)
    (hs53 : (p - 1) * l < 2 ^ 53)
    (hf : SortField.ofName (q.sort.getD "createdAt") = some f)
    (ho : SortOrder.ofName (q.order.getD "desc") = some o)
    (hbeyond : (∃ n : Nat,
        JsNum.ceilDiv (db.filter (matchesFilters E q)).length (.int l) = .int n ∧ n < p) ∨
      db.filter (matchesFilters E q) = []) :
    listIncidents E db q =
      { status := 200
        body := .list []
          { total := (db.filter (matchesFilters E q)).length
            page := .int p
            limit := .int l
            totalPages := JsNum.ceilDiv (db.filter (matchesFilters E q)).length (.int l) } } := by
  have hs := skipOf_of_pos q p l hp hp0 hl hp53 hs53
  have ht : takeOf q = .int l := hl
  have h63 : (2 : Nat) ^ 53 < 2 ^ 63 := by norm_num
  rw [listIncidents_of_nat E db q _ l hs ht (by omega) (by omega), sortArg_eq, orderArg_eq,
    hf, ho, hp, hl, matching_buildWhere]
  have hlen : (E.orderBy f o (db.filter (matchesFilters E q))).length =
      (db.filter (matchesFilters E q)).length := (E.orderBy_perm f o _).length_eq
  have hempty : ((E.orderBy f o (db.filter (matchesFilters E q))).drop ((p - 1) * l)).take l
      = [] := by
    rcases hbeyond with ⟨n, hn, hnp⟩ | hnil
    · rw [JsNum.ceilDiv_pos _ l hl0] at hn
      have hn2 : ((db.filter (matchesFilters E q)).length + l - 1) / l = n := by
        injection hn with hn
        exact Int.ofNat.inj hn
      have h1 := (ceil_spec (db.filter (matchesFilters E q)).length l hl0).1
      rw [hn2] at h1
      have h2 : n * l ≤ (p - 1) * l := Nat.mul_le_mul_right l (by omega)
      rw [List.drop_eq_nil_of_le (by omega)]
      simp
    · have : E.orderBy f o (db.filter (matchesFilters E q)) = [] :=
        List.length_eq_zero.mp (by rw [hlen, hnil]; rfl)
      rw [this]
      simp
  simp only [hempty]

/-- C5 amended, at `page=100&limit=10` over five matching rows: empty `data`, `total` 5. -/
theorem list_beyond_last_page_empty_witness :
    parseInt (pageArg farPageQuery) = .int (100 : Nat) ∧
    parseInt (limitArg farPageQuery) = .int (10 : Nat) ∧
    (fiveDb.filter (matchesFilters refEngine farPageQuery)).length = 5 ∧
    listIncidents refEngine fiveDb farPageQuery =
      { status := 200
        body := .list []
          { total := 5, page := .int 100, limit := .int 10, totalPages := .int 1 } } :=
  ⟨by decide, by decide, by decide,
    list_beyond_last_page_empty refEngine fiveDb farPageQuery 100 10 .createdAt .desc
      (by decide) (by decide) (by norm_num) (by decide) (by decide) (by norm_num)
      (by norm_num) (by decide) (by decide) (Or.inl ⟨1, by decide, by decide⟩)⟩

/-! ## The list handler: filters -/

theorem eqFilter_iff (key : Option String) (value : String) :
    eqFilter (if truthy key then key else none) value = true ↔
      ∀ s, key = some s → s ≠ "" → value = s := by
  cases key with
  | none => simp [truthy, eqFilter]
  | some v =>
    by_cases hv : v = ""
    · simp [truthy, eqFilter, hv]
    · simp [truthy, eqFilter, hv]

/-- C2: a row is in the matching set of a list request (the rows `total` counts and `data`
is paged from) iff it is a row of the table that equals each of `status`, `severity` and
`service` given non-empty, and, when a non-empty `search` is given, whose title or summary
contains the search text. -/
theorem list_filter_law (E : Engine) (db : List Incident) (q : Query) (r : Incident) :
    (r ∈ matching E db (buildWhere q) ↔
      r ∈ db ∧
      (∀ s, q.status = some s → s ≠ "" → r.status = s) ∧
      (∀ s, q.severity = some s → s ≠ "" → r.severity = s) ∧
      (∀ s, q.service = some s → s ≠ "" → r.service = s) ∧
      (∀ s, q.search = some s → s ≠ "" →
        E.contains r.title s = true ∨ ∃ t, r.summary = some t ∧ E.contains t s = true)) ∧
    (∀ data pg, listIncidents E db q = { status := 200, body := .list data pg } →
      pg.total = (matching E db (buildWhere q)).length ∧
      ∀ x ∈ data, x ∈ matching E db (buildWhere q)) := by
  constructor
  · have hOR : (match (buildWhere q).OR with
        | some alts => alts.any (Contains.holds E r)
        | none => true) = true ↔
        (∀ s, q.search = some s → s ≠ "" →
          E.contains r.title s = true ∨ ∃ t, r.summary = some t ∧ E.contains t s = true) := by
      unfold buildWhere
      cases hq : q.search with
      | none => simp
      | some v =>
        by_cases hv : v = ""
        · simp [hv]
        · cases hsum : r.summary <;> simp [hv, Contains.holds, hsum]
    unfold matching
    rw [List.mem_filter]
    unfold Where.holds
    simp only [Bool.and_eq_true, hOR]
    have h1 := eqFilter_iff q.status r.status
    have h2 := eqFilter_iff q.severity r.severity
    have h3 := eqFilter_iff q.service r.service
    simp only [buildWhere, h1, h2, h3]
    tauto
  · intro data pg h
    obtain ⟨sk, tk, f, o, -, -, -, -, -, hd, hpg⟩ := listIncidents_ok E db q data pg h
    refine ⟨by rw [hpg], ?_⟩
    intro x hx
    rw [hd] at hx
    exact (E.orderBy_perm f o _).mem_iff.mp (mem_window _ _ _ _ hx)

/-- C2 on the sample table: `severity=SEV1` selects the first row only, `service=Auth` the
first two, and a search text found in the first row's summary that row only. -/
theorem list_filter_law_witness :
    matching refEngine sampleDb (buildWhere sev1Query) = [rowA] ∧
    matching refEngine sampleDb (buildWhere authQuery) = [rowA, rowB] ∧
    matching refEngine sampleDb (buildWhere tokenQuery) = [rowA] ∧
    (rowB ∈ matching refEngine sampleDb (buildWhere authQuery) ↔
      rowB ∈ sampleDb ∧
      (∀ s, authQuery.status = some s → s ≠ "" → rowB.status = s) ∧
      (∀ s, authQuery.severity = some s → s ≠ "" → rowB.severity = s) ∧
      (∀ s, authQuery.service = some s → s ≠ "" → rowB.service = s) ∧
      (∀ s, authQuery.search = some s → s ≠ "" →
        refEngine.contains rowB.title s = true ∨
          ∃ t, rowB.summary = some t ∧ refEngine.contains t s = true)) :=
  ⟨by decide, by decide, by decide, (list_filter_law refEngine sampleDb authQuery rowB).1⟩

/-- C6, as stated, fails: on the sample table `page=0` and `page=abc` are answered 500,
whereas `page=1` is answered 200 with the first rows. -/
theorem page_zero_is_not_page_one :
    listIncidents refEngine sampleDb pageZeroQuery = internalError ∧
    listIncidents refEngine sampleDb pageWordQuery = internalError ∧
    listIncidents refEngine sampleDb pageOneQuery =
      { status := 200
        body := .list [rowC, rowB, rowA]
          { total := 3, page := .int 1, limit := .int 10, totalPages := .int 1 } } ∧
    listIncidents refEngine sampleDb pageZeroQuery ≠
      listIncidents refEngine sampleDb pageOneQuery := by
  decide

/-- C6, amended: a `page` that `parseInt` reads as `NaN`, as `-0`, as an integer `p ≤ 0` or
as minus Infinity is not replaced by 1. With `limit` a positive integer the handler's `skip`
is `NaN`, negative or minus Infinity, the store rejects it and the answer is 500; and every
list response that carries a `pagination` reports `parseInt(page)` unchanged as its `page`. -/
theorem list_bad_page_rejected (E : Engine) (db : List Incident) (q : Query) (l : Nat)
    (hl : parseInt (limitArg q) = .int l) (hl0 : 0 < l)
    (hpage : parseInt (pageArg q) = .nan ∨ parseInt (pageArg q) = .negZero ∨
      (∃ p : Int, parseInt (pageArg q) = .int p ∧ p ≤ 0) ∨ parseInt (pageArg q) = .negInf) :
    listIncidents E db q = internalError ∧
    ∀ (db2 : List Incident) (q2 : Query) (data : List Incident) (pg : Pagination),
      listIncidents E db2 q2 = { status := 200, body := .list data pg } →
      pg.page = parseInt (pageArg q2) := by
  constructor
  · apply listIncidents_of_bad_skip
    unfold skipOf
    rw [hl]
    have hlpos : (0 : Int) < (l : Int) := by omega
    rcases hpage with h | h | ⟨p, h, hp⟩ | h
    · left
      rw [h]
      rfl
    · rw [h]
      exact JsNum.mul_neg_pos _ _ hlpos (JsNum.round_neg (0 - 1) false (by norm_num))
    · rw [h]
      exact JsNum.mul_neg_pos _ _ hlpos (JsNum.round_neg (p - 1) false (by omega))
    · rw [h]
      exact JsNum.mul_neg_pos _ _ hlpos (Or.inr rfl)
  · intro db2 q2 data pg h
    obtain ⟨sk, tk, f, o, -, -, -, -, -, -, hpg⟩ := listIncidents_ok E db2 q2 data pg h
    rw [hpg]

/-- C6 amended, at `page=0` with the default limit on the sample table. -/
theorem list_bad_page_rejected_witness :
    parseInt (limitArg pageZeroQuery) = .int (10 : Nat) ∧ 0 < 10 ∧
    parseInt (pageArg pageZeroQuery) = .int 0 ∧
    listIncidents refEngine sampleDb pageZeroQuery = internalError :=
  ⟨by decide, by decide, by decide,
    (list_bad_page_rejected refEngine sampleDb pageZeroQuery 10 (by decide) (by decide)
      (Or.inr (Or.inr (Or.inl ⟨0, by decide, by decide⟩)))).1⟩

/-- C7: for each of `status`, `severity`, `service` and `search`, the request carrying the
parameter as the empty string builds the same `where` as the request omitting it, and the two
requests get the same response on the same table. -/
theorem empty_filter_same_as_absent (E : Engine) (db : List Incident) (q : Query) :
    (buildWhere { q with status := some "" } = buildWhere { q with status := none } ∧
      listIncidents E db { q with status := some "" } =
        listIncidents E db { q with status := none }) ∧
    (buildWhere { q with severity := some "" } = buildWhere { q with severity := none } ∧
      listIncidents E db { q with severity := some "" } =
        listIncidents E db { q with severity := none }) ∧
    (buildWhere { q with service := some "" } = buildWhere { q with service := none } ∧
      listIncidents E db { q with service := some "" } =
        listIncidents E db { q with service := none }) ∧
    (buildWhere { q with search := some "" } = buildWhere { q with search := none } ∧
      listIncidents E db { q with search := some "" } =
        listIncidents E db { q with search := none }) := by
  have key : ∀ a b : Query, buildWhere a = buildWhere b → a.page = b.page →
      a.limit = b.limit → a.sort = b.sort → a.order = b.order →
      listIncidents E db a = listIncidents E db b := by
    intro a b hw h1 h2 h3 h4
    simp only [listIncidents, skipOf, takeOf, pageArg, limitArg, sortArg, orderArg, hw, h1, h2,
      h3, h4]
  have e1 : buildWhere { q with status := some "" } = buildWhere { q with status := none } := by
    simp [buildWhere, truthy]
  have e2 : buildWhere { q with severity := some "" } =
      buildWhere { q with severity := none } := by
    simp [buildWhere, truthy]
  have e3 : buildWhere { q with service := some "" } =
      buildWhere { q with service := none } := by
    simp [buildWhere, truthy]
  have e4 : buildWhere { q with search := some "" } = buildWhere { q with search := none } := by
    simp [buildWhere, truthy]
  exact ⟨⟨e1, key _ _ e1 rfl rfl rfl rfl⟩, ⟨e2, key _ _ e2 rfl rfl rfl rfl⟩,
    ⟨e3, key _ _ e3 rfl rfl rfl rfl⟩, ⟨e4, key _ _ e4 rfl rfl rfl rfl⟩⟩

/-- C8: a list request without `page`, `limit`, `sort` and `order` is answered exactly as the
request `page=1&limit=10&sort=createdAt&order=desc` with the same filters: `skip` is 0,
`take` is 10, the rows are ordered by `createdAt` descending, and the response is 200 with
`pagination.page = 1` and `pagination.limit = 10`. -/
theorem list_defaults (E : Engine) (db : List Incident)
    (status severity service search : Option String) :
    listIncidents E db (filtersOnly status severity service search) =
      listIncidents E db (spelledOut status severity service search) ∧
    skipOf (filtersOnly status severity service search) = .int 0 ∧
    takeOf (filtersOnly status severity service search) = .int 10 ∧
    sortArg (filtersOnly status severity service search) = "createdAt" ∧
    orderArg (filtersOnly status severity service search) = "desc" ∧
    ∃ total totalPages,
      listIncidents E db (filtersOnly status severity service search) =
        { status := 200
          body := .list
            ((E.orderBy .createdAt .desc
              (matching E db (buildWhere (filtersOnly status severity service search)))).take 10)
            { total := total, page := .int 1, limit := .int 10, totalPages := totalPages } } := by
  have hp : parseInt (.num 1) = .int 1 := by decide
  have hl : parseInt (.num 10) = .int 10 := by decide
  have hp2 : parseInt (.str "1") = .int 1 := by decide
  have hl2 : parseInt (.str "10") = .int 10 := by decide
  have hs : skipOf (filtersOnly status severity service search) = .int 0 := by
    simp only [skipOf, filtersOnly, pageArg, limitArg, withNumDefault, hp, hl]
    decide
  have hs2 : skipOf (spelledOut status severity service search) = .int 0 := by
    simp only [skipOf, spelledOut, pageArg, limitArg, withNumDefault, hp2, hl2]
    decide
  have hf : SortField.ofName "createdAt" = some .createdAt := by decide
  have ho : SortOrder.ofName "desc" = some .desc := by decide
  have hw : buildWhere (spelledOut status severity service search) =
      buildWhere (filtersOnly status severity service search) := rfl
  have h1 := listIncidents_of_nat E db (filtersOnly status severity service search) 0 10 hs hl
    (by norm_num) (by norm_num)
  have h2 := listIncidents_of_nat E db (spelledOut status severity service search) 0 10 hs2 hl2
    (by norm_num) (by norm_num)
  rw [hw] at h2
  simp only [sortArg, orderArg, filtersOnly, spelledOut, withStrDefault, hf, ho, pageArg,
    limitArg, withNumDefault, hp, hl, hp2, hl2, List.drop_zero] at h1 h2
  refine ⟨?_, hs, hl, rfl, rfl, _, _, h1⟩
  simp only [filtersOnly, spelledOut]
  rw [h1, h2]

/-! ## Validation and the write handlers -/

theorem updateSchema_ok (m : List (String × Json)) (d : Data)
    (h : updateSchema (.obj m) = .ok d) :
    optionalRule titleRule (lookup m "title") = .ok d.title ∧
    optionalRule serviceRule (lookup m "service") = .ok d.service ∧
    optionalRule severityRule (lookup m "severity") = .ok d.severity ∧
    optionalRule statusRule (lookup m "status") = .ok d.status ∧
    optionalNullable ownerRule (lookup m "owner") = .ok d.owner ∧
    optionalNullable summaryRule (lookup m "summary") = .ok d.summary := by
  change updateShape m = .ok d at h
  unfold updateShape at h
  split at h
  · rename_i t sv se st o su h1 h2 h3 h4 h5 h6
    injection h with h
    subst h
    exact ⟨h1, h2, h3, h4, h5, h6⟩
  · simp at h

theorem optional_stringMin1_ok (key msg : String) (v : Option Json) (t : Option String)
    (h : optionalRule (stringMin1 key msg) v = .ok t) :
    (v = none ∧ t = none) ∨ ∃ s, v = some (.str s) ∧ t = some s ∧ 1 ≤ s.length := by
  cases v with
  | none =>
    simp only [optionalRule] at h
    injection h with h
    exact Or.inl ⟨rfl, h.symm⟩
  | some j =>
    right
    cases j with
    | str s =>
      by_cases hs : 1 ≤ s.length
      · simp only [optionalRule, stringMin1, hs, if_true] at h
        injection h with h
        exact ⟨s, rfl, h.symm, hs⟩
      · simp [optionalRule, stringMin1, hs] at h
    | _ => simp [optionalRule, stringMin1] at h

theorem optional_enumOf_ok (key : String) (values : List String) (v : Option Json)
    (t : Option String) (h : optionalRule (enumOf key values) v = .ok t) :
    (v = none ∧ t = none) ∨ ∃ s, v = some (.str s) ∧ t = some s ∧ s ∈ values := by
  cases v with
  | none =>
    simp only [optionalRule] at h
    injection h with h
    exact Or.inl ⟨rfl, h.symm⟩
  | some j =>
    right
    cases j with
    | str s =>
      by_cases hs : s ∈ values
      · simp only [optionalRule, enumOf, hs, if_true] at h
        injection h with h
        exact ⟨s, rfl, h.symm, hs⟩
      · simp [optionalRule, enumOf, hs] at h
    | _ => simp [optionalRule, enumOf] at h

theorem optional_nullable_ok (key : String) (v : Option Json) (t : Option (Option String))
    (h : optionalNullable (optionalNullableString key) v = .ok t) :
    (v = none ∧ t = none) ∨ (v = some .null ∧ t = some none) ∨
      ∃ s, v = some (.str s) ∧ t = some (some s) := by
  cases v with
  | none =>
    simp only [optionalNullable] at h
    injection h with h
    exact Or.inl ⟨rfl, h.symm⟩
  | some j =>
    right
    cases j with
    | null =>
      simp only [optionalNullable, optionalNullableString] at h
      injection h with h
      exact Or.inl ⟨rfl, h.symm⟩
    | str s =>
      simp only [optionalNullable, optionalNullableString] at h
      injection h with h
      exact Or.inr ⟨s, rfl, h.symm⟩
    | _ => simp [optionalNullable, optionalNullableString] at h

theorem findUnique_some (db : List Incident) (id : String) (r : Incident)
    (h : findUnique db id = some r) : r.id = id := by
  have := List.find?_some h
  simpa using this

/-- C9: for an identifier present in the table and a body accepted by the update schema, the
update answers 200 with the addressed row in which each key present in the body has the
body's value, each key absent from the body keeps its value, `id` and `createdAt` keep their
values and `updatedAt` is the instant of the update; the table keeps its length, every row
with another identifier stays in place unchanged, and the addressed row is replaced by the
returned one. -/
theorem update_changes_only_supplied (db : List Incident) (now : Nat) (id : String)
    (m : List (String × Json)) (d : Data) (r : Incident)
    (hacc : updateSchema (.obj m) = .ok d) (hfind : findUnique db id = some r) :
    ∃ r2 db2, updateIncident db now id (.obj m) = ({ status := 200, body := .incident r2 }, db2) ∧
      r2.id = r.id ∧ r2.createdAt = r.createdAt ∧ r2.updatedAt = now ∧
      ((lookup m "title" = none ∧ r2.title = r.title) ∨
        lookup m "title" = some (.str r2.title)) ∧
      ((lookup m "service" = none ∧ r2.service = r.service) ∨
        lookup m "service" = some (.str r2.service)) ∧
      ((lookup m "severity" = none ∧ r2.severity = r.severity) ∨
        lookup m "severity" = some (.str r2.severity)) ∧
      ((lookup m "status" = none ∧ r2.status = r.status) ∨
        lookup m "status" = some (.str r2.status)) ∧
      ((lookup m "owner" = none ∧ r2.owner = r.owner) ∨
        (lookup m "owner" = some .null ∧ r2.owner = none) ∨
        ∃ s, lookup m "owner" = some (.str s) ∧ r2.owner = some s) ∧
      ((lookup m "summary" = none ∧ r2.summary = r.summary) ∨
        (lookup m "summary" = some .null ∧ r2.summary = none) ∨
        ∃ s, lookup m "summary" = some (.str s) ∧ r2.summary = some s) ∧
      db2.length = db.length ∧
      (∀ (i : Nat) (x : Incident), db[i]? = some x → x.id ≠ id → db2[i]? = some x) ∧
      (∀ i : Nat, db[i]? = some r → db2[i]? = some r2) := by
  obtain ⟨h1, h2, h3, h4, h5, h6⟩ := updateSchema_ok m d hacc
  have hid := findUnique_some db id r hfind
  refine ⟨applyData r d now,
    db.map (fun x => if x.id = id then applyData x d now else x), ?_, rfl, rfl, rfl, ?_, ?_,
    ?_, ?_, ?_, ?_, by simp, ?_, ?_⟩
  · simp [updateIncident, hacc, update, hfind]
  · rcases optional_stringMin1_ok _ _ _ _ h1 with ⟨hv, ht⟩ | ⟨s, hv, ht, -⟩
    · exact Or.inl ⟨hv, by simp [applyData, ht]⟩
    · exact Or.inr (by simp [applyData, ht, hv])
  · rcases optional_stringMin1_ok _ _ _ _ h2 with ⟨hv, ht⟩ | ⟨s, hv, ht, -⟩
    · exact Or.inl ⟨hv, by simp [applyData, ht]⟩
    · exact Or.inr (by simp [applyData, ht, hv])
  · rcases optional_enumOf_ok _ _ _ _ h3 with ⟨hv, ht⟩ | ⟨s, hv, ht, -⟩
    · exact Or.inl ⟨hv, by simp [applyData, ht]⟩
    · exact Or.inr (by simp [applyData, ht, hv])
  · rcases optional_enumOf_ok _ _ _ _ h4 with ⟨hv, ht⟩ | ⟨s, hv, ht, -⟩
    · exact Or.inl ⟨hv, by simp [applyData, ht]⟩
    · exact Or.inr (by simp [applyData, ht, hv])
  · rcases optional_nullable_ok _ _ _ h5 with ⟨hv, ht⟩ | ⟨hv, ht⟩ | ⟨s, hv, ht⟩
    · exact Or.inl ⟨hv, by simp [applyData, ht, setNullable]⟩
    · exact Or.inr (Or.inl ⟨hv, by simp [applyData, ht, setNullable]⟩)
    · exact Or.inr (Or.inr ⟨s, hv, by simp [applyData, ht, setNullable]⟩)
  · rcases optional_nullable_ok _ _ _ h6 with ⟨hv, ht⟩ | ⟨hv, ht⟩ | ⟨s, hv, ht⟩
    · exact Or.inl ⟨hv, by simp [applyData, ht, setNullable]⟩
    · exact Or.inr (Or.inl ⟨hv, by simp [applyData, ht, setNullable]⟩)
    · exact Or.inr (Or.inr ⟨s, hv, by simp [applyData, ht, setNullable]⟩)
  · intro i x hx hne
    simp [List.getElem?_map, hx, hne]
  · intro i hx
    simp [List.getElem?_map, hx, hid]

/-- C9 at the body with `status` set to RESOLVED on the second sample row: only `status` and
`updatedAt` change, and the other rows are as before. -/
theorem update_changes_only_supplied_witness :
    updateSchema (.obj resolveMembers) = .ok { status := some "RESOLVED" } ∧
    findUnique sampleDb "b" = some rowB ∧
    updateIncident sampleDb 9 "b" (.obj resolveMembers) =
      ({ status := 200, body := .incident rowBResolved }, [rowA, rowBResolved, rowC]) ∧
    rowBResolved =
      { id := "b", title := "Slow signup", service := "Auth", severity := "SEV2",
        status := "RESOLVED", owner := some "amy@team.com", summary := none, createdAt := 2,
        updatedAt := 9 } ∧
    ∃ r2 db2, updateIncident sampleDb 9 "b" (.obj resolveMembers) =
        ({ status := 200, body := .incident r2 }, db2) ∧
      r2.id = rowB.id ∧ r2.createdAt = rowB.createdAt ∧ r2.updatedAt = 9 :=
  ⟨rfl, by decide, by decide, by decide,
    (update_changes_only_supplied sampleDb 9 "b" resolveMembers { status := some "RESOLVED" }
      rowB rfl (by decide)).imp fun _ h => h.imp fun _ h2 => ⟨h2.1, h2.2.1, h2.2.2.1,
        h2.2.2.2.1⟩⟩

/-! ## The error report -/

theorem fileUnder_files (key : String) (msg : Message) (fs : List (String × List Message)) :
    ∃ msgs, (key, msgs) ∈ fileUnder key msg fs ∧ msg ∈ msgs := by
  induction fs with
  | nil => exact ⟨[msg], by simp [fileUnder], by simp⟩
  | cons kv rest ih =>
    obtain ⟨k, ms⟩ := kv
    by_cases hk : k = key
    · exact ⟨ms ++ [msg], by simp [fileUnder, hk], by simp⟩
    · obtain ⟨msgs, h1, h2⟩ := ih
      exact ⟨msgs, by simp [fileUnder, hk, h1], h2⟩

theorem fileUnder_keeps (key : String) (msg : Message) (fs : List (String × List Message))
    (k : String) (x : Message) (h : ∃ msgs, (k, msgs) ∈ fs ∧ x ∈ msgs) :
    ∃ msgs, (k, msgs) ∈ fileUnder key msg fs ∧ x ∈ msgs := by
  induction fs with
  | nil =>
    obtain ⟨msgs, h1, -⟩ := h
    simp at h1
  | cons kv rest ih =>
    obtain ⟨k0, ms⟩ := kv
    obtain ⟨msgs, h1, h2⟩ := h
    rcases List.mem_cons.mp h1 with heq | hin
    · injection heq with e1 e2
      subst e1 e2
      by_cases hk : k = key
      · exact ⟨msgs ++ [msg], by simp [fileUnder, hk], by simp [h2]⟩
      · exact ⟨msgs, by simp [fileUnder, hk], h2⟩
    · obtain ⟨msgs2, h3, h4⟩ := ih ⟨msgs, hin, h2⟩
      by_cases hk : k0 = key
      · exact ⟨msgs, by simp [fileUnder, hk, hin], h2⟩
      · exact ⟨msgs2, by simp [fileUnder, hk, h3], h4⟩

theorem fileUnder_keys (key : String) (msg : Message) (fs : List (String × List Message))
    (k : String) (msgs : List Message) (h : (k, msgs) ∈ fileUnder key msg fs) :
    k = key ∨ ∃ old, (k, old) ∈ fs := by
  induction fs with
  | nil =>
    simp [fileUnder] at h
    exact Or.inl h.1
  | cons kv rest ih =>
    obtain ⟨k0, ms⟩ := kv
    by_cases hk : k0 = key
    · simp only [fileUnder, hk, if_true, List.mem_cons, Prod.mk.injEq] at h
      rcases h with ⟨e, -⟩ | h
      · exact Or.inl e
      · exact Or.inr ⟨msgs, by simp [h]⟩
    · simp only [fileUnder, hk, if_false, List.mem_cons, Prod.mk.injEq] at h
      rcases h with ⟨e1, e2⟩ | h
      · exact Or.inr ⟨ms, by simp [e1]⟩
      · rcases ih h with e | ⟨old, ho⟩
        · exact Or.inl e
        · exact Or.inr ⟨old, by simp [ho]⟩

/-- An issue is on file in a report: its message stands under `_errors` when it has no path,
under the first key of its path otherwise. -/
theorem format_files_aux (issues : List Issue) (r0 : ErrorReport) :
    (∀ x, x ∈ r0._errors → x ∈ (issues.foldl ErrorReport.add r0)._errors) ∧
    (∀ k x, (∃ msgs, (k, msgs) ∈ r0.fields ∧ x ∈ msgs) →
      ∃ msgs, (k, msgs) ∈ (issues.foldl ErrorReport.add r0).fields ∧ x ∈ msgs) ∧
    (∀ i ∈ issues,
      (i.path = [] ∧ i.message ∈ (issues.foldl ErrorReport.add r0)._errors) ∨
      ∃ k rest msgs, i.path = k :: rest ∧
        (k, msgs) ∈ (issues.foldl ErrorReport.add r0).fields ∧ i.message ∈ msgs) ∧
    (∀ k msgs, (k, msgs) ∈ (issues.foldl ErrorReport.add r0).fields →
      (∃ old, (k, old) ∈ r0.fields) ∨ ∃ i ∈ issues, ∃ rest, i.path = k :: rest) := by
  induction issues generalizing r0 with
  | nil =>
    refine ⟨fun x h => h, fun k x h => h, fun i hi => absurd hi (List.not_mem_nil i), ?_⟩
    intro k msgs h
    exact Or.inl ⟨msgs, h⟩
  | cons a rest ih =>
    obtain ⟨ih1, ih2, ih3, ih4⟩ := ih (r0.add a)
    have keepE : ∀ x, x ∈ r0._errors → x ∈ (r0.add a)._errors := by
      intro x hx
      unfold ErrorReport.add
      cases a.path <;> simp [hx]
    have keepF : ∀ k x, (∃ msgs, (k, msgs) ∈ r0.fields ∧ x ∈ msgs) →
        ∃ msgs, (k, msgs) ∈ (r0.add a).fields ∧ x ∈ msgs := by
      intro k x hx
      unfold ErrorReport.add
      cases hpa : a.path with
      | nil => simpa using hx
      | cons key tl => exact fileUnder_keeps key a.message r0.fields k x hx
    refine ⟨fun x hx => ih1 x (keepE x hx), fun k x hx => ih2 k x (keepF k x hx), ?_, ?_⟩
    · intro i hi
      rcases List.mem_cons.mp hi with rfl | hi
      · cases hpa : i.path with
        | nil =>
          left
          refine ⟨rfl, ih1 _ ?_⟩
          simp [ErrorReport.add, hpa]
        | cons key tl =>
          right
          have h0 : ∃ msgs, (key, msgs) ∈ (r0.add i).fields ∧ i.message ∈ msgs := by
            simp only [ErrorReport.add, hpa]
            exact fileUnder_files key i.message r0.fields
          obtain ⟨msgs, h1, h2⟩ := ih2 key i.message h0
          exact ⟨key, tl, msgs, rfl, h1, h2⟩
      · exact ih3 i hi
    · intro k msgs h
      rcases ih4 k msgs h with ⟨old, ho⟩ | ⟨i, hi, tl, hp⟩
      · cases hpa : a.path with
        | nil =>
          left
          simp only [ErrorReport.add, hpa] at ho
          exact ⟨old, ho⟩
        | cons key tl =>
          simp only [ErrorReport.add, hpa] at ho
          rcases fileUnder_keys key a.message r0.fields k old ho with e | h2
          · exact Or.inr ⟨a, by simp, tl, by rw [hpa, e]⟩
          · exact Or.inl h2
      · exact Or.inr ⟨i, by simp [hi], tl, hp⟩

theorem stringMin1_path (key msg : String) (v : Option Json) (i : Issue)
    (h : i ∈ issuesOf (stringMin1 key msg v)) : i.path = [key] := by
  unfold stringMin1 at h
  split at h
  · split at h
    · simp [issuesOf] at h
    · simp only [issuesOf, List.mem_singleton] at h
      rw [h]
  · simp only [issuesOf, List.mem_singleton] at h
    rw [h]
    rfl

theorem enumOf_path (key : String) (values : List String) (v : Option Json) (i : Issue)
    (h : i ∈ issuesOf (enumOf key values v)) : i.path = [key] := by
  unfold enumOf at h
  split at h
  · split at h
    · simp [issuesOf] at h
    · simp only [issuesOf, List.mem_singleton] at h
      rw [h]
      rfl
  · simp only [issuesOf, List.mem_singleton] at h
    rw [h]
    rfl

theorem optionalNullableString_path (key : String) (v : Option Json) (i : Issue)
    (h : i ∈ issuesOf (optionalNullableString key v)) : i.path = [key] := by
  unfold optionalNullableString at h
  split at h
  · simp [issuesOf] at h
  · simp [issuesOf] at h
  · simp [issuesOf] at h
  · simp only [issuesOf, List.mem_singleton] at h
    rw [h]
    rfl

theorem optionalRule_issues {α : Type} (rule : Option Json → Except Issue α) (v : Option Json)
    (i : Issue) (h : i ∈ issuesOf (optionalRule rule v)) : i ∈ issuesOf (rule v) := by
  cases v with
  | none => simp [optionalRule, issuesOf] at h
  | some j =>
    simp only [optionalRule] at h
    cases hr : rule (some j) with
    | ok a => simp [hr, issuesOf] at h
    | error e =>
      simp only [hr, issuesOf, List.mem_singleton] at h
      simp [issuesOf, h]

theorem optionalNullable_issues (rule : Option Json → Except Issue (Option (Option String)))
    (v : Option Json) (i : Issue) (h : i ∈ issuesOf (optionalNullable rule v)) :
    i ∈ issuesOf (rule v) := by
  cases v with
  | none => simp [optionalNullable, issuesOf] at h
  | some j => exact h

theorem issuesOf_nil {α : Type} (r : Except Issue α) (h : issuesOf r = []) :
    ∃ a, r = .ok a := by
  cases r with
  | ok a => exact ⟨a, rfl⟩
  | error e => simp [issuesOf] at h

/-- The issues of a body rejected by the object schema of `incidentSchema`: there is at least
one, and each has one of the schema keys as its path. -/
theorem incidentShape_issues (m : List (String × Json)) (issues : List Issue)
    (h : incidentShape m = .error issues) :
    issues ≠ [] ∧ ∀ i ∈ issues, ∃ k, i.path = [k] ∧ k ∈ schemaKeys := by
  unfold incidentShape at h
  split at h
  · simp at h
  · rename_i hno
    injection h with h
    subst h
    constructor
    · intro hnil
      simp only [List.append_eq_nil] at hnil
      obtain ⟨⟨⟨⟨⟨e1, e2⟩, e3⟩, e4⟩, e5⟩, e6⟩ := hnil
      obtain ⟨a1, h1⟩ := issuesOf_nil _ e1
      obtain ⟨a2, h2⟩ := issuesOf_nil _ e2
      obtain ⟨a3, h3⟩ := issuesOf_nil _ e3
      obtain ⟨a4, h4⟩ := issuesOf_nil _ e4
      obtain ⟨a5, h5⟩ := issuesOf_nil _ e5
      obtain ⟨a6, h6⟩ := issuesOf_nil _ e6
      exact hno a1 a2 a3 a4 a5 a6 h1 h2 h3 h4 h5 h6
    · intro i hi
      simp only [List.mem_append] at hi
      rcases hi with ((((hi | hi) | hi) | hi) | hi) | hi
      · exact ⟨"title", stringMin1_path _ _ _ i hi, by decide⟩
      · exact ⟨"service", stringMin1_path _ _ _ i hi, by decide⟩
      · exact ⟨"severity", enumOf_path _ _ _ i hi, by decide⟩
      · exact ⟨"status", enumOf_path _ _ _ i hi, by decide⟩
      · exact ⟨"owner", optionalNullableString_path _ _ i hi, by decide⟩
      · exact ⟨"summary", optionalNullableString_path _ _ i hi, by decide⟩

/-- The issues of a body rejected by the object schema of `updateSchema`. -/
theorem updateShape_issues (m : List (String × Json)) (issues : List Issue)
    (h : updateShape m = .error issues) :
    issues ≠ [] ∧ ∀ i ∈ issues, ∃ k, i.path = [k] ∧ k ∈ schemaKeys := by
  unfold updateShape at h
  split at h
  · simp at h
  · rename_i hno
    injection h with h
    subst h
    constructor
    · intro hnil
      simp only [List.append_eq_nil] at hnil
      obtain ⟨⟨⟨⟨⟨e1, e2⟩, e3⟩, e4⟩, e5⟩, e6⟩ := hnil
      obtain ⟨a1, h1⟩ := issuesOf_nil _ e1
      obtain ⟨a2, h2⟩ := issuesOf_nil _ e2
      obtain ⟨a3, h3⟩ := issuesOf_nil _ e3
      obtain ⟨a4, h4⟩ := issuesOf_nil _ e4
      obtain ⟨a5, h5⟩ := issuesOf_nil _ e5
      obtain ⟨a6, h6⟩ := issuesOf_nil _ e6
      exact hno a1 a2 a3 a4 a5 a6 h1 h2 h3 h4 h5 h6
    · intro i hi
      simp only [List.mem_append] at hi
      rcases hi with ((((hi | hi) | hi) | hi) | hi) | hi
      · exact ⟨"title", stringMin1_path _ _ _ i (optionalRule_issues _ _ i hi), by decide⟩
      · exact ⟨"service", stringMin1_path _ _ _ i (optionalRule_issues _ _ i hi), by decide⟩
      · exact ⟨"severity", enumOf_path _ _ _ i (optionalRule_issues _ _ i hi), by decide⟩
      · exact ⟨"status", enumOf_path _ _ _ i (optionalRule_issues _ _ i hi), by decide⟩
      · exact ⟨"owner",
          optionalNullableString_path _ _ i (optionalNullable_issues _ _ i hi), by decide⟩
      · exact ⟨"summary",
          optionalNullableString_path _ _ i (optionalNullable_issues _ _ i hi), by decide⟩

/-- Every issue of a failed parse is on file in the formatted report, provided its path is
empty or a single schema key. -/
theorem format_onFile (issues : List Issue)
    (hpaths : ∀ i ∈ issues, i.path = [] ∨ ∃ k, i.path = [k] ∧ k ∈ schemaKeys) :
    ∀ i ∈ issues, onFile (format issues) i := by
  intro i hi
  obtain ⟨-, -, h3, -⟩ := format_files_aux issues {}
  rcases h3 i hi with h | ⟨k, rest, msgs, hp, hf, hm⟩
  · exact Or.inl h
  · rcases hpaths i hi with h0 | ⟨k2, hk2, hkeys⟩
    · rw [h0] at hp
      exact absurd hp (by simp)
    · rw [hk2] at hp
      injection hp with e1 e2
      subst e1
      exact Or.inr ⟨k2, msgs, hk2, hkeys, hf, hm⟩

/-- The two handlers on a `req.body` their schema rejects: status 400 with the formatted
error report, in which every issue is on file under `_errors` or under the schema key it
concerns (always under a key when the body is an object), with at least one issue; the table
is returned as it was. -/
theorem handlers_reject_invalid_body (db : List Incident) (newId : String) (now : Nat) (id : String)
    (body : Json) :
    (∀ issues, incidentSchema body = .error issues →
      createIncident db newId now body =
        ({ status := 400, body := .errors (format issues) }, db) ∧
      issues ≠ [] ∧ (∀ i ∈ issues, onFile (format issues) i) ∧
      (∀ m, body = .obj m → ∀ i ∈ issues, ∃ k, i.path = [k] ∧ k ∈ schemaKeys)) ∧
    (∀ issues, updateSchema body = .error issues →
      updateIncident db now id body =
        ({ status := 400, body := .errors (format issues) }, db) ∧
      issues ≠ [] ∧ (∀ i ∈ issues, onFile (format issues) i) ∧
      (∀ m, body = .obj m → ∀ i ∈ issues, ∃ k, i.path = [k] ∧ k ∈ schemaKeys)) := by
  have shape : ∀ (parse : Json → Except (List Issue) Data)
      (shapeOf : List (String × Json) → Except (List Issue) Data),
      (∀ m, parse (.obj m) = shapeOf m) →
      (∀ b, (∀ m, b ≠ .obj m) → parse b = .error [notAnObject]) →
      (∀ m issues, shapeOf m = .error issues →
        issues ≠ [] ∧ ∀ i ∈ issues, ∃ k, i.path = [k] ∧ k ∈ schemaKeys) →
      ∀ issues, parse body = .error issues →
        issues ≠ [] ∧ (∀ i ∈ issues, onFile (format issues) i) ∧
        (∀ m, body = .obj m → ∀ i ∈ issues, ∃ k, i.path = [k] ∧ k ∈ schemaKeys) := by
    intro parse shapeOf hobj hother hshape issues h
    by_cases hb : ∃ m, body = .obj m
    · obtain ⟨m, rfl⟩ := hb
      rw [hobj] at h
      obtain ⟨h1, h2⟩ := hshape m issues h
      refine ⟨h1, format_onFile issues (fun i hi => Or.inr (h2 i hi)), ?_⟩
      intro m2 _ i hi
      exact h2 i hi
    · have hb2 : ∀ m, body ≠ .obj m := fun m hm => hb ⟨m, hm⟩
      rw [hother body hb2] at h
      injection h with h
      subst h
      refine ⟨by simp, format_onFile _ ?_, fun m hm => absurd hm (hb2 m)⟩
      intro i hi
      simp only [List.mem_singleton] at hi
      left
      rw [hi]
      rfl
  constructor
  · intro issues h
    refine ⟨by simp [createIncident, h], ?_⟩
    refine shape incidentSchema incidentShape (fun m => rfl) ?_ incidentShape_issues issues h
    intro b hb
    cases b <;> first | rfl | exact absurd rfl (hb _)
  · intro issues h
    refine ⟨by simp [updateIncident, h], ?_⟩
    refine shape updateSchema updateShape (fun m => rfl) ?_ updateShape_issues issues h
    intro b hb
    cases b <;> first | rfl | exact absurd rfl (hb _)

/-- C10, as stated, fails: the payload `null` is one the create schema and the update schema
reject, yet the two routes answer it with the 400 page of the JSON middleware, which carries
no error report; the table is as before. -/
theorem null_payload_gets_no_report :
    incidentSchema .null = .error [notAnObject] ∧
    updateSchema .null = .error [notAnObject] ∧
    postIncidents sampleDb "d" 9 .null = ({ status := 400, body := .html }, sampleDb) ∧
    patchIncident sampleDb 9 "b" .null = ({ status := 400, body := .html }, sampleDb) ∧
    (∀ report, (postIncidents sampleDb "d" 9 .null).1.body ≠ .errors report) ∧
    (∀ report, (patchIncident sampleDb 9 "b" .null).1.body ≠ .errors report) :=
  ⟨rfl, rfl, rfl, rfl, fun _ h => Body.noConfusion h, fun _ h => Body.noConfusion h⟩

/-- C10, amended: a payload that is a JSON object or array, the values the JSON middleware
hands to a handler as `req.body`, and that the create schema (on create) or the update schema
(on update) rejects, is answered 400 with the formatted error report, an object in which every
issue is on file under `_errors` or under the schema key it concerns (always under a key when
the body is an object), with at least one issue. Any other payload is refused by the
middleware with 400 and no error report. In both cases the table is returned as it was. -/
theorem invalid_payload_rejected (db : List Incident) (newId : String) (now : Nat)
    (id : String) (payload : Json) :
    (∀ body, expressJson payload = some body →
      ((∃ m, payload = .obj m) ∨ (∃ items, payload = .arr items)) ∧ body = payload ∧
      (∀ issues, incidentSchema body = .error issues →
        postIncidents db newId now payload =
          ({ status := 400, body := .errors (format issues) }, db) ∧
        issues ≠ [] ∧ (∀ i ∈ issues, onFile (format issues) i) ∧
        (∀ m, body = .obj m → ∀ i ∈ issues, ∃ k, i.path = [k] ∧ k ∈ schemaKeys)) ∧
      (∀ issues, updateSchema body = .error issues →
        patchIncident db now id payload =
          ({ status := 400, body := .errors (format issues) }, db) ∧
        issues ≠ [] ∧ (∀ i ∈ issues, onFile (format issues) i) ∧
        (∀ m, body = .obj m → ∀ i ∈ issues, ∃ k, i.path = [k] ∧ k ∈ schemaKeys))) ∧
    (expressJson payload = none →
      postIncidents db newId now payload = ({ status := 400, body := .html }, db) ∧
      patchIncident db now id payload = ({ status := 400, body := .html }, db)) := by
  constructor
  · intro body hbody
    have hshape : ((∃ m, payload = .obj m) ∨ (∃ items, payload = .arr items)) ∧
        body = payload := by
      cases payload with
      | obj m =>
        simp only [expressJson, Option.some.injEq] at hbody
        exact ⟨Or.inl ⟨m, rfl⟩, hbody.symm⟩
      | arr items =>
        simp only [expressJson, Option.some.injEq] at hbody
        exact ⟨Or.inr ⟨items, rfl⟩, hbody.symm⟩
      | null => exact Option.noConfusion hbody
      | bool b => exact Option.noConfusion hbody
      | num n => exact Option.noConfusion hbody
      | str t => exact Option.noConfusion hbody
    have hpost : postIncidents db newId now payload = createIncident db newId now body := by
      unfold postIncidents
      rw [hbody]
    have hpatch : patchIncident db now id payload = updateIncident db now id body := by
      unfold patchIncident
      rw [hbody]
    refine ⟨hshape.1, hshape.2, ?_, ?_⟩
    · intro issues h
      rw [hpost]
      exact (handlers_reject_invalid_body db newId now id body).1 issues h
    · intro issues h
      rw [hpatch]
      exact (handlers_reject_invalid_body db newId now id body).2 issues h
  · intro hnone
    unfold postIncidents patchIncident
    rw [hnone]
    exact ⟨rfl, rfl⟩

/-- C10 amended, on the sample table: creating with an empty title and nothing else, and
updating with a status outside the enumeration, are answered 400 with a report keyed by
field, and the table is as before. -/
theorem invalid_payload_rejected_witness :
    expressJson emptyTitleBody = some emptyTitleBody ∧
    incidentSchema emptyTitleBody = .error emptyTitleIssues ∧
    postIncidents sampleDb "d" 9 emptyTitleBody =
      ({ status := 400
         body := .errors
           { _errors := []
             fields := [("title", [.custom "Title is required"]),
               ("service", [.default .invalid_type]), ("severity", [.default .invalid_type]),
               ("status", [.default .invalid_type])] } }, sampleDb) ∧
    expressJson badStatusBody = some badStatusBody ∧
    updateSchema badStatusBody = .error [defaultIssue "status" .invalid_enum_value] ∧
    patchIncident sampleDb 9 "b" badStatusBody =
      ({ status := 400
         body := .errors
           { _errors := [], fields := [("status", [.default .invalid_enum_value])] } },
       sampleDb) :=
  ⟨rfl, rfl,
    (((invalid_payload_rejected sampleDb "d" 9 "b" emptyTitleBody).1 emptyTitleBody rfl).2.2.1
      emptyTitleIssues rfl).1,
    rfl, rfl,
    (((invalid_payload_rejected sampleDb "d" 9 "b" badStatusBody).1 badStatusBody rfl).2.2.2
      [defaultIssue "status" .invalid_enum_value] rfl).1⟩

/-! ## The two schemas -/

theorem stringMin1_ok_iff (key msg : String) (v : Option Json) (t : String) :
    stringMin1 key msg v = .ok t ↔ v = some (.str t) ∧ 1 ≤ t.length := by
  constructor
  · intro h
    unfold stringMin1 at h
    split at h
    · rename_i s
      by_cases hs : 1 ≤ s.length
      · simp only [hs, if_true] at h
        injection h with h
        subst h
        exact ⟨rfl, hs⟩
      · simp [hs] at h
    · simp at h
  · rintro ⟨rfl, hs⟩
    simp [stringMin1, hs]

theorem enumOf_ok_iff (key : String) (values : List String) (v : Option Json) (t : String) :
    enumOf key values v = .ok t ↔ v = some (.str t) ∧ t ∈ values := by
  constructor
  · intro h
    unfold enumOf at h
    split at h
    · rename_i s
      by_cases hs : s ∈ values
      · simp only [hs, if_true] at h
        injection h with h
        subst h
        exact ⟨rfl, hs⟩
      · simp [hs] at h
    · simp at h
  · rintro ⟨rfl, hs⟩
    simp [enumOf, hs]

theorem optionalNullableString_ok_iff (key : String) (v : Option Json)
    (o : Option (Option String)) :
    optionalNullableString key v = .ok o ↔
      (v = none ∧ o = none) ∨ (v = some .null ∧ o = some none) ∨
        ∃ s, v = some (.str s) ∧ o = some (some s) := by
  constructor
  · intro h
    unfold optionalNullableString at h
    split at h
    · injection h with h
      exact Or.inl ⟨rfl, h.symm⟩
    · injection h with h
      exact Or.inr (Or.inl ⟨rfl, h.symm⟩)
    · rename_i s
      injection h with h
      exact Or.inr (Or.inr ⟨s, rfl, h.symm⟩)
    · simp at h
  · rintro (⟨rfl, rfl⟩ | ⟨rfl, rfl⟩ | ⟨s, rfl, rfl⟩) <;> rfl

theorem incidentShape_ok (m : List (String × Json)) (d : Data)
    (h : incidentShape m = .ok d) :
    ∃ t sv se st, titleRule (lookup m "title") = .ok t ∧
      serviceRule (lookup m "service") = .ok sv ∧
      severityRule (lookup m "severity") = .ok se ∧
      statusRule (lookup m "status") = .ok st ∧
      ownerRule (lookup m "owner") = .ok d.owner ∧
      summaryRule (lookup m "summary") = .ok d.summary ∧
      d.title = some t ∧ d.service = some sv ∧ d.severity = some se ∧ d.status = some st := by
  unfold incidentShape at h
  split at h
  · rename_i t sv se st o su h1 h2 h3 h4 h5 h6
    injection h with h
    subst h
    exact ⟨t, sv, se, st, h1, h2, h3, h4, h5, h6, rfl, rfl, rfl, rfl⟩
  · simp at h

theorem incidentShape_of_ok (m : List (String × Json)) (t sv se st : String)
    (o su : Option (Option String))
    (h1 : titleRule (lookup m "title") = .ok t)
    (h2 : serviceRule (lookup m "service") = .ok sv)
    (h3 : severityRule (lookup m "severity") = .ok se)
    (h4 : statusRule (lookup m "status") = .ok st)
    (h5 : ownerRule (lookup m "owner") = .ok o)
    (h6 : summaryRule (lookup m "summary") = .ok su) :
    incidentShape m =
      .ok { title := some t, service := some sv, severity := some se, status := some st,
            owner := o, summary := su } := by
  simp [incidentShape, h1, h2, h3, h4, h5, h6]

/-- C11: the create schema accepts a body iff the body is an object whose `title` is a string
of length at least 1, whose `service` is a string of length at least 1, whose `severity` is
one of SEV1..SEV4, whose `status` is one of OPEN, MITIGATED, RESOLVED, and whose `owner` and
`summary` are each absent, null or a string. No other condition is imposed on `service`, and
no length above 1 on `title`. -/
theorem create_schema_accepts_iff (body : Json) :
    (∃ d, incidentSchema body = .ok d) ↔
      ∃ m, body = .obj m ∧
        (∃ s, lookup m "title" = some (.str s) ∧ 1 ≤ s.length) ∧
        (∃ s, lookup m "service" = some (.str s) ∧ 1 ≤ s.length) ∧
        (∃ s, lookup m "severity" = some (.str s) ∧
          (s = "SEV1" ∨ s = "SEV2" ∨ s = "SEV3" ∨ s = "SEV4")) ∧
        (∃ s, lookup m "status" = some (.str s) ∧
          (s = "OPEN" ∨ s = "MITIGATED" ∨ s = "RESOLVED")) ∧
        (lookup m "owner" = none ∨ lookup m "owner" = some .null ∨
          ∃ s, lookup m "owner" = some (.str s)) ∧
        (lookup m "summary" = none ∨ lookup m "summary" = some .null ∨
          ∃ s, lookup m "summary" = some (.str s)) := by
  constructor
  · rintro ⟨d, h⟩
    cases body with
    | obj m =>
      obtain ⟨t, sv, se, st, h1, h2, h3, h4, h5, h6, -⟩ := incidentShape_ok m d h
      obtain ⟨e1, l1⟩ := (stringMin1_ok_iff _ _ _ _).mp h1
      obtain ⟨e2, l2⟩ := (stringMin1_ok_iff _ _ _ _).mp h2
      obtain ⟨e3, l3⟩ := (enumOf_ok_iff _ _ _ _).mp h3
      obtain ⟨e4, l4⟩ := (enumOf_ok_iff _ _ _ _).mp h4
      refine ⟨m, rfl, ⟨t, e1, l1⟩, ⟨sv, e2, l2⟩, ⟨se, e3, by simpa [severities] using l3⟩,
        ⟨st, e4, by simpa [statuses] using l4⟩, ?_, ?_⟩
      · rcases (optionalNullableString_ok_iff _ _ _).mp h5 with ⟨hv, -⟩ | ⟨hv, -⟩ | ⟨s, hv, -⟩
        · exact Or.inl hv
        · exact Or.inr (Or.inl hv)
        · exact Or.inr (Or.inr ⟨s, hv⟩)
      · rcases (optionalNullableString_ok_iff _ _ _).mp h6 with ⟨hv, -⟩ | ⟨hv, -⟩ | ⟨s, hv, -⟩
        · exact Or.inl hv
        · exact Or.inr (Or.inl hv)
        · exact Or.inr (Or.inr ⟨s, hv⟩)
    | _ => simp [incidentSchema] at h
  · rintro ⟨m, rfl, ⟨t, e1, l1⟩, ⟨sv, e2, l2⟩, ⟨se, e3, l3⟩, ⟨st, e4, l4⟩, ho, hs⟩
    have h1 : titleRule (lookup m "title") = .ok t := (stringMin1_ok_iff _ _ _ _).mpr ⟨e1, l1⟩
    have h2 : serviceRule (lookup m "service") = .ok sv :=
      (stringMin1_ok_iff _ _ _ _).mpr ⟨e2, l2⟩
    have h3 : severityRule (lookup m "severity") = .ok se :=
      (enumOf_ok_iff _ _ _ _).mpr ⟨e3, by simpa [severities] using l3⟩
    have h4 : statusRule (lookup m "status") = .ok st :=
      (enumOf_ok_iff _ _ _ _).mpr ⟨e4, by simpa [statuses] using l4⟩
    have h5 : ∃ o, ownerRule (lookup m "owner") = .ok o := by
      rcases ho with hv | hv | ⟨s, hv⟩
      · exact ⟨none, (optionalNullableString_ok_iff _ _ _).mpr (Or.inl ⟨hv, rfl⟩)⟩
      · exact ⟨some none, (optionalNullableString_ok_iff _ _ _).mpr (Or.inr (Or.inl ⟨hv, rfl⟩))⟩
      · exact ⟨some (some s),
          (optionalNullableString_ok_iff _ _ _).mpr (Or.inr (Or.inr ⟨s, hv, rfl⟩))⟩
    have h6 : ∃ o, summaryRule (lookup m "summary") = .ok o := by
      rcases hs with hv | hv | ⟨s, hv⟩
      · exact ⟨none, (optionalNullableString_ok_iff _ _ _).mpr (Or.inl ⟨hv, rfl⟩)⟩
      · exact ⟨some none, (optionalNullableString_ok_iff _ _ _).mpr (Or.inr (Or.inl ⟨hv, rfl⟩))⟩
      · exact ⟨some (some s),
          (optionalNullableString_ok_iff _ _ _).mpr (Or.inr (Or.inr ⟨s, hv, rfl⟩))⟩
    obtain ⟨o, h5⟩ := h5
    obtain ⟨su, h6⟩ := h6
    exact ⟨_, incidentShape_of_ok m t sv se st o su h1 h2 h3 h4 h5 h6⟩

/-- C11 at a body with a title of three letters and a service outside the seeded set: the
create schema accepts it. -/
theorem create_schema_accepts_iff_witness :
    incidentSchema (.obj shortTitleMembers) = .ok shortTitleData ∧
    ∃ d, incidentSchema (.obj shortTitleMembers) = .ok d :=
  ⟨rfl, (create_schema_accepts_iff (.obj shortTitleMembers)).mpr
    ⟨shortTitleMembers, rfl, ⟨"Bug", rfl, by decide⟩, ⟨"Billing", rfl, by decide⟩,
      ⟨"SEV2", rfl, by decide⟩, ⟨"OPEN", rfl, by decide⟩, Or.inl rfl, Or.inl rfl⟩⟩

theorem optionalRule_some_ok {α : Type} (rule : Option Json → Except Issue α) (v : Json)
    (t : Option α) (h : optionalRule rule (some v) = .ok t) :
    ∃ a, rule (some v) = .ok a ∧ t = some a := by
  simp only [optionalRule] at h
  cases hr : rule (some v) with
  | ok a =>
    simp only [hr] at h
    injection h with h
    exact ⟨a, rfl, h.symm⟩
  | error e => simp [hr] at h

theorem optionalRule_of_ok {α : Type} (rule : Option Json → Except Issue α) (v : Option Json)
    (h : ∀ j, v = some j → ∃ a, rule (some j) = .ok a) :
    ∃ t, optionalRule rule v = .ok t := by
  cases v with
  | none => exact ⟨none, rfl⟩
  | some j =>
    obtain ⟨a, ha⟩ := h j rfl
    exact ⟨some a, by simp [optionalRule, ha]⟩

theorem optionalNullable_eq (key : String) (v : Option Json) :
    optionalNullable (optionalNullableString key) v = optionalNullableString key v := by
  cases v <;> rfl

theorem updateShape_of_ok (m : List (String × Json)) (t sv se st : Option String)
    (o su : Option (Option String))
    (h1 : optionalRule titleRule (lookup m "title") = .ok t)
    (h2 : optionalRule serviceRule (lookup m "service") = .ok sv)
    (h3 : optionalRule severityRule (lookup m "severity") = .ok se)
    (h4 : optionalRule statusRule (lookup m "status") = .ok st)
    (h5 : optionalNullable ownerRule (lookup m "owner") = .ok o)
    (h6 : optionalNullable summaryRule (lookup m "summary") = .ok su) :
    updateShape m =
      .ok { title := t, service := sv, severity := se, status := st, owner := o,
            summary := su } := by
  simp [updateShape, h1, h2, h3, h4, h5, h6]

theorem optionalRule_of_rule_ok {α : Type} (rule : Option Json → Except Issue α)
    (v : Option Json) (a : α) (h : rule v = .ok a) (hv : v ≠ none) :
    optionalRule rule v = .ok (some a) := by
  cases v with
  | none => exact absurd rfl hv
  | some j => simp [optionalRule, h]

/-- Every body the create schema accepts is accepted by the update schema, with the same
data. -/
theorem update_accepts_create (body : Json) (d : Data) (h : incidentSchema body = .ok d) :
    updateSchema body = .ok d := by
  cases body with
  | obj m =>
    obtain ⟨t, sv, se, st, h1, h2, h3, h4, h5, h6, e1, e2, e3, e4⟩ := incidentShape_ok m d h
    have n1 : lookup m "title" ≠ none := by
      rw [((stringMin1_ok_iff _ _ _ _).mp h1).1]; simp
    have n2 : lookup m "service" ≠ none := by
      rw [((stringMin1_ok_iff _ _ _ _).mp h2).1]; simp
    have n3 : lookup m "severity" ≠ none := by
      rw [((enumOf_ok_iff _ _ _ _).mp h3).1]; simp
    have n4 : lookup m "status" ≠ none := by
      rw [((enumOf_ok_iff _ _ _ _).mp h4).1]; simp
    have key := updateShape_of_ok m (some t) (some sv) (some se) (some st) d.owner d.summary
      (optionalRule_of_rule_ok _ _ _ h1 n1) (optionalRule_of_rule_ok _ _ _ h2 n2)
      (optionalRule_of_rule_ok _ _ _ h3 n3) (optionalRule_of_rule_ok _ _ _ h4 n4)
      ((optionalNullable_eq _ _).trans h5) ((optionalNullable_eq _ _).trans h6)
    change updateShape m = .ok d
    rw [key, ← e1, ← e2, ← e3, ← e4]
  | _ => simp [incidentSchema] at h

/-- C12: the update schema accepts a body iff the body is an object in which each of the six
keys that is present passes the rule it has in the create schema. Hence the empty object is
accepted, every body the create schema accepts is accepted, and an object with a present
empty `title` or `service`, a present `severity` or `status` outside its enumeration, or a
present null `title`, `service`, `severity` or `status` is rejected. -/
theorem update_schema_accepts_iff (body : Json) :
    ((∃ d, updateSchema body = .ok d) ↔
      ∃ m, body = .obj m ∧
        (∀ v, lookup m "title" = some v → ∃ t, titleRule (some v) = .ok t) ∧
        (∀ v, lookup m "service" = some v → ∃ t, serviceRule (some v) = .ok t) ∧
        (∀ v, lookup m "severity" = some v → ∃ t, severityRule (some v) = .ok t) ∧
        (∀ v, lookup m "status" = some v → ∃ t, statusRule (some v) = .ok t) ∧
        (∀ v, lookup m "owner" = some v → ∃ t, ownerRule (some v) = .ok t) ∧
        (∀ v, lookup m "summary" = some v → ∃ t, summaryRule (some v) = .ok t)) ∧
    updateSchema (.obj []) = .ok {} ∧
    (∀ d, incidentSchema body = .ok d → updateSchema body = .ok d) ∧
    (∀ m, body = .obj m →
      (lookup m "title" = some (.str "") ∨ lookup m "service" = some (.str "") ∨
        (∃ s, lookup m "severity" = some (.str s) ∧ s ∉ severities) ∨
        (∃ s, lookup m "status" = some (.str s) ∧ s ∉ statuses) ∨
        lookup m "title" = some .null ∨ lookup m "service" = some .null ∨
        lookup m "severity" = some .null ∨ lookup m "status" = some .null) →
      ∃ issues, updateSchema body = .error issues) := by
  have hiff : (∃ d, updateSchema body = .ok d) ↔
      ∃ m, body = .obj m ∧
        (∀ v, lookup m "title" = some v → ∃ t, titleRule (some v) = .ok t) ∧
        (∀ v, lookup m "service" = some v → ∃ t, serviceRule (some v) = .ok t) ∧
        (∀ v, lookup m "severity" = some v → ∃ t, severityRule (some v) = .ok t) ∧
        (∀ v, lookup m "status" = some v → ∃ t, statusRule (some v) = .ok t) ∧
        (∀ v, lookup m "owner" = some v → ∃ t, ownerRule (some v) = .ok t) ∧
        (∀ v, lookup m "summary" = some v → ∃ t, summaryRule (some v) = .ok t) := by
    constructor
    · rintro ⟨d, h⟩
      cases body with
      | obj m =>
        obtain ⟨h1, h2, h3, h4, h5, h6⟩ := updateSchema_ok m d h
        refine ⟨m, rfl, ?_, ?_, ?_, ?_, ?_, ?_⟩
        · intro v hv
          rw [hv] at h1
          obtain ⟨a, ha, -⟩ := optionalRule_some_ok _ _ _ h1
          exact ⟨a, ha⟩
        · intro v hv
          rw [hv] at h2
          obtain ⟨a, ha, -⟩ := optionalRule_some_ok _ _ _ h2
          exact ⟨a, ha⟩
        · intro v hv
          rw [hv] at h3
          obtain ⟨a, ha, -⟩ := optionalRule_some_ok _ _ _ h3
          exact ⟨a, ha⟩
        · intro v hv
          rw [hv] at h4
          obtain ⟨a, ha, -⟩ := optionalRule_some_ok _ _ _ h4
          exact ⟨a, ha⟩
        · intro v hv
          rw [hv] at h5
          exact ⟨_, h5⟩
        · intro v hv
          rw [hv] at h6
          exact ⟨_, h6⟩
      | _ => simp [updateSchema] at h
    · rintro ⟨m, rfl, h1, h2, h3, h4, h5, h6⟩
      obtain ⟨t, e1⟩ := optionalRule_of_ok titleRule _ h1
      obtain ⟨sv, e2⟩ := optionalRule_of_ok serviceRule _ h2
      obtain ⟨se, e3⟩ := optionalRule_of_ok severityRule _ h3
      obtain ⟨st, e4⟩ := optionalRule_of_ok statusRule _ h4
      have e5 : ∃ o, optionalNullable ownerRule (lookup m "owner") = .ok o := by
        cases hl : lookup m "owner" with
        | none => exact ⟨none, rfl⟩
        | some v => exact h5 v hl
      have e6 : ∃ o, optionalNullable summaryRule (lookup m "summary") = .ok o := by
        cases hl : lookup m "summary" with
        | none => exact ⟨none, rfl⟩
        | some v => exact h6 v hl
      obtain ⟨o, e5⟩ := e5
      obtain ⟨su, e6⟩ := e6
      exact ⟨_, updateShape_of_ok m t sv se st o su e1 e2 e3 e4 e5 e6⟩
  refine ⟨hiff, rfl, update_accepts_create body, ?_⟩
  intro m hm hbad
  cases hres : updateSchema body with
  | error issues => exact ⟨issues, rfl⟩
  | ok d =>
    exfalso
    obtain ⟨m2, hm2, h1, h2, h3, h4, -, -⟩ := hiff.mp ⟨d, hres⟩
    rw [hm] at hm2
    injection hm2 with hm2
    subst hm2
    rcases hbad with hv | hv | ⟨s, hv, hs⟩ | ⟨s, hv, hs⟩ | hv | hv | hv | hv
    · obtain ⟨t, ht⟩ := h1 _ hv
      have := ((stringMin1_ok_iff _ _ _ _).mp ht)
      obtain ⟨e, hl⟩ := this
      injection e with e
      injection e with e
      subst e
      exact absurd hl (by decide)
    · obtain ⟨t, ht⟩ := h2 _ hv
      have := ((stringMin1_ok_iff _ _ _ _).mp ht)
      obtain ⟨e, hl⟩ := this
      injection e with e
      injection e with e
      subst e
      exact absurd hl (by decide)
    · obtain ⟨t, ht⟩ := h3 _ hv
      obtain ⟨e, hl⟩ := (enumOf_ok_iff _ _ _ _).mp ht
      injection e with e
      injection e with e
      subst e
      exact hs hl
    · obtain ⟨t, ht⟩ := h4 _ hv
      obtain ⟨e, hl⟩ := (enumOf_ok_iff _ _ _ _).mp ht
      injection e with e
      injection e with e
      subst e
      exact hs hl
    · obtain ⟨t, ht⟩ := h1 _ hv
      exact absurd ((stringMin1_ok_iff _ _ _ _).mp ht).1 (by simp)
    · obtain ⟨t, ht⟩ := h2 _ hv
      exact absurd ((stringMin1_ok_iff _ _ _ _).mp ht).1 (by simp)
    · obtain ⟨t, ht⟩ := h3 _ hv
      exact absurd ((enumOf_ok_iff _ _ _ _).mp ht).1 (by simp)
    · obtain ⟨t, ht⟩ := h4 _ hv
      exact absurd ((enumOf_ok_iff _ _ _ _).mp ht).1 (by simp)

/-- C12 on sample bodies: the empty object is accepted, an empty title and a null title are
rejected. -/
theorem update_schema_accepts_iff_witness :
    updateSchema (.obj []) = .ok {} ∧
    (∃ issues, updateSchema emptyTitleBody = .error issues) ∧
    (∃ issues, updateSchema nullTitleBody = .error issues) :=
  ⟨(update_schema_accepts_iff (.obj [])).2.1,
    (update_schema_accepts_iff emptyTitleBody).2.2.2 _ rfl (Or.inl rfl),
    (update_schema_accepts_iff nullTitleBody).2.2.2 _ rfl
      (Or.inr (Or.inr (Or.inr (Or.inr (Or.inl rfl)))))⟩

/-! ## The write handlers, case by case -/

/-- The three outcomes of the create handler. -/
theorem createIncident_cases (db : List Incident) (newId : String) (now : Nat) (body : Json) :
    (∃ issues, incidentSchema body = .error issues ∧
      createIncident db newId now body =
        ({ status := 400, body := .errors (format issues) }, db)) ∨
    (∃ d, incidentSchema body = .ok d ∧ db.any (fun r => r.id = newId) = true ∧
      createIncident db newId now body = (internalError, db)) ∨
    (∃ d t sv se st, incidentSchema body = .ok d ∧ d.title = some t ∧ d.service = some sv ∧
      d.severity = some se ∧ d.status = some st ∧ db.any (fun r => r.id = newId) = false ∧
      createIncident db newId now body =
        ({ status := 201, body := .incident (newRow d t sv se st newId now) },
          db ++ [newRow d t sv se st newId now])) := by
  cases hs : incidentSchema body with
  | error issues => exact Or.inl ⟨issues, rfl, by simp [createIncident, hs]⟩
  | ok d =>
    right
    have hobj : ∃ m, body = .obj m := by
      cases body with
      | obj m => exact ⟨m, rfl⟩
      | _ => simp [incidentSchema] at hs
    obtain ⟨m, rfl⟩ := hobj
    obtain ⟨t, sv, se, st, -, -, -, -, -, -, e1, e2, e3, e4⟩ := incidentShape_ok m d hs
    cases hany : db.any (fun r => r.id = newId) with
    | true =>
      left
      refine ⟨d, rfl, rfl, ?_⟩
      simp only [createIncident, hs, create, e1, e2, e3, e4]
      simp [hany]
    | false =>
      right
      refine ⟨d, t, sv, se, st, rfl, e1, e2, e3, e4, rfl, ?_⟩
      simp only [createIncident, hs, create, e1, e2, e3, e4]
      simp [hany, newRow]

/-- The three outcomes of the update handler. -/
theorem updateIncident_cases (db : List Incident) (now : Nat) (id : String) (body : Json) :
    (∃ issues, updateSchema body = .error issues ∧
      updateIncident db now id body =
        ({ status := 400, body := .errors (format issues) }, db)) ∨
    (∃ d, updateSchema body = .ok d ∧ findUnique db id = none ∧
      updateIncident db now id body = (notFound, db)) ∨
    (∃ d r, updateSchema body = .ok d ∧ findUnique db id = some r ∧
      updateIncident db now id body =
        ({ status := 200, body := .incident (applyData r d now) },
          db.map (fun x => if x.id = id then applyData x d now else x))) := by
  cases hs : updateSchema body with
  | error issues => exact Or.inl ⟨issues, rfl, by simp [updateIncident, hs]⟩
  | ok d =>
    right
    cases hf : findUnique db id with
    | none =>
      left
      refine ⟨d, rfl, rfl, ?_⟩
      simp [updateIncident, hs, update, hf, StoreError.code]
    | some r =>
      right
      refine ⟨d, r, rfl, rfl, ?_⟩
      simp [updateIncident, hs, update, hf]

theorem createIncident_keeps_rows (db : List Incident) (newId : String) (now : Nat)
    (body : Json) (i : Nat) (x : Incident) (h : db[i]? = some x) :
    (createIncident db newId now body).2[i]? = some x := by
  rcases createIncident_cases db newId now body with ⟨_, -, e⟩ | ⟨_, -, -, e⟩ |
    ⟨d, t, sv, se, st, -, -, -, -, -, -, e⟩
  · rw [e]; exact h
  · rw [e]; exact h
  · rw [e]
    have hi : i < db.length := (List.getElem?_eq_some.mp h).1
    simp only [List.getElem?_append_left hi]
    exact h

theorem updateIncident_keeps_keys (db : List Incident) (now : Nat) (id : String)
    (body : Json) (i : Nat) (x : Incident) (h : db[i]? = some x) :
    ∃ y, (updateIncident db now id body).2[i]? = some y ∧ y.id = x.id ∧
      y.createdAt = x.createdAt := by
  rcases updateIncident_cases db now id body with ⟨_, -, e⟩ | ⟨_, -, -, e⟩ | ⟨d, r, -, -, e⟩
  · rw [e]; exact ⟨x, h, rfl, rfl⟩
  · rw [e]; exact ⟨x, h, rfl, rfl⟩
  · rw [e]
    by_cases hx : x.id = id
    · exact ⟨applyData x d now, by simp [List.getElem?_map, h, hx], rfl, rfl⟩
    · exact ⟨x, by simp [List.getElem?_map, h, hx], rfl, rfl⟩

theorem shapes_depend_on_schema_keys (m m2 : List (String × Json))
    (h : ∀ k ∈ schemaKeys, lookup m2 k = lookup m k) :
    incidentSchema (.obj m2) = incidentSchema (.obj m) ∧
    updateSchema (.obj m2) = updateSchema (.obj m) := by
  have h1 := h "title" (by decide)
  have h2 := h "service" (by decide)
  have h3 := h "severity" (by decide)
  have h4 := h "status" (by decide)
  have h5 := h "owner" (by decide)
  have h6 := h "summary" (by decide)
  constructor
  · change incidentShape m2 = incidentShape m
    unfold incidentShape
    rw [h1, h2, h3, h4, h5, h6]
  · change updateShape m2 = updateShape m
    unfold updateShape
    rw [h1, h2, h3, h4, h5, h6]

/-- C13: for a body accepted by the create or the update schema, the data handed to the store
has each of the six keys exactly when the body has it, with the submitted value; the data
depends on no other key of the body; the handlers pass this data to the store; and whatever
the body, a created row carries the generated identifier and the instant of creation, and
every row of the table keeps its `id` and `createdAt` through a create or an update. -/
theorem store_data_only_recognised_keys (db : List Incident) (newId : String) (now : Nat)
    (id : String) (m : List (String × Json)) (d : Data)
    (hacc : incidentSchema (.obj m) = .ok d ∨ updateSchema (.obj m) = .ok d) :
    ((lookup m "title" = none ∧ d.title = none) ∨
      ∃ s, lookup m "title" = some (.str s) ∧ d.title = some s) ∧
    ((lookup m "service" = none ∧ d.service = none) ∨
      ∃ s, lookup m "service" = some (.str s) ∧ d.service = some s) ∧
    ((lookup m "severity" = none ∧ d.severity = none) ∨
      ∃ s, lookup m "severity" = some (.str s) ∧ d.severity = some s) ∧
    ((lookup m "status" = none ∧ d.status = none) ∨
      ∃ s, lookup m "status" = some (.str s) ∧ d.status = some s) ∧
    ((lookup m "owner" = none ∧ d.owner = none) ∨
      (lookup m "owner" = some .null ∧ d.owner = some none) ∨
      ∃ s, lookup m "owner" = some (.str s) ∧ d.owner = some (some s)) ∧
    ((lookup m "summary" = none ∧ d.summary = none) ∨
      (lookup m "summary" = some .null ∧ d.summary = some none) ∨
      ∃ s, lookup m "summary" = some (.str s) ∧ d.summary = some (some s)) ∧
    (∀ m2, (∀ k ∈ schemaKeys, lookup m2 k = lookup m k) →
      incidentSchema (.obj m2) = incidentSchema (.obj m) ∧
      updateSchema (.obj m2) = updateSchema (.obj m)) ∧
    (incidentSchema (.obj m) = .ok d →
      createIncident db newId now (.obj m) =
        match create db d newId now with
        | .ok (incident, db2) => ({ status := 201, body := .incident incident }, db2)
        | .error _ => (internalError, db)) ∧
    (∀ r, (createIncident db newId now (.obj m)).1.body = .incident r →
      r.id = newId ∧ r.createdAt = now) ∧
    (∀ (i : Nat) (x : Incident), db[i]? = some x →
      (createIncident db newId now (.obj m)).2[i]? = some x) ∧
    (∀ (i : Nat) (x : Incident), db[i]? = some x →
      ∃ y, (updateIncident db now id (.obj m)).2[i]? = some y ∧ y.id = x.id ∧
        y.createdAt = x.createdAt) := by
  have hupd : updateSchema (.obj m) = .ok d := by
    rcases hacc with h | h
    · exact update_accepts_create _ d h
    · exact h
  obtain ⟨h1, h2, h3, h4, h5, h6⟩ := updateSchema_ok m d hupd
  refine ⟨?_, ?_, ?_, ?_, ?_, ?_, shapes_depend_on_schema_keys m, ?_, ?_,
    createIncident_keeps_rows db newId now _, updateIncident_keeps_keys db now id _⟩
  · rcases optional_stringMin1_ok _ _ _ _ h1 with h | ⟨s, hv, ht, -⟩
    · exact Or.inl h
    · exact Or.inr ⟨s, hv, ht⟩
  · rcases optional_stringMin1_ok _ _ _ _ h2 with h | ⟨s, hv, ht, -⟩
    · exact Or.inl h
    · exact Or.inr ⟨s, hv, ht⟩
  · rcases optional_enumOf_ok _ _ _ _ h3 with h | ⟨s, hv, ht, -⟩
    · exact Or.inl h
    · exact Or.inr ⟨s, hv, ht⟩
  · rcases optional_enumOf_ok _ _ _ _ h4 with h | ⟨s, hv, ht, -⟩
    · exact Or.inl h
    · exact Or.inr ⟨s, hv, ht⟩
  · exact optional_nullable_ok _ _ _ h5
  · exact optional_nullable_ok _ _ _ h6
  · intro h
    simp only [createIncident, h]
  · intro r hr
    rcases createIncident_cases db newId now (.obj m) with ⟨_, -, e⟩ | ⟨_, -, -, e⟩ |
      ⟨d2, t, sv, se, st, -, -, -, -, -, -, e⟩
    · rw [e] at hr; simp at hr
    · rw [e] at hr; simp [internalError] at hr
    · rw [e] at hr
      simp only [Body.incident.injEq] at hr
      subst hr
      exact ⟨rfl, rfl⟩

/-- C13 at a create body that also carries `id`, `createdAt` and `updatedAt`: the data is that
of the body without them, and the created row has the generated identifier and instant. -/
theorem store_data_only_recognised_keys_witness :
    incidentSchema (.obj forgedMembers) = .ok shortTitleData ∧
    incidentSchema (.obj forgedMembers) = incidentSchema (.obj shortTitleMembers) ∧
    createIncident sampleDb "n1" 9 (.obj forgedMembers) =
      ({ status := 201, body := .incident createdRow }, sampleDb ++ [createdRow]) ∧
    createdRow.id = "n1" ∧ createdRow.createdAt = 9 :=
  ⟨rfl,
    ((store_data_only_recognised_keys sampleDb "n1" 9 "a" shortTitleMembers shortTitleData
      (Or.inl rfl)).2.2.2.2.2.2.1 forgedMembers (by
        intro k hk
        simp only [schemaKeys, List.mem_cons, List.mem_singleton, List.not_mem_nil,
          or_false] at hk
        rcases hk with rfl | rfl | rfl | rfl | rfl | rfl <;> rfl)).1,
    by decide,
    (store_data_only_recognised_keys sampleDb "n1" 9 "a" forgedMembers shortTitleData
      (Or.inl rfl)).2.2.2.2.2.2.2.2.1 createdRow (by decide)⟩

theorem findUnique_none (db : List Incident) (id : String) (h : ∀ r ∈ db, r.id ≠ id) :
    findUnique db id = none := by
  unfold findUnique
  rw [List.find?_eq_none]
  intro r hr
  simpa using h r hr

/-- C14: an update addressed to an identifier no row has, with a body the update schema
accepts, is answered 404 and the table is returned as it was: nothing is created, nothing is
modified. -/
theorem update_absent_id_not_found (db : List Incident) (now : Nat) (id : String)
    (body : Json) (d : Data) (hacc : updateSchema body = .ok d)
    (habsent : ∀ r ∈ db, r.id ≠ id) :
    updateIncident db now id body = (notFound, db) ∧ notFound.status = 404 := by
  refine ⟨?_, rfl⟩
  simp [updateIncident, hacc, update, findUnique_none db id habsent, StoreError.code]

/-- C14 on the sample table with an identifier it does not hold. -/
theorem update_absent_id_not_found_witness :
    updateSchema (.obj resolveMembers) = .ok { status := some "RESOLVED" } ∧
    (∀ r ∈ sampleDb, r.id ≠ absentId) ∧
    updateIncident sampleDb 9 absentId (.obj resolveMembers) = (notFound, sampleDb) :=
  ⟨rfl, by decide,
    (update_absent_id_not_found sampleDb 9 absentId (.obj resolveMembers)
      { status := some "RESOLVED" } rfl (by decide)).1⟩

theorem ne_empty_of_length (s : String) (h : 1 ≤ s.length) : s ≠ "" := by
  intro hs
  subst hs
  exact absurd h (by decide)

theorem applyData_valid (x : Incident) (d : Data) (now : Nat) (m : List (String × Json))
    (hd : updateSchema (.obj m) = .ok d) (hx : validRow x) : validRow (applyData x d now) := by
  obtain ⟨h1, h2, h3, h4, -, -⟩ := updateSchema_ok m d hd
  obtain ⟨v1, v2, v3, v4⟩ := hx
  refine ⟨?_, ?_, ?_, ?_⟩
  · rcases optional_stringMin1_ok _ _ _ _ h1 with ⟨-, ht⟩ | ⟨s, -, ht, hl⟩
    · simpa [applyData, ht] using v1
    · simpa [applyData, ht] using ne_empty_of_length s hl
  · rcases optional_stringMin1_ok _ _ _ _ h2 with ⟨-, ht⟩ | ⟨s, -, ht, hl⟩
    · simpa [applyData, ht] using v2
    · simpa [applyData, ht] using ne_empty_of_length s hl
  · rcases optional_enumOf_ok _ _ _ _ h3 with ⟨-, ht⟩ | ⟨s, -, ht, hl⟩
    · simpa [applyData, ht] using v3
    · simpa [applyData, ht] using hl
  · rcases optional_enumOf_ok _ _ _ _ h4 with ⟨-, ht⟩ | ⟨s, -, ht, hl⟩
    · simpa [applyData, ht] using v4
    · simpa [applyData, ht] using hl

theorem accepted_is_object (body : Json) (d : Data)
    (h : incidentSchema body = .ok d ∨ updateSchema body = .ok d) : ∃ m, body = .obj m := by
  cases body with
  | obj m => exact ⟨m, rfl⟩
  | _ => rcases h with h | h <;> simp [incidentSchema, updateSchema] at h

/-- C15: if every row of the table has a non-empty `title`, a non-empty `service`, a
`severity` among SEV1..SEV4 and a `status` among OPEN, MITIGATED, RESOLVED, then so has every
row of the table after a create or an update request, whatever the body. -/
theorem writes_keep_rows_valid (db : List Incident) (newId : String) (now : Nat)
    (id : String) (body : Json) (hinv : ∀ r ∈ db, validRow r) :
    (∀ r ∈ (createIncident db newId now body).2, validRow r) ∧
    (∀ r ∈ (updateIncident db now id body).2, validRow r) := by
  constructor
  · rcases createIncident_cases db newId now body with ⟨_, -, e⟩ | ⟨_, -, -, e⟩ |
      ⟨d, t, sv, se, st, hd, e1, e2, e3, e4, -, e⟩
    · rw [e]; exact hinv
    · rw [e]; exact hinv
    · rw [e]
      intro r hr
      rcases List.mem_append.mp hr with hr | hr
      · exact hinv r hr
      · obtain ⟨m, rfl⟩ := accepted_is_object body d (Or.inl hd)
        obtain ⟨t2, sv2, se2, st2, h1, h2, h3, h4, -, -, f1, f2, f3, f4⟩ :=
          incidentShape_ok m d hd
        rw [e1] at f1
        rw [e2] at f2
        rw [e3] at f3
        rw [e4] at f4
        injection f1 with f1
        injection f2 with f2
        injection f3 with f3
        injection f4 with f4
        subst f1 f2 f3 f4
        simp only [List.mem_singleton] at hr
        subst hr
        exact ⟨ne_empty_of_length _ ((stringMin1_ok_iff _ _ _ _).mp h1).2,
          ne_empty_of_length _ ((stringMin1_ok_iff _ _ _ _).mp h2).2,
          ((enumOf_ok_iff _ _ _ _).mp h3).2, ((enumOf_ok_iff _ _ _ _).mp h4).2⟩
  · rcases updateIncident_cases db now id body with ⟨_, -, e⟩ | ⟨_, -, -, e⟩ |
      ⟨d, r0, hd, -, e⟩
    · rw [e]; exact hinv
    · rw [e]; exact hinv
    · rw [e]
      intro r hr
      obtain ⟨m, rfl⟩ := accepted_is_object body d (Or.inr hd)
      obtain ⟨x, hx, rfl⟩ := List.mem_map.mp hr
      by_cases hid : x.id = id
      · simp only [hid, if_true]
        exact applyData_valid x d now m hd (hinv x hx)
      · simp only [hid, if_false]
        exact hinv x hx

/-- C15 on the sample table, whose rows are valid: they are after creating from the sample
body and after resolving the second row. -/
theorem writes_keep_rows_valid_witness :
    (∀ r ∈ sampleDb, validRow r) ∧
    (∀ r ∈ (createIncident sampleDb "n1" 9 (.obj shortTitleMembers)).2, validRow r) ∧
    (∀ r ∈ (updateIncident sampleDb 9 "b" (.obj resolveMembers)).2, validRow r) :=
  ⟨by decide,
    (writes_keep_rows_valid sampleDb "n1" 9 "b" (.obj shortTitleMembers) (by decide)).1,
    (writes_keep_rows_valid sampleDb "n1" 9 "b" (.obj resolveMembers) (by decide)).2⟩

theorem findUnique_append_fresh (db : List Incident) (r : Incident)
    (h : ∀ x ∈ db, x.id ≠ r.id) : findUnique (db ++ [r]) r.id = some r := by
  have h0 := findUnique_none db r.id h
  unfold findUnique at h0 ⊢
  rw [List.find?_append, h0]
  simp

/-- C16: for a body the create schema accepts and a generated identifier no row has yet,
create answers 201 with a row carrying that identifier and appends it to the table; a get on
that identifier right afterwards answers 200 with the same row; the row has the body's value
on every submitted key (null for a submitted null, and for an `owner` or `summary` not
submitted), and its `createdAt` equals its `updatedAt`. -/
theorem create_then_get (db : List Incident) (newId : String) (now : Nat)
    (m : List (String × Json)) (d : Data) (hacc : incidentSchema (.obj m) = .ok d)
    (hfresh : ∀ r ∈ db, r.id ≠ newId) :
    ∃ r, createIncident db newId now (.obj m) =
        ({ status := 201, body := .incident r }, db ++ [r]) ∧
      r.id = newId ∧
      getIncident (createIncident db newId now (.obj m)).2 r.id =
        { status := 200, body := .incident r } ∧
      lookup m "title" = some (.str r.title) ∧
      lookup m "service" = some (.str r.service) ∧
      lookup m "severity" = some (.str r.severity) ∧
      lookup m "status" = some (.str r.status) ∧
      ((lookup m "owner" = none ∧ r.owner = none) ∨
        (lookup m "owner" = some .null ∧ r.owner = none) ∨
        ∃ s, lookup m "owner" = some (.str s) ∧ r.owner = some s) ∧
      ((lookup m "summary" = none ∧ r.summary = none) ∨
        (lookup m "summary" = some .null ∧ r.summary = none) ∨
        ∃ s, lookup m "summary" = some (.str s) ∧ r.summary = some s) ∧
      r.createdAt = r.updatedAt := by
  have hany : db.any (fun r => r.id = newId) = false := by
    rw [List.any_eq_false]
    intro x hx
    simpa using hfresh x hx
  rcases createIncident_cases db newId now (.obj m) with ⟨_, hs, -⟩ | ⟨_, -, ha, -⟩ |
    ⟨d2, t, sv, se, st, hd, e1, e2, e3, e4, -, e⟩
  · rw [hacc] at hs
    exact absurd hs (by simp)
  · rw [hany] at ha
    exact absurd ha (by simp)
  · rw [hacc] at hd
    injection hd with hd
    subst hd
    obtain ⟨t2, sv2, se2, st2, h1, h2, h3, h4, h5, h6, f1, f2, f3, f4⟩ :=
      incidentShape_ok m d hacc
    rw [e1] at f1
    rw [e2] at f2
    rw [e3] at f3
    rw [e4] at f4
    injection f1 with f1
    injection f2 with f2
    injection f3 with f3
    injection f4 with f4
    subst f1 f2 f3 f4
    refine ⟨newRow d t sv se st newId now, e, rfl, ?_, ((stringMin1_ok_iff _ _ _ _).mp h1).1,
      ((stringMin1_ok_iff _ _ _ _).mp h2).1, ((enumOf_ok_iff _ _ _ _).mp h3).1,
      ((enumOf_ok_iff _ _ _ _).mp h4).1, ?_, ?_, rfl⟩
    · rw [e]
      have := findUnique_append_fresh db (newRow d t sv se st newId now) hfresh
      simp only [getIncident, this]
    · rcases (optionalNullableString_ok_iff _ _ _).mp h5 with ⟨hv, ho⟩ | ⟨hv, ho⟩ | ⟨s, hv, ho⟩
      · exact Or.inl ⟨hv, by simp [newRow, ho, setNullable]⟩
      · exact Or.inr (Or.inl ⟨hv, by simp [newRow, ho, setNullable]⟩)
      · exact Or.inr (Or.inr ⟨s, hv, by simp [newRow, ho, setNullable]⟩)
    · rcases (optionalNullableString_ok_iff _ _ _).mp h6 with ⟨hv, ho⟩ | ⟨hv, ho⟩ | ⟨s, hv, ho⟩
      · exact Or.inl ⟨hv, by simp [newRow, ho, setNullable]⟩
      · exact Or.inr (Or.inl ⟨hv, by simp [newRow, ho, setNullable]⟩)
      · exact Or.inr (Or.inr ⟨s, hv, by simp [newRow, ho, setNullable]⟩)

/-- C16 on the sample table: creating from the sample body and getting the new identifier. -/
theorem create_then_get_witness :
    incidentSchema (.obj shortTitleMembers) = .ok shortTitleData ∧
    (∀ r ∈ sampleDb, r.id ≠ "n1") ∧
    createIncident sampleDb "n1" 9 (.obj shortTitleMembers) =
      ({ status := 201, body := .incident createdRow }, sampleDb ++ [createdRow]) ∧
    getIncident (sampleDb ++ [createdRow]) "n1" =
      { status := 200, body := .incident createdRow } ∧
    ∃ r, createIncident sampleDb "n1" 9 (.obj shortTitleMembers) =
        ({ status := 201, body := .incident r }, sampleDb ++ [r]) ∧
      r.id = "n1" ∧
      getIncident (createIncident sampleDb "n1" 9 (.obj shortTitleMembers)).2 r.id =
        { status := 200, body := .incident r } :=
  ⟨rfl, by decide, by decide, by decide,
    (create_then_get sampleDb "n1" 9 shortTitleMembers shortTitleData rfl (by decide)).imp
      fun _ h => ⟨h.1, h.2.1, h.2.2.1⟩⟩

/-- C17: a get answers 200 with a row of the table having the path identifier when there is
one (the row with that identifier when identifiers are unique), and 404 when there is none; in
both cases the table afterwards is the table before. -/
theorem get_by_id (db : List Incident) (id : String) :
    ((∃ r ∈ db, r.id = id) →
      ∃ r ∈ db, r.id = id ∧
        (getIncidentStep db id).1 = { status := 200, body := .incident r }) ∧
    ((db.map (fun r => r.id)).Nodup → ∀ r ∈ db, r.id = id →
      (getIncidentStep db id).1 = { status := 200, body := .incident r }) ∧
    ((∀ r ∈ db, r.id ≠ id) →
      (getIncidentStep db id).1 = notFound ∧ notFound.status = 404) ∧
    (getIncidentStep db id).2 = db := by
  have hsome : (∃ r ∈ db, r.id = id) →
      ∃ r ∈ db, r.id = id ∧ getIncident db id = { status := 200, body := .incident r } := by
    rintro ⟨r, hr, hid⟩
    cases hf : findUnique db id with
    | none =>
      have := List.find?_eq_none.mp hf r hr
      simp [hid] at this
    | some x =>
      refine ⟨x, List.mem_of_find?_eq_some hf, findUnique_some db id x hf, ?_⟩
      simp [getIncident, hf]
  refine ⟨hsome, ?_, ?_, rfl⟩
  · intro hnd r hr hid
    obtain ⟨x, hx, hxid, hget⟩ := hsome ⟨r, hr, hid⟩
    have : x = r := List.inj_on_of_nodup_map hnd hx hr (by rw [hxid, hid])
    rw [← this]
    exact hget
  · intro h
    refine ⟨?_, rfl⟩
    simp [getIncidentStep, getIncident, findUnique_none db id h]

/-- C17 on the sample table: the second row is found, an unknown identifier is not. -/
theorem get_by_id_witness :
    (∃ r ∈ sampleDb, r.id = "b") ∧
    (∀ r ∈ sampleDb, r.id ≠ absentId) ∧
    (getIncidentStep sampleDb "b").1 = { status := 200, body := .incident rowB } ∧
    (getIncidentStep sampleDb absentId).1 = notFound ∧
    (getIncidentStep sampleDb "b").2 = sampleDb :=
  ⟨by decide, by decide,
    (get_by_id sampleDb "b").2.1 (by decide) rowB (by decide) rfl,
    ((get_by_id sampleDb absentId).2.2.1 (by decide)).1,
    (get_by_id sampleDb "b").2.2.2⟩

/-! ## Repeated reads, validation order and a zero limit -/

theorem window_length_congr (s1 s2 : List Incident) (skip : Nat) (take : Int)
    (h : s1.length = s2.length) :
    (window s1 skip take).length = (window s2 skip take).length := by
  unfold window
  split <;> simp [List.length_take, List.length_drop, h]

/-- Two sorted arrangements of the same rows are equal when no two distinct rows among them
are each before the other. -/
theorem sorted_perm_unique (r : Incident → Incident → Prop) (l1 : List Incident) :
    ∀ l2 : List Incident, l1.Perm l2 → l1.Pairwise r → l2.Pairwise r →
      (∀ a ∈ l1, ∀ b ∈ l1, r a b → r b a → a = b) → l1 = l2 := by
  induction l1 with
  | nil =>
    intro l2 hp _ _ _
    exact (List.Perm.eq_nil hp.symm).symm
  | cons a t ih =>
    intro l2 hp h1 h2 hanti
    cases l2 with
    | nil => exact absurd hp.length_eq (by simp)
    | cons b t2 =>
      have hab : a = b := by
        by_contra hne
        have ha : a ∈ t2 := by
          rcases List.mem_cons.mp (hp.subset (List.mem_cons_self a t)) with h | h
          · exact absurd h hne
          · exact h
        have hb : b ∈ t := by
          rcases List.mem_cons.mp (hp.symm.subset (List.mem_cons_self b t2)) with h | h
          · exact absurd h.symm hne
          · exact h
        have r1 : r a b := (List.pairwise_cons.mp h1).1 b hb
        have r2 : r b a := (List.pairwise_cons.mp h2).1 a ha
        exact hne (hanti a (List.mem_cons_self a t) b (List.mem_cons_of_mem a hb) r1 r2)
      subst hab
      have hp2 : t.Perm t2 := List.Perm.cons_inv hp
      rw [ih t2 hp2 (List.pairwise_cons.mp h1).2 (List.pairwise_cons.mp h2).2
        (fun x hx y hy => hanti x (List.mem_cons_of_mem a hx) y (List.mem_cons_of_mem a hy))]

/-- The list handler spelled out on the four arguments the store validates. -/
theorem listIncidents_eq (E : Engine) (db : List Incident) (q : Query) :
    listIncidents E db q =
      match (skipOf q).toInt?, (takeOf q).toInt?, SortField.ofName (sortArg q),
        SortOrder.ofName (orderArg q) with
      | some sk, some tk, some f, some o =>
        if sk < 0 ∨ fitsInt64 sk = false ∨ fitsInt64 tk = false then internalError
        else
          { status := 200
            body := .list (window (E.orderBy f o (matching E db (buildWhere q))) sk.toNat tk)
              { total := (matching E db (buildWhere q)).length
                page := parseInt (pageArg q)
                limit := parseInt (limitArg q)
                totalPages := JsNum.ceilDiv (matching E db (buildWhere q)).length (takeOf q) } }
      | _, _, _, _ => internalError := by
  unfold listIncidents findMany count
  cases hs : (skipOf q).toInt? <;> cases ht : (takeOf q).toInt? <;>
    cases hf : SortField.ofName (sortArg q) <;> cases ho : SortOrder.ofName (orderArg q) <;>
    (simp only [hs, ht, hf, ho]; try rfl)
  rename_i sk tk f o
  by_cases hbad : sk < 0 ∨ fitsInt64 sk = false ∨ fitsInt64 tk = false
  · simp only [if_pos hbad]
  · simp only [if_neg hbad]

theorem matching_congr (E E2 : Engine) (db : List Incident) (w : Where)
    (hc : E2.contains = E.contains) : matching E2 db w = matching E db w := by
  unfold matching
  congr 1
  funext r
  unfold Where.holds
  have : Contains.holds E2 r = Contains.holds E r := by
    funext c
    cases c <;> simp [Contains.holds, hc]
  rw [this]

/-- C18, as stated, fails: the handler sorts on one key with no tie-break, and the store may
return rows with equal keys in either order. On a table of two rows created at the same
instant, two stores that both meet the ordering contract answer the request for the first
row in the default order with different `data`. -/
theorem tied_rows_order_not_fixed :
    lastFirstEngine.contains = refEngine.contains ∧
    rowA.createdAt = rowTwin.createdAt ∧
    listIncidents refEngine tiedDb firstRowQuery =
      { status := 200
        body := .list [rowA]
          { total := 2, page := .int 1, limit := .int 1, totalPages := .int 2 } } ∧
    listIncidents lastFirstEngine tiedDb firstRowQuery =
      { status := 200
        body := .list [rowTwin]
          { total := 2, page := .int 1, limit := .int 1, totalPages := .int 2 } } ∧
    listIncidents lastFirstEngine tiedDb firstRowQuery ≠
      listIncidents refEngine tiedDb firstRowQuery :=
  ⟨rfl, rfl, by decide, by decide, by decide⟩

/-- C18, amended: take the same list request issued twice on the same table content, each
time served in an order the store is free to choose among rows with equal sort keys (two
engines with the same search). The first request leaves the table as it was; the two answers
have the same status; when both are 200 they carry identical `pagination` and the same number
of rows in `data`; and when no two distinct rows matching the filters have equal sort keys,
the two answers are identical (same `data` in the same order, same `pagination`). -/
theorem list_repeat_same (E E2 : Engine) (db : List Incident) (q : Query)
    (hc : E2.contains = E.contains) :
    (listIncidentsStep E db q).2 = db ∧
    (listIncidents E2 (listIncidentsStep E db q).2 q).status = (listIncidents E db q).status ∧
    (∀ (data data2 : List Incident) (pg pg2 : Pagination),
      listIncidents E db q = { status := 200, body := .list data pg } →
      listIncidents E2 (listIncidentsStep E db q).2 q =
        { status := 200, body := .list data2 pg2 } →
      pg2 = pg ∧ data2.length = data.length) ∧
    ((∀ f o, SortField.ofName (q.sort.getD "createdAt") = some f →
        SortOrder.ofName (q.order.getD "desc") = some o →
        ∀ a ∈ db.filter (matchesFilters E q), ∀ b ∈ db.filter (matchesFilters E q),
          rowLe f o a b = true → rowLe f o b a = true → a = b) →
      listIncidents E2 (listIncidentsStep E db q).2 q = listIncidents E db q) := by
  have hm := matching_congr E E2 db (buildWhere q) hc
  have hstep : (listIncidentsStep E db q).2 = db := rfl
  rw [hstep]
  refine ⟨rfl, ?_, ?_, ?_⟩
  · rw [listIncidents_eq E db q, listIncidents_eq E2 db q]
    cases hs : (skipOf q).toInt? <;> cases ht : (takeOf q).toInt? <;>
      cases hf : SortField.ofName (sortArg q) <;> cases ho : SortOrder.ofName (orderArg q) <;>
      try rfl
    simp only []
    split <;> rfl
  · intro data data2 pg pg2 h1 h2
    obtain ⟨sk, tk, f, o, hs, -, ht, -, -, hd, hpg⟩ := listIncidents_ok E db q data pg h1
    obtain ⟨sk2, tk2, f2, o2, hs2, -, ht2, -, -, hd2, hpg2⟩ :=
      listIncidents_ok E2 db q data2 pg2 h2
    rw [hs] at hs2
    rw [ht] at ht2
    injection hs2 with hs2
    injection ht2 with ht2
    subst hs2 ht2
    refine ⟨by rw [hpg, hpg2, hm], ?_⟩
    rw [hd, hd2, hm]
    apply window_length_congr
    rw [(E2.orderBy_perm f2 o2 _).length_eq, (E.orderBy_perm f o _).length_eq]
  · intro hties
    rw [listIncidents_eq E db q, listIncidents_eq E2 db q, hm]
    cases hs : (skipOf q).toInt? <;> cases ht : (takeOf q).toInt? <;>
      cases hf : SortField.ofName (sortArg q) <;> cases ho : SortOrder.ofName (orderArg q) <;>
      try rfl
    rename_i sk tk f o
    have hsame : E2.orderBy f o (matching E db (buildWhere q)) =
        E.orderBy f o (matching E db (buildWhere q)) := by
      apply sorted_perm_unique (fun a b => rowLe f o a b = true)
      · exact (E2.orderBy_perm f o _).trans (E.orderBy_perm f o _).symm
      · exact E2.orderBy_sorted f o _
      · exact E.orderBy_sorted f o _
      · intro a ha b hb hab hba
        rw [sortArg_eq] at hf
        rw [orderArg_eq] at ho
        have ha2 := (E2.orderBy_perm f o _).mem_iff.mp ha
        have hb2 := (E2.orderBy_perm f o _).mem_iff.mp hb
        rw [matching_buildWhere] at ha2 hb2
        exact hties f o hf ho a ha2 b hb2 hab hba
    simp only [hsame]

/-- C18 amended, on the sample table, whose rows have distinct `createdAt`: the default
request gets the same answer from the two engines. -/
theorem list_repeat_same_witness :
    lastFirstEngine.contains = refEngine.contains ∧
    listIncidents lastFirstEngine (listIncidentsStep refEngine sampleDb {}).2 {} =
      listIncidents refEngine sampleDb {} ∧
    listIncidents refEngine sampleDb {} =
      { status := 200
        body := .list [rowC, rowB, rowA]
          { total := 3, page := .int 1, limit := .int 10, totalPages := .int 1 } } :=
  ⟨rfl,
    (list_repeat_same refEngine lastFirstEngine sampleDb {} rfl).2.2.2
      (fun f o hf ho => by
        cases Option.some.inj (show some SortField.createdAt = some f from hf)
        cases Option.some.inj (show some SortOrder.desc = some o from ho)
        decide),
    sample_default_response⟩

/-- C19: an update whose body the update schema rejects is answered 400 with the error report
whatever the table and the identifier, present or not: the answer is not 404, and it is the
same for every table and identifier. -/
theorem update_validates_before_lookup (db : List Incident) (now : Nat) (id : String)
    (body : Json) (issues : List Issue) (hrej : updateSchema body = .error issues) :
    updateIncident db now id body =
      ({ status := 400, body := .errors (format issues) }, db) ∧
    (updateIncident db now id body).1 ≠ notFound ∧
    (∀ (db2 : List Incident) (id2 : String),
      (updateIncident db2 now id2 body).1 = (updateIncident db now id body).1) := by
  have key : ∀ (db2 : List Incident) (id2 : String), updateIncident db2 now id2 body =
      ({ status := 400, body := .errors (format issues) }, db2) := by
    intro db2 id2
    simp [updateIncident, hrej]
  refine ⟨key db id, ?_, ?_⟩
  · rw [key db id]
    simp [notFound]
  · intro db2 id2
    rw [key db id, key db2 id2]

/-- C19 on the sample table: a status outside the enumeration sent to an identifier the table
does not hold is answered 400, though the identifier alone would give 404. -/
theorem update_validates_before_lookup_witness :
    updateSchema badStatusBody = .error [defaultIssue "status" .invalid_enum_value] ∧
    findUnique sampleDb absentId = none ∧
    updateIncident sampleDb 9 absentId badStatusBody =
      ({ status := 400
         body := .errors
           { _errors := [], fields := [("status", [.default .invalid_enum_value])] } },
       sampleDb) ∧
    updateIncident sampleDb 9 absentId (.obj resolveMembers) = (notFound, sampleDb) :=
  ⟨rfl, by decide,
    (update_validates_before_lookup sampleDb 9 absentId badStatusBody
      [defaultIssue "status" .invalid_enum_value] rfl).1,
    by decide⟩

theorem shiftFrom_le_of (fuel start n t : Nat) (h : n / 2 ^ t < 2 ^ 53) (hst : start ≤ t) :
    JsNum.shiftFrom fuel start n ≤ t := by
  induction fuel generalizing start with
  | zero => exact hst
  | succ k ih =>
    unfold JsNum.shiftFrom
    split
    · exact hst
    · rename_i hbig
      apply ih
      rcases Nat.lt_or_ge start t with h1 | h1
      · exact h1
      · have h2 : start = t := le_antisymm hst h1
        subst h2
        exact absurd h hbig

theorem shiftFrom_spec (fuel start n : Nat)
    (h : JsNum.shiftFrom fuel start n < start + fuel) :
    n / 2 ^ JsNum.shiftFrom fuel start n < 2 ^ 53 := by
  induction fuel generalizing start with
  | zero =>
    unfold JsNum.shiftFrom at h
    omega
  | succ k ih =>
    unfold JsNum.shiftFrom at h ⊢
    split
    · assumption
    · rename_i hbig
      rw [if_neg hbig] at h
      apply ih
      omega

theorem significand_le (n s : Nat) : JsNum.significand n s ≤ n / 2 ^ s + 1 := by
  unfold JsNum.significand JsNum.roundHalfEven
  split <;> omega

/-- A rounded natural number is at most the largest double. -/
theorem roundNat_some_le (n m : Nat) (h : JsNum.roundNat n = some m) :
    m ≤ (2 ^ 53 - 1) * 2 ^ 971 := by
  have h971 : (2 : Nat) ^ 971 = 2 * 2 ^ 970 := by rw [pow_succ]; ring
  have hpow : ∀ e : Nat, 1 ≤ (2 : Nat) ^ e := fun _ => Nat.one_le_two_pow
  have hP := hpow 970
  unfold JsNum.roundNat at h
  by_cases h1 : n < 2 ^ 53
  · rw [if_pos h1] at h
    injection h with h
    rw [h971]
    generalize (2 : Nat) ^ 970 = P at hP
    omega
  · rw [if_neg h1] at h
    by_cases h2 : 971 < JsNum.shiftFrom 971 1 n
    · rw [if_pos h2] at h
      exact Option.noConfusion h
    · rw [if_neg h2] at h
      by_cases h3 : JsNum.shiftFrom 971 1 n = 971 ∧ JsNum.significand n 971 = 2 ^ 53
      · rw [if_pos h3] at h
        exact Option.noConfusion h
      · rw [if_neg h3] at h
        injection h with h
        rw [← h]
        have hq := shiftFrom_spec 971 1 n (by omega)
        have hsig := significand_le n (JsNum.shiftFrom 971 1 n)
        by_cases h4 : JsNum.shiftFrom 971 1 n = 971
        · rw [h4] at hsig hq ⊢
          have h5 : JsNum.significand n 971 ≠ 2 ^ 53 := fun e => h3 ⟨h4, e⟩
          exact Nat.mul_le_mul_right _ (by omega)
        · have h5 : JsNum.shiftFrom 971 1 n ≤ 970 := by omega
          have hmono : ∀ a b : Nat, a ≤ b → (2 : Nat) ^ a ≤ 2 ^ b := fun _ _ hab =>
            Nat.pow_le_pow_right (by norm_num) hab
          have h6 := hmono _ 970 h5
          have h7 : JsNum.significand n (JsNum.shiftFrom 971 1 n) ≤ 2 ^ 53 := by omega
          calc JsNum.significand n (JsNum.shiftFrom 971 1 n) * 2 ^ JsNum.shiftFrom 971 1 n
              ≤ 2 ^ 53 * 2 ^ 970 := Nat.mul_le_mul h7 h6
            _ ≤ (2 ^ 53 - 1) * 2 ^ 971 := by
              rw [h971]
              generalize (2 : Nat) ^ 970 = P
              omega

/-- A natural number up to one past the largest double rounds to a finite double. -/
theorem roundNat_finite (n : Nat) (h : n ≤ (2 ^ 53 - 1) * 2 ^ 971 + 1) :
    ∃ m, JsNum.roundNat n = some m := by
  have h971 : (2 : Nat) ^ 971 = 2 * 2 ^ 970 := by rw [pow_succ]; ring
  have hpow : ∀ e : Nat, 1 ≤ e → 2 ≤ (2 : Nat) ^ e := fun e he =>
    calc 2 = 2 ^ 1 := rfl
      _ ≤ 2 ^ e := Nat.pow_le_pow_right (by norm_num) he
  have hP := hpow 970 (by norm_num)
  unfold JsNum.roundNat
  by_cases h1 : n < 2 ^ 53
  · exact ⟨n, by rw [if_pos h1]⟩
  · rw [if_neg h1]
    have hq : n / 2 ^ 971 < 2 ^ 53 := by
      rw [Nat.div_lt_iff_lt_mul (by positivity), h971]
      rw [h971] at h
      generalize (2 : Nat) ^ 970 = P at hP h
      omega
    have h2 : ¬ 971 < JsNum.shiftFrom 971 1 n := by
      have := shiftFrom_le_of 971 1 n 971 hq (by norm_num)
      omega
    rw [if_neg h2]
    have h3 : ¬ (JsNum.shiftFrom 971 1 n = 971 ∧ JsNum.significand n 971 = 2 ^ 53) := by
      rintro ⟨-, hs⟩
      have hdm := Nat.div_add_mod n (2 ^ 971)
      have hhalf : (971 - 1 : Nat) = 970 := rfl
      unfold JsNum.significand JsNum.roundHalfEven at hs
      rw [hhalf] at hs
      rw [h971] at h hdm hs hq
      generalize (2 : Nat) ^ 970 = P at hP h hdm hs hq
      generalize n / (2 * P) = q at hdm hs hq
      generalize n % (2 * P) = r at hdm hs
      split at hs
      · have hq2 : q = 2 ^ 53 - 1 := by omega
        subst hq2
        omega
      · omega
    rw [if_neg h3]
    exact ⟨_, rfl⟩

theorem JsNum.round_bound (i : Int) (b : Bool) (k : Int)
    (h : (JsNum.round i b).toInt? = some k) : k.natAbs ≤ (2 ^ 53 - 1) * 2 ^ 971 := by
  unfold JsNum.round at h
  by_cases h0 : i = 0
  · rw [if_pos h0] at h
    have hk : k = 0 := by
      cases b <;> simp [JsNum.zero, JsNum.toInt?] at h <;> exact h.symm
    rw [hk]
    exact Nat.zero_le _
  · rw [if_neg h0] at h
    cases hr : JsNum.roundNat i.natAbs with
    | none =>
      rw [hr] at h
      cases hd : decide (i < 0) <;> rw [hd] at h <;> simp [JsNum.inf, JsNum.toInt?] at h
    | some m =>
      rw [hr] at h
      have hm := roundNat_some_le _ m hr
      simp only [JsNum.toInt?, Option.some.injEq] at h
      rw [← h]
      split
      · rw [Int.natAbs_neg, Int.natAbs_ofNat]; exact hm
      · rw [Int.natAbs_ofNat]; exact hm

theorem JsNum.round_finite (j : Int) (b : Bool) (h : j.natAbs ≤ (2 ^ 53 - 1) * 2 ^ 971 + 1) :
    ∃ k, (JsNum.round j b).toInt? = some k := by
  unfold JsNum.round
  by_cases h0 : j = 0
  · rw [if_pos h0]
    cases b
    · exact ⟨0, rfl⟩
    · exact ⟨0, rfl⟩
  · rw [if_neg h0]
    obtain ⟨m, hm⟩ := roundNat_finite _ h
    rw [hm]
    exact ⟨_, rfl⟩

/-- Every finite result of `parseInt` is a double. -/
theorem parseInt_bound (v : JsVal) (k : Int) (h : (parseInt v).toInt? = some k) :
    k.natAbs ≤ (2 ^ 53 - 1) * 2 ^ 971 := by
  unfold parseInt parseIntChars at h
  split at h
  · split at h
    · exact JsNum.round_bound _ _ k h
    · exact Option.noConfusion h
  · split at h
    · exact JsNum.round_bound _ _ k h
    · exact Option.noConfusion h
  · split at h
    · exact JsNum.round_bound _ _ k h
    · exact Option.noConfusion h

theorem JsNum.mul_finite_zero (x : JsNum) (k : Int) (hx : x.toInt? = some k) :
    (JsNum.mul x (.int 0)).toInt? = some 0 := by
  cases x with
  | int i =>
    simp only [JsNum.mul, JsNum.toInt?, mul_zero, JsNum.round, if_true]
    cases (xor (JsNum.int i).isNeg (JsNum.int 0).isNeg) <;> rfl
  | negZero =>
    simp only [JsNum.mul, JsNum.toInt?, mul_zero, JsNum.round, if_true]
    cases (xor JsNum.negZero.isNeg (JsNum.int 0).isNeg) <;> rfl
  | nan => exact Option.noConfusion hx
  | posInf => exact Option.noConfusion hx
  | negInf => exact Option.noConfusion hx

/-- One less than a finite result of `parseInt` is finite. -/
theorem parseInt_pred_finite (v : JsVal) (p : Int) (hp : (parseInt v).toInt? = some p) :
    ∃ k, (JsNum.subLit (parseInt v) 1).toInt? = some k := by
  have hb := parseInt_bound v p hp
  cases hv : parseInt v with
  | int i =>
    rw [hv] at hp
    simp only [JsNum.toInt?, Option.some.injEq] at hp
    subst hp
    exact JsNum.round_finite _ _ (by omega)
  | negZero =>
    have h1 : ((0 : Int) - 1).natAbs = 1 := rfl
    exact JsNum.round_finite _ _ (by rw [h1]; exact Nat.le_add_left 1 _)
  | nan => rw [hv] at hp; exact Option.noConfusion hp
  | posInf => rw [hv] at hp; exact Option.noConfusion hp
  | negInf => rw [hv] at hp; exact Option.noConfusion hp

theorem skipOf_of_limit_zero (q : Query) (p : Int)
    (hl : parseInt (limitArg q) = .int 0) (hp : (parseInt (pageArg q)).toInt? = some p) :
    (skipOf q).toInt? = some 0 := by
  unfold skipOf
  rw [hl]
  obtain ⟨k, hk⟩ := parseInt_pred_finite _ p hp
  exact JsNum.mul_finite_zero _ k hk

theorem skipOf_of_page_not_finite (q : Query) (hp : (parseInt (pageArg q)).toInt? = none)
    (hl : parseInt (limitArg q) = .int 0) : (skipOf q).toInt? = none := by
  unfold skipOf
  rw [hl]
  cases hv : parseInt (pageArg q) with
  | int i => rw [hv] at hp; exact Option.noConfusion hp
  | negZero => rw [hv] at hp; exact Option.noConfusion hp
  | nan => rfl
  | posInf => rfl
  | negInf => rfl

/-- C20, as stated, fails: with `limit=0` and a page that is not a number, `skip` is not a
number and the request is answered 500; and a request with `limit=0` on the first page is
answered 500 when its `order` is neither `asc` nor `desc`. -/
theorem word_page_zero_limit_is_refused :
    parseInt (limitArg wordPageZeroLimitQuery) = .int 0 ∧
    parseInt (pageArg wordPageZeroLimitQuery) = .nan ∧
    skipOf wordPageZeroLimitQuery = .nan ∧
    listIncidents refEngine sampleDb wordPageZeroLimitQuery = internalError ∧
    parseInt (limitArg limitZeroBadOrderQuery) = .int 0 ∧
    skipOf limitZeroBadOrderQuery = .int 0 ∧
    listIncidents refEngine sampleDb limitZeroBadOrderQuery = internalError := by
  decide

/-- C20, amended: take a list request whose `limit` parses to 0 and whose `sort` (default
`createdAt`) names a field of the model and whose `order` (default `desc`) is `asc` or `desc`.
Then `take` is zero. If its `page` parses to a finite number, `skip` is (plus or minus) zero
and the answer is 200 with empty `data`, the number of rows matching the filters as `total`,
and `totalPages` the quotient of `total` by zero: infinite when `total > 0`, not a number when
`total = 0`. If its `page` does not parse to a finite number, the answer is 500. In every list
response `totalPages` is computed with the parsed `limit` as divisor, and it is a finite
number exactly when the parsed `limit` is not zero. -/
theorem list_limit_zero (E : Engine) (db : List Incident) (q : Query)
    (f : SortField) (o : SortOrder)
    (hl : parseInt (limitArg q) = .int 0)
    (hf : SortField.ofName (q.sort.getD "createdAt") = some f)
    (ho : SortOrder.ofName (q.order.getD "desc") = some o) :
    takeOf q = .int 0 ∧
    (∀ p : Int, (parseInt (pageArg q)).toInt? = some p →
      (skipOf q).toInt? = some 0 ∧
      listIncidents E db q =
        { status := 200
          body := .list []
            { total := (db.filter (matchesFilters E q)).length
              page := parseInt (pageArg q)
              limit := .int 0
              totalPages := if (db.filter (matchesFilters E q)).length = 0 then .nan
                else .posInf } }) ∧
    ((parseInt (pageArg q)).toInt? = none → listIncidents E db q = internalError) ∧
    (∀ (db2 : List Incident) (q2 : Query) (data : List Incident) (pg : Pagination),
      listIncidents E db2 q2 = { status := 200, body := .list data pg } →
      pg.totalPages = JsNum.ceilDiv pg.total (parseInt (limitArg q2)) ∧
      (pg.totalPages.isFinite = true ↔ (parseInt (limitArg q2)).isZero = false)) := by
  have ht : takeOf q = .int 0 := hl
  refine ⟨ht, ?_, ?_, ?_⟩
  · intro p hp
    have hs := skipOf_of_limit_zero q p hl hp
    refine ⟨hs, ?_⟩
    have htk : (takeOf q).toInt? = some 0 := by rw [ht]; rfl
    have h64 : fitsInt64 0 = true := rfl
    unfold listIncidents findMany count
    simp only [hs, htk, sortArg_eq, orderArg_eq, hf, ho, hl, matching_buildWhere]
    simp [window, JsNum.ceilDiv, ht, h64]
  · intro hp
    exact listIncidents_of_bad_skip E db q (Or.inl (skipOf_of_page_not_finite q hp hl))
  · intro db2 q2 data pg h
    obtain ⟨sk, tk, f2, o2, -, -, htk, -, -, -, hpg⟩ := listIncidents_ok E db2 q2 data pg h
    have hto : takeOf q2 = parseInt (limitArg q2) := rfl
    rw [hto] at hpg htk
    refine ⟨by rw [hpg], ?_⟩
    rw [hpg]
    cases hlim : parseInt (limitArg q2) with
    | int t =>
      by_cases h0 : t = 0
      · subst h0
        simp only [JsNum.ceilDiv, if_true, JsNum.isZero, decide_True]
        split <;> simp [JsNum.isFinite]
      · simp only [JsNum.ceilDiv, h0, if_false, JsNum.isZero, decide_False, JsNum.ofInt,
          JsNum.zero]
        split
        · split <;> simp [JsNum.isFinite]
        · simp [JsNum.isFinite]
    | negZero =>
      simp only [JsNum.ceilDiv, JsNum.isZero]
      split <;> simp [JsNum.isFinite]
    | nan => rw [hlim] at htk; simp [JsNum.toInt?] at htk
    | posInf => rw [hlim] at htk; simp [JsNum.toInt?] at htk
    | negInf => rw [hlim] at htk; simp [JsNum.toInt?] at htk

/-- C20 amended, on the sample table at `page=3&limit=0`: three rows match, nothing is
returned and `totalPages` is infinite. -/
theorem list_limit_zero_witness :
    parseInt (limitArg limitZeroQuery) = .int 0 ∧
    SortField.ofName (limitZeroQuery.sort.getD "createdAt") = some .createdAt ∧
    SortOrder.ofName (limitZeroQuery.order.getD "desc") = some .desc ∧
    (parseInt (pageArg limitZeroQuery)).toInt? = some 3 ∧
    (skipOf limitZeroQuery).toInt? = some 0 ∧
    listIncidents refEngine sampleDb limitZeroQuery =
      { status := 200
        body := .list []
          { total := 3, page := .int 3, limit := .int 0, totalPages := .posInf } } :=
  ⟨by decide, by decide, by decide, by decide,
    (list_limit_zero refEngine sampleDb limitZeroQuery .createdAt .desc (by decide)
      (by decide) (by decide)).2.1 3 (by decide)⟩

/-! ## The client forms against the server schemas -/

theorem length_pos_of_jsLength (s : String) (h : 1 ≤ jsLength s) : 1 ≤ s.length := by
  obtain ⟨cs⟩ := s
  cases cs with
  | nil => simp [jsLength] at h
  | cons c rest => simp [String.length]

theorem stringMin5_ok (key msg : String) (v : Option Json) (t : String)
    (h : stringMin5 key msg v = .ok t) : v = some (.str t) ∧ 5 ≤ jsLength t := by
  unfold stringMin5 at h
  split at h
  · rename_i s
    by_cases hs : 5 ≤ jsLength s
    · simp only [hs, if_true] at h
      injection h with h
      subst h
      exact ⟨rfl, hs⟩
    · simp [hs] at h
  · simp at h

theorem optionalString_ok (key : String) (v : Option Json) (o : Option (Option String))
    (h : optionalString key v = .ok o) :
    (v = none ∧ o = none) ∨ ∃ s, v = some (.str s) ∧ o = some (some s) := by
  unfold optionalString at h
  split at h
  · injection h with h
    exact Or.inl ⟨rfl, h.symm⟩
  · rename_i s
    injection h with h
    exact Or.inr ⟨s, rfl, h.symm⟩
  · simp at h

theorem clientTitle_server (v : Option Json) (t : String) (h : clientTitleRule v = .ok t) :
    titleRule v = .ok t := by
  obtain ⟨hv, hl⟩ := stringMin5_ok _ _ _ _ h
  exact (stringMin1_ok_iff _ _ _ _).mpr ⟨hv, length_pos_of_jsLength t (by omega)⟩

theorem optionalString_server (key : String) (v : Option Json) (o : Option (Option String))
    (h : optionalString key v = .ok o) : optionalNullableString key v = .ok o := by
  rcases optionalString_ok key v o h with ⟨rfl, rfl⟩ | ⟨s, rfl, rfl⟩ <;> rfl

/-- Form values accepted by the create form are accepted by the server's create schema, with
the same data. -/
theorem createFormShape_server (m : List (String × Json)) (d : Data)
    (h : createFormShape m = .ok d) : incidentShape m = .ok d := by
  unfold createFormShape at h
  split at h
  · rename_i t sv se st o su h1 h2 h3 h4 h5 h6
    injection h with h
    subst h
    exact incidentShape_of_ok m t sv se st o su (clientTitle_server _ _ h1) h2 h3 h4
      (optionalString_server _ _ _ h5) (optionalString_server _ _ _ h6)
  · simp at h

/-- Form values accepted by the edit form are accepted by the server's create schema, with
the same data. -/
theorem editFormShape_server (m : List (String × Json)) (d : Data)
    (h : editFormShape m = .ok d) : incidentShape m = .ok d := by
  unfold editFormShape at h
  split at h
  · rename_i t sv se st o su h1 h2 h3 h4 h5 h6
    injection h with h
    subst h
    exact incidentShape_of_ok m t sv se st o su (clientTitle_server _ _ h1) h2 h3 h4 h5 h6
  · simp at h

theorem client_accepts_server (values : Json) (d : Data)
    (h : createFormSchema values = .ok d ∨ editFormSchema values = .ok d) :
    incidentSchema values = .ok d := by
  cases values with
  | obj m =>
    rcases h with h | h
    · exact createFormShape_server m d h
    · exact editFormShape_server m d h
  | _ => rcases h with h | h <;> simp [createFormSchema, editFormSchema] at h

theorem lookup_members (t sv se st : Option String) (o su : Option (Option String)) :
    lookup (textMember "title" t ++ textMember "service" sv ++ textMember "severity" se ++
        textMember "status" st ++ nullableMember "owner" o ++ nullableMember "summary" su)
        "title" = t.map Json.str ∧
    lookup (textMember "title" t ++ textMember "service" sv ++ textMember "severity" se ++
        textMember "status" st ++ nullableMember "owner" o ++ nullableMember "summary" su)
        "service" = sv.map Json.str ∧
    lookup (textMember "title" t ++ textMember "service" sv ++ textMember "severity" se ++
        textMember "status" st ++ nullableMember "owner" o ++ nullableMember "summary" su)
        "severity" = se.map Json.str ∧
    lookup (textMember "title" t ++ textMember "service" sv ++ textMember "severity" se ++
        textMember "status" st ++ nullableMember "owner" o ++ nullableMember "summary" su)
        "status" = st.map Json.str ∧
    lookup (textMember "title" t ++ textMember "service" sv ++ textMember "severity" se ++
        textMember "status" st ++ nullableMember "owner" o ++ nullableMember "summary" su)
        "owner" = ((nullableMember "owner" o).head?).map Prod.snd ∧
    lookup (textMember "title" t ++ textMember "service" sv ++ textMember "severity" se ++
        textMember "status" st ++ nullableMember "owner" o ++ nullableMember "summary" su)
        "summary" = ((nullableMember "summary" su).head?).map Prod.snd := by
  rcases t with _ | t <;> rcases sv with _ | sv <;> rcases se with _ | se <;>
    rcases st with _ | st <;> rcases o with _ | _ | o <;> rcases su with _ | _ | su <;>
    exact ⟨rfl, rfl, rfl, rfl, rfl, rfl⟩

theorem nullable_roundtrip (key : String) (o : Option (Option String)) :
    optionalNullableString key (((nullableMember key o).head?).map Prod.snd) = .ok o := by
  rcases o with _ | _ | s <;> rfl

/-- Data the server's create schema yields from some body is accepted again, unchanged, when
it is sent as a body. -/
theorem server_accepts_serialised (m : List (String × Json)) (d : Data)
    (h : incidentShape m = .ok d) : incidentSchema d.toJson = .ok d := by
  obtain ⟨t, sv, se, st, h1, h2, h3, h4, -, -, e1, e2, e3, e4⟩ := incidentShape_ok m d h
  obtain ⟨l1, l2, l3, l4, l5, l6⟩ :=
    lookup_members d.title d.service d.severity d.status d.owner d.summary
  rw [((stringMin1_ok_iff _ _ _ _).mp h1).1] at h1
  rw [((stringMin1_ok_iff _ _ _ _).mp h2).1] at h2
  rw [((enumOf_ok_iff _ _ _ _).mp h3).1] at h3
  rw [((enumOf_ok_iff _ _ _ _).mp h4).1] at h4
  have key := incidentShape_of_ok _ t sv se st d.owner d.summary
    (by rw [l1, e1]; exact h1) (by rw [l2, e2]; exact h2) (by rw [l3, e3]; exact h3)
    (by rw [l4, e4]; exact h4) (by rw [l5]; exact nullable_roundtrip "owner" d.owner)
    (by rw [l6]; exact nullable_roundtrip "summary" d.summary)
  change incidentShape _ = .ok d
  rw [key, ← e1, ← e2, ← e3, ← e4]

theorem createIncident_status (db : List Incident) (newId : String) (now : Nat) (body : Json)
    (d : Data) (h : incidentSchema body = .ok d) :
    (createIncident db newId now body).1.status ≠ 400 := by
  rcases createIncident_cases db newId now body with ⟨_, hs, -⟩ | ⟨_, -, -, e⟩ |
    ⟨_, _, _, _, _, -, -, -, -, -, -, e⟩
  · rw [h] at hs
    exact absurd hs (by simp)
  · rw [e]
    simp [internalError]
  · rw [e]
    simp

theorem updateIncident_status (db : List Incident) (now : Nat) (id : String) (body : Json)
    (d : Data) (h : updateSchema body = .ok d) :
    (updateIncident db now id body).1.status ≠ 400 := by
  rcases updateIncident_cases db now id body with ⟨_, hs, -⟩ | ⟨_, -, -, e⟩ | ⟨_, _, -, -, e⟩
  · rw [h] at hs
    exact absurd hs (by simp)
  · rw [e]
    simp [notFound]
  · rw [e]
    simp

/-- C21: form values accepted by the schema of the create form or by the schema of the edit
form are accepted by the server's create schema, with the same data (a title of at least five
code units has at least one character; the forms admit for `owner` and `summary` only what
the server admits). The validated data the form sends is accepted unchanged by the server's
create schema and by its update schema, so neither the create nor the update handler answers
it with 400. -/
theorem client_forms_refine_server (db : List Incident) (newId : String) (now : Nat)
    (id : String) (values : Json) (d : Data)
    (hacc : createFormSchema values = .ok d ∨ editFormSchema values = .ok d) :
    incidentSchema values = .ok d ∧
    incidentSchema d.toJson = .ok d ∧
    updateSchema d.toJson = .ok d ∧
    (createIncident db newId now d.toJson).1.status ≠ 400 ∧
    (updateIncident db now id d.toJson).1.status ≠ 400 := by
  have h1 := client_accepts_server values d hacc
  obtain ⟨m, rfl⟩ := accepted_is_object values d (Or.inl h1)
  have h2 := server_accepts_serialised m d h1
  have h3 := update_accepts_create _ d h2
  exact ⟨h1, h2, h3, createIncident_status db newId now _ d h2,
    updateIncident_status db now id _ d h3⟩

/-- C21 on sample form values with a title of six letters and an empty owner: both forms
accept them, and so does the server. -/
theorem client_forms_refine_server_witness :
    createFormSchema (.obj formMembers) = .ok formData ∧
    editFormSchema (.obj formMembers) = .ok formData ∧
    incidentSchema (.obj formMembers) = .ok formData ∧
    createIncident sampleDb "n1" 9 formData.toJson =
      ({ status := 201, body := .incident formRow }, sampleDb ++ [formRow]) ∧
    (createIncident sampleDb "n1" 9 formData.toJson).1.status ≠ 400 :=
  ⟨rfl, rfl,
    (client_forms_refine_server sampleDb "n1" 9 "b" (.obj formMembers) formData (Or.inl rfl)).1,
    by decide,
    (client_forms_refine_server sampleDb "n1" 9 "b" (.obj formMembers) formData
      (Or.inr rfl)).2.2.2.1⟩

/-! ## The dashboard footer -/

/-- The second page of two rows of the sample table. -/
theorem sample_page_two_response : listIncidents refEngine sampleDb pageTwoQuery =
    { status := 200, body := .list [rowA] pageTwoPagination } := by
  decide

/-- The default request on an empty table. -/
theorem sample_empty_response : listIncidents refEngine [] {} =
    { status := 200, body := .list [] emptyPagination } := by
  decide

/-- C22: for a list response to a request whose `page` and `limit` parse to integers `p ≥ 1`
and `l ≥ 1`, the footer shows `start = (p-1)*l + 1` and `end = min(p*l, total)`; when
`total ≥ 1` (and below `2^53`, so that the server's `skip` is the exact product) and `p` is at
most the reported `totalPages`, `1 ≤ start ≤ end ≤ total` and `end - start + 1` is the number
of rows in `data`; when `total = 0` on page 1 the footer shows `start = 1` and `end = 0`. -/
theorem footer_range (E : Engine) (db : List Incident) (q : Query) (p l : Nat)
    (data : List Incident) (pg : Pagination)
    (hp : parseInt (pageArg q) = .int p) (hp1 : 1 ≤ p)
    (hl : parseInt (limitArg q) = .int l) (hl1 : 1 ≤ l)
    (h : listIncidents E db q = { status := 200, body := .list data pg }) :
    footerStart pg = ((p : Int) - 1) * l + 1 ∧
    footerEnd pg = min ((p : Int) * l) pg.total ∧
    (1 ≤ pg.total → pg.total < 2 ^ 53 → (∃ n : Nat, pg.totalPages = .int n ∧ p ≤ n) →
      1 ≤ footerStart pg ∧ footerStart pg ≤ footerEnd pg ∧ footerEnd pg ≤ pg.total ∧
      footerEnd pg - footerStart pg + 1 = data.length) ∧
    (pg.total = 0 → p = 1 → footerStart pg = 1 ∧ footerEnd pg = 0) := by
  obtain ⟨sk, tk, f, o, hsk, -, htk, -, -, hd, hpg⟩ := listIncidents_ok E db q data pg h
  have ht : takeOf q = .int l := hl
  have hpage : pg.page = .int p := by rw [hpg, hp]
  have hlimit : pg.limit = .int l := by rw [hpg, hl]
  have hpl : p * l = (p - 1) * l + l := by
    have : p = (p - 1) + 1 := by omega
    calc p * l = ((p - 1) + 1) * l := by rw [← this]
      _ = (p - 1) * l + l := Nat.succ_mul _ _
  have hS : footerStart pg = (((p - 1) * l : Nat) : Int) + 1 := by
    simp only [footerStart, wireNumber, hpage, hlimit]
    push_cast
    have : ((p - 1 : Nat) : Int) = (p : Int) - 1 := by omega
    rw [this]
  have hE : footerEnd pg = min ((((p - 1) * l + l : Nat)) : Int) (pg.total : Int) := by
    rw [← hpl]
    simp only [footerEnd, wireNumber, hpage, hlimit]
    push_cast
    rfl
  have hS2 : footerStart pg = ((p : Int) - 1) * l + 1 := by
    rw [hS]
    push_cast
    have : ((p - 1 : Nat) : Int) = (p : Int) - 1 := by omega
    rw [this]
  have hE2 : footerEnd pg = min ((p : Int) * l) pg.total := by
    rw [hE, ← hpl]
    push_cast
    rfl
  refine ⟨hS2, hE2, ?_, ?_⟩
  · rintro htot hbound ⟨n, hn, hpn⟩
    have htp : pg.totalPages = .int (((pg.total + l - 1) / l : Nat) : Int) := by
      rw [hpg, ht]
      exact JsNum.ceilDiv_pos _ l hl1
    rw [htp] at hn
    injection hn with hn
    have hn2 : (pg.total + l - 1) / l = n := Int.ofNat.inj hn
    have h2 := (ceil_spec pg.total l hl1).2
    rw [hn2] at h2
    have h3 : p * l ≤ n * l := Nat.mul_le_mul_right l hpn
    have hnl : n * l = (n - 1) * l + l := by
      have : n = (n - 1) + 1 := by omega
      calc n * l = ((n - 1) + 1) * l := by rw [← this]
        _ = (n - 1) * l + l := Nat.succ_mul _ _
    have h4 : n - 1 ≤ (n - 1) * l := Nat.le_mul_of_pos_right _ hl1
    have h5 : (p - 1) * l ≤ (n - 1) * l := Nat.mul_le_mul_right l (by omega)
    have hs := skipOf_of_pos q p l hp hp1 hl (by omega) (by omega)
    rw [hs] at hsk
    rw [ht] at htk
    simp only [JsNum.toInt?, Option.some.injEq] at hsk htk
    have hlen : (E.orderBy f o (matching E db (buildWhere q))).length = pg.total := by
      rw [hpg]
      exact (E.orderBy_perm f o _).length_eq
    have hdl : data.length = min l (pg.total - (p - 1) * l) := by
      rw [hd, ← hsk, ← htk, Int.toNat_ofNat, window_of_nonneg, List.length_take,
        List.length_drop, hlen]
    rw [hS, hE, hdl]
    omega
  · intro h0 hp0
    subst hp0
    rw [hS, hE, h0]
    simp

/-- C22 on the sample table: the second page of two rows shows 3 to 3 of 3, and the empty
table shows 1 to 0 of 0. -/
theorem footer_range_witness :
    parseInt (pageArg pageTwoQuery) = .int (2 : Nat) ∧
    parseInt (limitArg pageTwoQuery) = .int (2 : Nat) ∧
    listIncidents refEngine sampleDb pageTwoQuery =
      { status := 200, body := .list [rowA] pageTwoPagination } ∧
    footerStart pageTwoPagination = 3 ∧ footerEnd pageTwoPagination = 3 ∧
    (footerStart emptyPagination = 1 ∧ footerEnd emptyPagination = 0) :=
  ⟨by decide, by decide, by decide,
    (footer_range refEngine sampleDb pageTwoQuery 2 2 [rowA] pageTwoPagination (by decide)
      (by decide) (by decide) (by decide) sample_page_two_response).1,
    (footer_range refEngine sampleDb pageTwoQuery 2 2 [rowA] pageTwoPagination (by decide)
      (by decide) (by decide) (by decide) sample_page_two_response).2.1,
    (footer_range refEngine [] {} 1 10 [] emptyPagination (by decide) (by decide) (by decide)
      (by decide) sample_empty_response).2.2.2 rfl rfl⟩

end IncidentTracker
